import Mathlib

/-!
# cpptraj vector/matrix primitives: a shallow embedding of `vectormath.cpp`

Conventions of the embedding.

* A C array (`double a[3]`, `double U[9]`, `double *a`) is a function from the
  cell index to the stored value, `Nat → α`; an assignment `A[i] = x` is
  `Function.update A i x`.  A routine that writes into a caller supplied buffer
  takes the buffer (its old contents) and returns the buffer after the writes.
* `double` is an arbitrary linearly ordered field `α`; the statements "in exact
  real arithmetic" are read at `α = ℝ`.
* The libm routines (`sqrt`, `sin`, `cos`, `acos`) and the constant `PI` of
  `Constants.h` are parameters of the routines that call them; at `α = ℝ` they
  are instantiated by `Real.sqrt`, `Real.sin`, `Real.cos`, `Real.arccos` and
  `Real.pi`.  `fabs` is the absolute value of the ordered field.
* `mprintf` calls produce console output only and are dropped.
-/

namespace Cpptraj

variable {α : Type} [LinearOrderedField α]

/-! ## Simple vector and matrix routines -/

/-- Source `normalize(double a[3])`: scales `a` in place by `1/sqrt(a·a)`. -/
def normalize (sqrtF : α → α) (a : Nat → α) : Nat → α :=
  let b := 1 / sqrtF (a 0 * a 0 + a 1 * a 1 + a 2 * a 2)
  let a := Function.update a 0 (a 0 * b)
  let a := Function.update a 1 (a 1 * b)
  let a := Function.update a 2 (a 2 * b)
  a

/-- Source `matrix_transpose(double M[9], double U[9])`: `M = Ut`. -/
def matrix_transpose (M U : Nat → α) : Nat → α :=
  let M := Function.update M 0 (U 0)
  let M := Function.update M 1 (U 3)
  let M := Function.update M 2 (U 6)
  let M := Function.update M 3 (U 1)
  let M := Function.update M 4 (U 4)
  let M := Function.update M 5 (U 7)
  let M := Function.update M 6 (U 2)
  let M := Function.update M 7 (U 5)
  let M := Function.update M 8 (U 8)
  M

/-- Source `matrix_times_vector(double M[3], double R[9], double V[3])`, over a
flat memory `mem` in which the three pointer arguments are the base addresses
`M`, `R`, `V`, so that the buffers may overlap.  The three cells of `V` are
read into the locals `x`, `y`, `z` before the first write to `M`; the cells of
`R` are read at the statement that uses them. -/
def matrix_times_vector (mem : Nat → α) (M R V : Nat) : Nat → α :=
  let x := mem (V + 0)
  let y := mem (V + 1)
  let z := mem (V + 2)
  let mem := Function.update mem (M + 0)
    ((mem (R + 0) * x) + (mem (R + 1) * y) + (mem (R + 2) * z))
  let mem := Function.update mem (M + 1)
    ((mem (R + 3) * x) + (mem (R + 4) * y) + (mem (R + 5) * z))
  let mem := Function.update mem (M + 2)
    ((mem (R + 6) * x) + (mem (R + 7) * y) + (mem (R + 8) * z))
  mem

/-- Source `matrix_multiply(double M[9], double Row[9], double Col[9])`, with
the output buffer `M` distinct from `Row` and `Col`. -/
def matrix_multiply (M Row Col : Nat → α) : Nat → α :=
  let M := Function.update M 0 ((Row 0 * Col 0) + (Row 1 * Col 3) + (Row 2 * Col 6))
  let M := Function.update M 1 ((Row 0 * Col 1) + (Row 1 * Col 4) + (Row 2 * Col 7))
  let M := Function.update M 2 ((Row 0 * Col 2) + (Row 1 * Col 5) + (Row 2 * Col 8))
  let M := Function.update M 3 ((Row 3 * Col 0) + (Row 4 * Col 3) + (Row 5 * Col 6))
  let M := Function.update M 4 ((Row 3 * Col 1) + (Row 4 * Col 4) + (Row 5 * Col 7))
  let M := Function.update M 5 ((Row 3 * Col 2) + (Row 4 * Col 5) + (Row 5 * Col 8))
  let M := Function.update M 6 ((Row 6 * Col 0) + (Row 7 * Col 3) + (Row 8 * Col 6))
  let M := Function.update M 7 ((Row 6 * Col 1) + (Row 7 * Col 4) + (Row 8 * Col 7))
  let M := Function.update M 8 ((Row 6 * Col 2) + (Row 7 * Col 5) + (Row 8 * Col 8))
  M

/-- Source `matrix_to_angle(double U[9])`: `acos((trace(U) - 1) / 2)`. -/
def matrix_to_angle (acosF : α → α) (U : Nat → α) : α :=
  let trace := U 0 + U 4 + U 8
  let trace := (trace - 1) / 2
  acosF trace

/-- Source `axis_of_rotation(double V[3], double U[9], double theta)`: the
returned pair is the `int` result and the buffer `V` after the call. -/
def axis_of_rotation (sinF sqrtF : α → α) (PI : α) (V U : Nat → α) (theta : α) :
    Int × (Nat → α) :=
  if theta > 0 ∧ theta < PI then
    let dx := 1 / (2 * sinF theta)
    let V := Function.update V 0 ((U 5 - U 7) * dx)
    let V := Function.update V 1 ((U 6 - U 2) * dx)
    let V := Function.update V 2 ((U 1 - U 3) * dx)
    let V := normalize sqrtF V
    (0, V)
  else
    (1, V)

/-- Source `calcRotationMatrix(double T[9], double V[3], double theta)`. -/
def calcRotationMatrix (cosF sinF : α → α) (T V : Nat → α) (theta : α) : Nat → α :=
  let ux2 := V 0 * V 0
  let uxuy := V 0 * V 1
  let uxuz := V 0 * V 2
  let uy2 := V 1 * V 1
  let uyuz := V 1 * V 2
  let uz2 := V 2 * V 2
  let c := cosF theta
  let s := sinF theta
  let c1 := 1 - c
  let uxs := V 0 * s
  let uys := V 1 * s
  let uzs := V 2 * s
  let T := Function.update T 0 (ux2 + ((1 - ux2) * c))
  let T := Function.update T 3 (uxuy * c1 + uzs)
  let T := Function.update T 6 (uxuz * c1 - uys)
  let T := Function.update T 1 (uxuy * c1 - uzs)
  let T := Function.update T 4 (uy2 + ((1 - uy2) * c))
  let T := Function.update T 7 (uyuz * c1 + uxs)
  let T := Function.update T 2 (uxuz * c1 + uys)
  let T := Function.update T 5 (uyuz * c1 - uxs)
  let T := Function.update T 8 (uz2 + ((1 - uz2) * c))
  T

/-- Determinant of a row-major 3x3 matrix stored in nine cells (cofactor
expansion along the first row). -/
def det3 (U : Nat → α) : α :=
  U 0 * (U 4 * U 8 - U 5 * U 7) - U 1 * (U 3 * U 8 - U 5 * U 6)
    + U 2 * (U 3 * U 7 - U 4 * U 6)

/-- The row-major 3x3 identity matrix. -/
def identity3 : Nat → α := fun k => if k = 0 ∨ k = 4 ∨ k = 8 then 1 else 0

/-- The rotation by a quarter turn about the z axis as a row-major matrix,
`[0 -1 0; 1 0 0; 0 0 1]`. -/
def quarterTurnZ : Nat → α :=
  fun k => if k = 1 then -1 else if k = 3 ∨ k = 8 then 1 else 0

/-! ## Symmetric 3x3 eigensolver: `ROTATE`, `jacobi3`, `diagEsort` -/

/-- Source macro `ROTATE(ARR,MAJ1,MIN1,MAJ2,MIN2)`; the variables `s` and `tau`
it reads from the enclosing scope are arguments, its scratch locals `g`, `h`
are local here. -/
def ROTATE (s tau : α) (ARR : Nat → α) (MAJ1 MIN1 MAJ2 MIN2 : Nat) : Nat → α :=
  let g := ARR (MAJ1 + MIN1)
  let h := ARR (MAJ2 + MIN2)
  let ARR := Function.update ARR (MAJ1 + MIN1) (g - s * (h + g * tau))
  let ARR := Function.update ARR (MAJ2 + MIN2) (h + s * (g - h * tau))
  ARR

/-- The arrays and counter `jacobi3` works on: the caller's `a`, `d`, `v`, the
local accumulators `b`, `z`, and `*nrot`. -/
structure JacobiState (α : Type) where
  /-- The matrix being diagonalised (only its upper triangle is read and written). -/
  a : Nat → α
  /-- The current diagonal, the eigenvalues at return. -/
  d : Nat → α
  /-- The accumulated rotations, the eigenvectors (columns) at return. -/
  v : Nat → α
  /-- The diagonal at the start of the current sweep. -/
  b : Nat → α
  /-- The diagonal increments of the current sweep. -/
  z : Nat → α
  /-- The number of rotations applied. -/
  nrot : Int

/-- Source `jacobi3`, the initialisation loop and `*nrot = 0`: `v` becomes the
identity, `b` and `d` the diagonal of `a`, `z` zero.  The locals `b`, `z` start
as all-zero arrays here; every cell that is read is written first. -/
def jacobiInit (a d v : Nat → α) : JacobiState α :=
  let st := (List.range 3).foldl
    (fun (st : JacobiState α) ip =>
      let p3 := 3 * ip
      let v := (List.range 3).foldl (fun v iq => Function.update v (p3 + iq) 0) st.v
      let v := Function.update v (p3 + ip) 1
      let d := Function.update st.d ip (st.a (p3 + ip))
      let b := Function.update st.b ip (d ip)
      let z := Function.update st.z ip 0
      JacobiState.mk st.a d v b z st.nrot)
    (JacobiState.mk a d v (fun _ => 0) (fun _ => 0) 0)
  JacobiState.mk st.a st.d st.v st.b st.z 0

/-- Source `jacobi3`, the loop computing `sm`: the sum of the absolute values
of the upper off-diagonal entries `a[1]`, `a[2]`, `a[5]`. -/
def offDiagSum (a : Nat → α) : α :=
  (List.range 2).foldl
    (fun sm ip =>
      (List.range' (ip + 1) (3 - (ip + 1))).foldl (fun sm iq => sm + |a (3 * ip + iq)|) sm)
    0

/-- Source `jacobi3`, the body of the `(ip, iq)` loop in sweep `i` with
threshold `tresh`. -/
def jacobiRotate (sqrtF : α → α) (i : Nat) (tresh : α) (ip iq : Nat)
    (st : JacobiState α) : JacobiState α :=
  let p3 := 3 * ip
  let g := 100.0 * |st.a (p3 + iq)|
  if i > 3 ∧ |st.d ip| + g = |st.d ip| ∧ |st.d iq| + g = |st.d iq| then
    JacobiState.mk (Function.update st.a (p3 + iq) 0.0) st.d st.v st.b st.z st.nrot
  else if |st.a (p3 + iq)| > tresh then
    let h := st.d iq - st.d ip
    let t :=
      if |h| + g = |h| then
        st.a (p3 + iq) / h
      else
        let theta := 0.5 * h / st.a (p3 + iq)
        let t := 1.0 / (|theta| + sqrtF (1.0 + theta * theta))
        if theta < 0.0 then -t else t
    let c := 1.0 / sqrtF (1 + t * t)
    let s := t * c
    let tau := s / (1.0 + c)
    let h := t * st.a (p3 + iq)
    let z := Function.update st.z ip (st.z ip - h)
    let z := Function.update z iq (z iq + h)
    let d := Function.update st.d ip (st.d ip - h)
    let d := Function.update d iq (d iq + h)
    let a := Function.update st.a (p3 + iq) 0.0
    let a := (List.range ip).foldl (fun a j => ROTATE s tau a (3 * j) ip (3 * j) iq) a
    let a := (List.range' (ip + 1) (iq - (ip + 1))).foldl
      (fun a j => ROTATE s tau a p3 j (j * 3) iq) a
    let a := (List.range' (iq + 1) (3 - (iq + 1))).foldl
      (fun a j => ROTATE s tau a p3 j (iq * 3) j) a
    let v := ((List.range 3).map (fun j => 3 * j)).foldl
      (fun v j3 => ROTATE s tau v j3 ip j3 iq) st.v
    JacobiState.mk a d v st.b z (st.nrot + 1)
  else
    st

/-- Source `jacobi3`, one sweep `i` after the convergence test: the threshold,
the three rotations `(0,1)`, `(0,2)`, `(1,2)` in loop order, and the update of
`b`, `d`, `z` that closes the sweep. -/
def jacobiSweep (sqrtF : α → α) (i : Nat) (st : JacobiState α) : JacobiState α :=
  let sm := offDiagSum st.a
  let tresh := if i < 3 then sm * 0.2 / 9.0 else 0.0
  let st := (List.range 2).foldl
    (fun st ip =>
      (List.range' (ip + 1) (3 - (ip + 1))).foldl
        (fun st iq => jacobiRotate sqrtF i tresh ip iq st) st)
    st
  (List.range 3).foldl
    (fun (st : JacobiState α) ip =>
      let b := Function.update st.b ip (st.b ip + st.z ip)
      let d := Function.update st.d ip (b ip)
      let z := Function.update st.z ip 0.0
      JacobiState.mk st.a d st.v b z st.nrot)
    st

/-- Source `jacobi3`, the loop `for (i=0; i<50; i++)` with `n` sweeps left and
sweep counter `i`: returns 1 at the first sweep that finds `sm == 0.0`, and 0
when the sweeps are used up. -/
def jacobiLoop (sqrtF : α → α) : Nat → Nat → JacobiState α → Int × JacobiState α
  | 0, _, st => (0, st)
  | n + 1, i, st =>
    if offDiagSum st.a = 0.0 then (1, st)
    else jacobiLoop sqrtF n (i + 1) (jacobiSweep sqrtF i st)

/-- Source `jacobi3(double *a, double *d, double *v, int *nrot)`: the returned
`int` and the arrays after the call. -/
def jacobi3 (sqrtF : α → α) (a d v : Nat → α) : Int × JacobiState α :=
  jacobiLoop sqrtF 50 0 (jacobiInit a d v)

/-- The state reached from `st` by `k` further sweeps numbered `i`, `i+1`, ...,
none of which returned early. -/
def sweepsFrom (sqrtF : α → α) : Nat → JacobiState α → Nat → JacobiState α
  | _, st, 0 => st
  | i, st, k + 1 => sweepsFrom sqrtF (i + 1) (jacobiSweep sqrtF i st) k

/-- The state at the start of sweep `i` of `jacobi3` when no earlier sweep has
returned: `i` sweeps applied to the initial state. -/
def sweepState (sqrtF : α → α) (a d v : Nat → α) (i : Nat) : JacobiState α :=
  sweepsFrom sqrtF 0 (jacobiInit a d v) i

/-- The caller-visible result of `diagEsort`: the returned `int` and the four
buffers after the call.  A pointer `Evec[i]` into `Emat` is the offset of the
cell it points at, so `Evec[i] = &Emat[i*3]` is the number `i*3`. -/
structure DiagResult (α : Type) where
  /-- The returned `int`. -/
  ret : Int
  /-- The buffer `mat`. -/
  mat : Nat → α
  /-- The buffer `Emat`. -/
  Emat : Nat → α
  /-- The pointer array `Evec`, as offsets into `Emat`. -/
  Evec : Nat → Nat
  /-- The buffer `Eigenvalue`. -/
  Eigenvalue : Nat → α

/-- Source `diagEsort`, one pass `i` of the selection sort: find the largest
of `Eigenvalue[i..2]` (first one on ties), and swap it, with its pointer, into
place `i`. -/
def sortPass (Ev : (Nat → α) × (Nat → Nat)) (i : Nat) : (Nat → α) × (Nat → Nat) :=
  let Eigenvalue := Ev.1
  let Evec := Ev.2
  let vk := (List.range' (i + 1) (3 - (i + 1))).foldl
    (fun (vk : α × Nat) j => if Eigenvalue j > vk.1 then (Eigenvalue j, j) else vk)
    (Eigenvalue i, i)
  let v := vk.1
  let k := vk.2
  if k ≠ i then
    let Eigenvalue := Function.update Eigenvalue k (Eigenvalue i)
    let Eigenvalue := Function.update Eigenvalue i v
    let eA := Evec i
    let Evec := Function.update Evec i (Evec k)
    let Evec := Function.update Evec k eA
    (Eigenvalue, Evec)
  else
    (Eigenvalue, Evec)

/-- Source `diagEsort(double *mat, double *Emat, double *Evec[], double
*Eigenvalue)`.  The local `eigenvector[9]` is passed to `jacobi3` as an
all-zero array; `jacobi3` writes all nine cells before reading any. -/
def diagEsort (sqrtF : α → α) (mat Emat : Nat → α) (Evec : Nat → Nat)
    (Eigenvalue : Nat → α) : DiagResult α :=
  let r := jacobi3 sqrtF mat Eigenvalue (fun _ => 0)
  if r.1 = 0 then
    DiagResult.mk 0 r.2.a Emat Evec r.2.d
  else
    let eigenvector := r.2.v
    let Emat := (List.range 3).foldl
      (fun Emat i =>
        (List.range 3).foldl
          (fun Emat j => Function.update Emat (3 * i + j) (eigenvector (j * 3 + i))) Emat)
      Emat
    let Evec := (List.range 3).foldl (fun Evec i => Function.update Evec i (i * 3)) Evec
    let Ev := (List.range 2).foldl sortPass (r.2.d, Evec)
    DiagResult.mk 1 r.2.a Emat Ev.2 Ev.1

/-- The property "the sort is stable" of an output of `diagEsort`: two places
`p < q` of the sorted output that hold equal eigenvalues have their pointers
in the order of the rows of `Emat`, which is the order in which `jacobi3`
produced the two values. -/
def tiesKeepOrder (Eigenvalue : Nat → α) (Evec : Nat → Nat) : Prop :=
  ∀ p q : Fin 3, p < q → Eigenvalue p.val = Eigenvalue q.val → Evec p.val < Evec q.val

/-- The symmetric matrix `[0 12 0; 12 7 0; 0 0 5]`, row-major: one rotation in
the `(0, 1)` plane diagonalises it. -/
def coupled01 : Nat → α :=
  fun k => if k = 1 ∨ k = 3 then 12 else if k = 4 then 7 else if k = 8 then 5 else 0

/-- The diagonal matrix `diag(1, 1, 2)`, row-major. -/
def diag112 : Nat → α :=
  fun k => if k = 0 ∨ k = 4 then 1 else if k = 8 then 2 else 0

/-! ## Auxiliary definitions for the proofs about `jacobi3` -/

/-- The tangent `t` of the rotation angle as `jacobiRotate` computes it from
the off-diagonal entry `apq`, the difference `h = d[iq] - d[ip]` and
`g = 100 |apq|`. -/
def jacobiT (sqrtF : α → α) (apq h g : α) : α :=
  if |h| + g = |h| then
    apq / h
  else
    let theta := 0.5 * h / apq
    let t := 1.0 / (|theta| + sqrtF (1.0 + theta * theta))
    if theta < 0.0 then -t else t

/-- The state update of `jacobiRotate` once `t` is known: the rotation of
`d`, `z`, `a` and `v` in the `(ip, iq)` plane. -/
def jacobiApply (sqrtF : α → α) (ip iq : Nat) (t : α) (st : JacobiState α) :
    JacobiState α :=
  let p3 := 3 * ip
  let c := 1.0 / sqrtF (1 + t * t)
  let s := t * c
  let tau := s / (1.0 + c)
  let h := t * st.a (p3 + iq)
  let z := Function.update st.z ip (st.z ip - h)
  let z := Function.update z iq (z iq + h)
  let d := Function.update st.d ip (st.d ip - h)
  let d := Function.update d iq (d iq + h)
  let a := Function.update st.a (p3 + iq) 0.0
  let a := (List.range ip).foldl (fun a j => ROTATE s tau a (3 * j) ip (3 * j) iq) a
  let a := (List.range' (ip + 1) (iq - (ip + 1))).foldl
    (fun a j => ROTATE s tau a p3 j (j * 3) iq) a
  let a := (List.range' (iq + 1) (3 - (iq + 1))).foldl
    (fun a j => ROTATE s tau a p3 j (iq * 3) j) a
  let v := ((List.range 3).map (fun j => 3 * j)).foldl
    (fun v j3 => ROTATE s tau v j3 ip j3 iq) st.v
  JacobiState.mk a d v st.b z (st.nrot + 1)

/-- The eigen-relation `A V = V S` between a fixed matrix `A`, the rotation
matrix `v` and the symmetric matrix `S` with diagonal `d` and upper triangle
`a[1]`, `a[2]`, `a[5]`, row by row. -/
def EigInv (A a d v : Nat → α) : Prop :=
  ∀ r : Fin 3,
    A (3 * r.val) * v 0 + A (3 * r.val + 1) * v 3 + A (3 * r.val + 2) * v 6
      = v (3 * r.val) * d 0 + v (3 * r.val + 1) * a 1 + v (3 * r.val + 2) * a 2 ∧
    A (3 * r.val) * v 1 + A (3 * r.val + 1) * v 4 + A (3 * r.val + 2) * v 7
      = v (3 * r.val) * a 1 + v (3 * r.val + 1) * d 1 + v (3 * r.val + 2) * a 5 ∧
    A (3 * r.val) * v 2 + A (3 * r.val + 1) * v 5 + A (3 * r.val + 2) * v 8
      = v (3 * r.val) * a 2 + v (3 * r.val + 1) * a 5 + v (3 * r.val + 2) * d 2

/-- The invariant of the sweeps of `jacobi3` on the matrix `A`: the
eigen-relation, and `d = b + z` on the three diagonal cells. -/
def JacobiInv (A : Nat → α) (st : JacobiState α) : Prop :=
  EigInv A st.a st.d st.v ∧ ∀ k : Fin 3, st.d k.val = st.b k.val + st.z k.val

/-! ## Rotation matrix from a rotation vector -/

/-- The quotient `x / y` of two doubles as a partial operation: `none` when
the divisor is zero (the quotient is then undefined in real arithmetic; the
machine produces NaN or an infinity). -/
def checkedDiv (x y : α) : Option α :=
  if y = 0 then none else some (x / y)

/-- Source `calcRotationMatrix(double T[9], double psiX, double psiY, double
psiZ)`: the three divisions by `Psi` are checked divisions, so that the result
is `none` exactly when the routine divides by zero.  The local `V[3]` starts
as an all-zero array; its three cells are written before they are read. -/
def calcRotationMatrixPsi (sqrtF cosF sinF : α → α) (T : Nat → α) (psiX psiY psiZ : α) :
    Option (Nat → α) :=
  let Psi := sqrtF ((psiX * psiX) + (psiY * psiY) + (psiZ * psiZ))
  let V : Nat → α := fun _ => 0
  (checkedDiv psiX Psi).bind fun v0 =>
  let V := Function.update V 0 v0
  (checkedDiv psiY Psi).bind fun v1 =>
  let V := Function.update V 1 v1
  (checkedDiv psiZ Psi).bind fun v2 =>
  let V := Function.update V 2 v2
  some (calcRotationMatrix cosF sinF T V Psi)

/-! ## The averaging action: `Action_Average.cpp`

`int` is the unbounded `Int`.  The classes `AtomMask`, `Frame` and the
topology `AmberParm` are not defined in the sources at hand; the fields and
member functions that `Average` uses are modelled below. -/

/-- The part of `AtomMask` that `Average` reads: the array `Selected` of
selected atom indices and their number `Nselected`. -/
structure AtomMask where
  /-- The selected atom indices. -/
  Selected : Nat → Nat
  /-- The number of selected atoms. -/
  Nselected : Int

/-- Modelled from the spec: `AtomMask::None()` (AtomMask.cpp is not in the
sources): the mask is empty, it selects no atom. -/
def AtomMask.None (m : AtomMask) : Bool :=
  m.Nselected == 0

/-- The part of `Frame` that `Average` uses: the atom count `natom` and the
coordinate array `X`, laid out `[x0,y0,z0,x1,y1,z1,...]`. -/
structure Frame (α : Type) where
  /-- The number of atoms. -/
  natom : Int
  /-- The coordinates, `3 * natom` cells. -/
  X : Nat → α

/-- Modelled from the spec: `Frame::SetupFrameFromMask(AtomMask*, double*)`
(Frame.cpp is not in the sources): "builds a frame containing exactly
`mask.size()` atoms"; the comment at `Action_Average.cpp:98` says the same
(`AvgFrame->natom` is "Equal to Mask1.Nselected").  The coordinates of the new
frame are the ones passed in. -/
def Frame.SetupFrameFromMask (X : Nat → α) (m : AtomMask) : Frame α :=
  Frame.mk m.Nselected X

/-- Modelled from the spec: `Frame::ZeroCoords()` (Frame.cpp is not in the
sources): `zero` sets every coordinate of the frame to 0. -/
def Frame.ZeroCoords (f : Frame α) : Frame α :=
  Frame.mk f.natom (fun i => if (i : Int) < 3 * f.natom then 0 else f.X i)

/-- Modelled from the spec: `Frame::Divide(double)` (Frame.cpp is not in the
sources; Frame.h declares it): "`scalarDivide` divides every coordinate by a
given divisor". -/
def Frame.Divide (f : Frame α) (divisor : α) : Frame α :=
  Frame.mk f.natom (fun i => if (i : Int) < 3 * f.natom then f.X i / divisor else f.X i)

/-- The part of the topology `AmberParm` that `Average` uses: the atom count
and a name. -/
structure Parm where
  /-- The number of atoms of the topology. -/
  natom : Int
  /-- The topology name, as a number. -/
  parmName : Nat

/-- The data members of `Average`; a pointer that may be `NULL` is an
`Option`. -/
structure Average (α : Type) where
  /-- The accumulator frame, `NULL` until the first `setup`. -/
  AvgFrame : Option (Frame α)
  /-- The number of atoms averaged for the current topology. -/
  Natom : Int
  /-- The number of frames accumulated. -/
  Nframes : Int
  /-- The first frame to accumulate (0-based). -/
  start : Int
  /-- The last frame to accumulate (0-based), `-1` for none. -/
  stop : Int
  /-- The stride between accumulated frames. -/
  offset : Int
  /-- The next frame to accumulate. -/
  targetFrame : Int
  /-- The topology used for output. -/
  AvgParm : Option Parm
  /-- Whether `AvgParm` is a stripped copy owned by the action. -/
  parmStripped : Bool
  /-- The atom mask. -/
  Mask1 : AtomMask

/-- Source `Average::setup()`.  `Mask1.SetupMask(P,debug)` is external: its
return value is `setupMaskRet` and the mask it leaves in `Mask1` is `mask`;
`P->modifyStateByMask` is the function `strip`.  The pair returned is the
`int` result and the object after the call. -/
def Average.setup (st : Average α) (setupMaskRet : Int) (mask : AtomMask) (P : Parm)
    (strip : Parm → AtomMask → Parm) : Int × Average α :=
  let st := Average.mk st.AvgFrame st.Natom st.Nframes st.start st.stop st.offset
    st.targetFrame st.AvgParm st.parmStripped mask
  if setupMaskRet ≠ 0 then (1, st)
  else if st.Mask1.None then (1, st)
  else
    match st.AvgFrame with
    | none =>
      let AvgFrame : Frame α := Frame.SetupFrameFromMask (fun _ => 0) st.Mask1
      let AvgFrame := AvgFrame.ZeroCoords
      let Natom := AvgFrame.natom
      if st.Mask1.Nselected < P.natom then
        let AvgParm := strip P st.Mask1
        (0, Average.mk (some AvgFrame) Natom st.Nframes st.start st.stop st.offset
          st.targetFrame (some AvgParm) true st.Mask1)
      else
        (0, Average.mk (some AvgFrame) Natom st.Nframes st.start st.stop st.offset
          st.targetFrame (some P) st.parmStripped st.Mask1)
    | some AvgFrame =>
      let Natom :=
        if st.Mask1.Nselected > AvgFrame.natom then AvgFrame.natom
        else if st.Mask1.Nselected < AvgFrame.natom then st.Mask1.Nselected
        else AvgFrame.natom
      (0, Average.mk (some AvgFrame) Natom st.Nframes st.start st.stop st.offset
        st.targetFrame st.AvgParm st.parmStripped st.Mask1)

/-- Source `Average::action()`, the body of the loop over `n`: the state of
the loop is the array `AvgFrame->X` and the running index `i3`. -/
def Average.addAtom (Selected : Nat → Nat) (FX : Nat → α) (s : (Nat → α) × Nat) (n : Nat) :
    (Nat → α) × Nat :=
  let X := s.1
  let i3 := s.2
  let atom3 := Selected n * 3
  let X := Function.update X i3 (X i3 + FX atom3)
  let X := Function.update X (i3 + 1) (X (i3 + 1) + FX (atom3 + 1))
  let X := Function.update X (i3 + 2) (X (i3 + 2) + FX (atom3 + 2))
  (X, i3 + 3)

/-- Source `Average::action()` for the frame `F` numbered `currentFrame`.  The
routine is called after a successful `setup`; on an object whose `AvgFrame` is
still `NULL` the model leaves the frame `NULL`. -/
def Average.action (st : Average α) (currentFrame : Int) (F : Frame α) : Int × Average α :=
  if currentFrame ≠ st.targetFrame then (0, st)
  else
    let AvgFrame := st.AvgFrame.map fun fr =>
      Frame.mk fr.natom
        ((List.range st.Natom.toNat).foldl (Average.addAtom st.Mask1.Selected F.X) (fr.X, 0)).1
    let Nframes := st.Nframes + 1
    let targetFrame := st.targetFrame + st.offset
    let targetFrame := if targetFrame > st.stop ∧ st.stop ≠ -1 then -1 else targetFrame
    (0, Average.mk AvgFrame st.Natom Nframes st.start st.stop st.offset targetFrame
      st.AvgParm st.parmStripped st.Mask1)

/-- What `Average::print()` did: the object after the call, the argument of
the call `AvgFrame->Divide(d_Nframes)` if it was made, and the coordinates
passed to `outfile.WriteFrame` if they were written. -/
structure PrintResult (α : Type) where
  /-- The object after the call. -/
  state : Average α
  /-- The divisor passed to `Divide`, `none` when `Divide` was not called. -/
  divisor : Option α
  /-- The coordinates written, `none` when nothing was written. -/
  written : Option (Nat → α)

/-- Source `Average::print()`.  `outfile.SetupWrite` is external: it fails
when `setupWriteFails`. -/
def Average.print (st : Average α) (setupWriteFails : Bool) : PrintResult α :=
  if st.Nframes < 1 then PrintResult.mk st none none
  else
    let d_Nframes : α := (st.Nframes : α)
    let AvgFrame := st.AvgFrame.map fun fr => fr.Divide d_Nframes
    let st := Average.mk AvgFrame st.Natom st.Nframes st.start st.stop st.offset
      st.targetFrame st.AvgParm st.parmStripped st.Mask1
    if setupWriteFails then PrintResult.mk st (some d_Nframes) none
    else PrintResult.mk st (some d_Nframes) (AvgFrame.map fun fr => fr.X)

/-- The object after `Average::action()` has been called on each frame of
`Fs` in turn, each time with `currentFrame == targetFrame` (an accumulating
call). -/
def Average.accumulate (st : Average α) (Fs : List (Frame α)) : Average α :=
  Fs.foldl (fun s F => (s.action s.targetFrame F).2) st

/-! ## Atom and residue names: `Name.cpp`

A `NAME` is a `char` array; it is modelled as a function from the index to the
character.  `'\0'` is `NUL`. -/

/-- The character `'\0'`. -/
def NUL : Char := Char.ofNat 0

/-- Source `PadWithSpaces(NAME name)`. -/
def PadWithSpaces (name : Nat → Char) : Nat → Char :=
  let name :=
    if name 0 = NUL then
      let name := Function.update name 0 ' '
      let name := Function.update name 1 ' '
      let name := Function.update name 2 ' '
      let name := Function.update name 3 ' '
      name
    else if name 1 = NUL then
      let name := Function.update name 1 ' '
      let name := Function.update name 2 ' '
      let name := Function.update name 3 ' '
      name
    else if name 2 = NUL then
      let name := Function.update name 2 ' '
      let name := Function.update name 3 ' '
      name
    else if name 3 = NUL then
      let name := Function.update name 3 ' '
      name
    else name
  Function.update name 4 NUL

/-- Source `TrimName(NAME NameIn)`. -/
def TrimName (NameIn : Nat → Char) : Nat → Char :=
  if NameIn 0 ≠ ' ' then
    NameIn
  else if NameIn 1 ≠ ' ' then
    let NameIn := Function.update NameIn 0 (NameIn 1)
    let NameIn := Function.update NameIn 1 (NameIn 2)
    let NameIn := Function.update NameIn 2 (NameIn 3)
    let NameIn := Function.update NameIn 3 ' '
    NameIn
  else if NameIn 2 ≠ ' ' then
    let NameIn := Function.update NameIn 0 (NameIn 2)
    let NameIn := Function.update NameIn 1 (NameIn 3)
    let NameIn := Function.update NameIn 2 ' '
    let NameIn := Function.update NameIn 3 ' '
    NameIn
  else if NameIn 3 ≠ ' ' then
    let NameIn := Function.update NameIn 0 (NameIn 3)
    let NameIn := Function.update NameIn 1 ' '
    let NameIn := Function.update NameIn 2 ' '
    let NameIn := Function.update NameIn 3 ' '
    NameIn
  else
    NameIn

/-- The state of the first loop of `WrapName`: whether the routine has
returned from inside the loop, and the locals `numalpha` and `blank`. -/
structure WrapScan where
  /-- The `return` inside the loop was taken. -/
  returned : Bool
  /-- The local `numalpha`. -/
  numalpha : Int
  /-- The local `blank`. -/
  blank : Int

/-- Source `WrapName`, the body of the loop `for (i=0; i<4; i++)`. -/
def wrapScanStep (NameIn : Nat → Char) (s : WrapScan) (i : Nat) : WrapScan :=
  if s.returned then s
  else if ¬ (NameIn i).isDigit ∧ i = 0 then
    WrapScan.mk true s.numalpha s.blank
  else
    let numalpha := if ¬ (NameIn i).isDigit then s.numalpha + 1 else s.numalpha
    let blank := if s.blank < 0 ∧ NameIn i = ' ' then (i : Int) else s.blank
    WrapScan.mk false numalpha blank

/-- Source `WrapName`, the body of the loop `while (isdigit(NameIn[0]))`: the
first `blank` characters are rotated left by one place. -/
def wrapShift (NameIn : Nat → Char) (blank : Nat) : Nat → Char :=
  let digit := NameIn 0
  let NameIn := (List.range' 1 (blank - 1)).foldl
    (fun NameIn i => Function.update NameIn (i - 1) (NameIn i)) NameIn
  Function.update NameIn (blank - 1) digit

/-- Source `WrapName`, the loop `while (isdigit(NameIn[0]))` with `fuel`
evaluations of its condition allowed: `none` when the fuel runs out before the
loop ends. -/
def wrapLoop : Nat → (Nat → Char) → Nat → Option (Nat → Char)
  | 0, _, _ => none
  | fuel + 1, NameIn, blank =>
    if (NameIn 0).isDigit then wrapLoop fuel (wrapShift NameIn blank) blank
    else some NameIn

/-- Source `WrapName(NAME NameIn)`; `none` when the `while` loop has not ended
within `fuel` evaluations of its condition. -/
def WrapName (fuel : Nat) (NameIn : Nat → Char) : Option (Nat → Char) :=
  let s := (List.range 4).foldl (wrapScanStep NameIn) (WrapScan.mk false 0 (-1))
  if s.returned then some NameIn
  else
    let blank := if s.blank = -1 then 4 else s.blank
    if s.numalpha = 0 then some NameIn
    else if blank = 0 then some NameIn
    else if blank = 1 then some NameIn
    else wrapLoop fuel NameIn blank.toNat

/-- A `NAME` from a string: the characters of `s`, then `NUL`. -/
def nameOf (s : String) : Nat → Char :=
  fun i => s.toList.getD i NUL

/-- The name `name` with its first `m` characters rotated left by `j` places. -/
def rotName (name : Nat → Char) (m j : Nat) : Nat → Char :=
  fun i => if i < m then name ((i + j) % m) else name i

/-! ## Frame selection: `Average::init` and the frame loop -/

/-- Source `Average::init()`.  `avgfilename` is the result of
`actionArgs.getNextString()` (`none` for `NULL`); `startArg`, `stopArg` and
`offsetArg` are the results of `getKeyInt("start",1)`, `getKeyInt("stop",-1)`
and `getKeyInt("offset",1)`. -/
def Average.init (st : Average α) (avgfilename : Option String)
    (startArg stopArg offsetArg : Int) : Int × Average α :=
  match avgfilename with
  | none => (1, st)
  | some _ =>
    let start := startArg
    let start := start - 1
    let targetFrame := start
    let stop := stopArg
    let stop := if stop ≠ -1 then stop - 1 else stop
    let offset := offsetArg
    let Nframes := 0
    (0, Average.mk st.AvgFrame st.Natom Nframes start stop offset targetFrame
      st.AvgParm st.parmStripped st.Mask1)

/-- The object after `Average::action()` has been called once for each
`currentFrame = 0, 1, ..., n - 1` in increasing order, frame `f` being `F f`. -/
def Average.run (st : Average α) (F : Nat → Frame α) : Nat → Average α
  | 0 => st
  | n + 1 => ((Average.run st F n).action (n : Int) (F n)).2

/-- Whether the call of `Average::action()` for `currentFrame = f` in that
sequence of calls accumulates the frame, that is, gets past the test
`if (currentFrame != targetFrame) return 0;`. -/
def Average.accumulates (st : Average α) (F : Nat → Frame α) (f : Nat) : Bool :=
  decide ((f : Int) = (Average.run st F f).targetFrame)

/-- The frames selected by start `s`, offset `o` and stop `e`: `f ≥ s`, `f - s`
divisible by `o`, and `e = -1`, `f ≤ e` or `f = s`. -/
def frameSelected (s e o : Int) (f : Nat) : Bool :=
  decide (s ≤ (f : Int) ∧ o ∣ ((f : Int) - s) ∧ (e = -1 ∨ (f : Int) ≤ e ∨ (f : Int) = s))

/-! ## Asterisks in names: `Name.cpp` -/

/-- The prime character, code 39. -/
def PRIME : Char := Char.ofNat 39

/-- Source `ReplaceAsterisk(NAME NameIn)`. -/
def ReplaceAsterisk (NameIn : Nat → Char) : Nat → Char :=
  let NameIn := if NameIn 0 = '*' then Function.update NameIn 0 PRIME else NameIn
  let NameIn := if NameIn 1 = '*' then Function.update NameIn 1 PRIME else NameIn
  let NameIn := if NameIn 2 = '*' then Function.update NameIn 2 PRIME else NameIn
  let NameIn := if NameIn 3 = '*' then Function.update NameIn 3 PRIME else NameIn
  NameIn

/-! ## Data set meta data: `MetaData.h`

`std::string` is `String`: both are compared character by character, a proper
prefix being smaller.  The enumerations are their integer values. -/

/-- Source `class MetaData`, the data members. -/
structure MetaData where
  /-- Source `fileName_`. -/
  fileName : String
  /-- Source `name_`. -/
  name : String
  /-- Source `aspect_`. -/
  aspect : String
  /-- Source `legend_`. -/
  legend : String
  /-- Source `idx_`. -/
  idx : Int
  /-- Source `ensembleNum_`. -/
  ensembleNum : Int
  /-- Source `scalarmode_`. -/
  scalarmode : Nat
  /-- Source `scalartype_`. -/
  scalartype : Nat
  /-- Source `timeSeries_`. -/
  timeSeries : Nat

/-- Source `MetaData::operator<(const MetaData& rhs)`. -/
def MetaData.lt (self rhs : MetaData) : Bool :=
  if self.name = rhs.name then
    if self.aspect = rhs.aspect then
      decide (self.idx < rhs.idx)
    else
      decide (self.aspect < rhs.aspect)
  else
    decide (self.name < rhs.name)

/-! ## Replica logs: `DataIO_RemLog.cpp`

A `std::set<double>` is the list of its elements in increasing order, a
`std::map<double,int>` the list of its pairs in increasing order of the key. -/

/-- The call `tList.insert(t0)` on a `std::set`: the set afterwards, and
whether `t0` was inserted (`ret.second`). -/
def setInsert (t0 : α) (tList : List α) : List α × Bool :=
  if t0 ∈ tList then (tList, false)
  else (List.orderedInsert (fun x y => x ≤ y) t0 tList, true)

/-- The call `TemperatureMap.insert(std::pair<double,int>(k, v))` on a
`std::map`: a key already present keeps its value. -/
def mapInsert (kv : α × Int) (m : List (α × Int)) : List (α × Int) :=
  if kv.1 ∈ m.map Prod.fst then m
  else List.orderedInsert (fun x y => x.1 ≤ y.1) kv m

/-- Source `SetupTemperatureMap`, the `while` loop over the lines of the
exchange block.  A line is the result of `sscanf(ptr+32, "%10lf", &t0)`:
`some t0`, or `none` when it did not return 1.  `none` is returned when the
function returns from inside the loop. -/
def readTemperatures : List (Option α) → List α → Option (List α)
  | [], tList => some tList
  | none :: _, _ => none
  | some t0 :: rest, tList =>
    let ret := setInsert t0 tList
    if !ret.2 then none
    else readTemperatures rest ret.1

/-- Source `SetupTemperatureMap(BufferedLine& buffer)`; `lines` are the lines
of the buffer up to its end or the first line starting with `#`. -/
def SetupTemperatureMap (lines : List (Option α)) : List (α × Int) :=
  let TemperatureMap : List (α × Int) := []
  match readTemperatures lines [] with
  | none => TemperatureMap
  | some tList =>
    let repnum : Int := 1
    (tList.foldl
      (fun (s : List (α × Int) × Int) temp0 => (mapInsert (temp0, s.2) s.1, s.2 + 1))
      (TemperatureMap, repnum)).1

/-- The elements of `l` paired with `k`, `k + 1`, ... in turn. -/
def numberFrom : List α → Int → List (α × Int)
  | [], _ => []
  | t :: ts, k => (t, k) :: numberFrom ts (k + 1)

/-- Modelled from the spec: `GroupReplica` (declared in `DataSet_RemLog.h`,
which is not in the sources), an entry with a left partner, `Me` and a right
partner, built by `GroupReplica(l, me, r)`; the source comment next to the call
names the accessors `L_partner()`, `Me()`, `R_partner()` in that order. -/
structure GroupReplica where
  /-- Source `L_partner()`. -/
  L_partner : Int
  /-- Source `Me()`. -/
  Me : Int
  /-- Source `R_partner()`. -/
  R_partner : Int
deriving DecidableEq

/-- Source `ReadRemdDimFile`, the loop
`while (group_index != -1)` that collects `indices`; `ints` are the integers
that successive calls `rd_arg.getNextInteger(-1)` find on the line, after
which the call returns its default `-1`. -/
def readGroupIndices : List Int → List Int
  | [] => []
  | group_index :: rest =>
    if group_index ≠ -1 then group_index :: readGroupIndices rest else []

/-- Source `ReadRemdDimFile`, one pass of the loop that sets up the partner
array of a group. -/
def partnerStep (indices : List Int) (group : List GroupReplica) (i : Nat) :
    List GroupReplica :=
  let size : Int := (indices.length : Int)
  let l_idx : Int := (i : Int) - 1
  let l_idx := if l_idx < 0 then size - 1 else l_idx
  let r_idx : Int := (i : Int) + 1
  let r_idx := if r_idx = size then 0 else r_idx
  group ++ [GroupReplica.mk (indices.getD l_idx.toNat 0) (indices.getD i 0)
    (indices.getD r_idx.toNat 0)]

/-- Source `ReadRemdDimFile`, the branch for a `group` line: `none` when the
function returns 1, else the `group` pushed onto `Groups`.  `ints` are the
integers on the line, the group number first. -/
def ReadRemdDimFile_group (ints : List Int) : Option (List GroupReplica) :=
  let group_num : Int := ints.headD (-1)
  if group_num < 1 then none
  else
    let indices := readGroupIndices ints.tail
    some ((List.range indices.length).foldl (partnerStep indices) [])

/-! ## Theorems -/

/-- Claim C2: `axis_of_rotation` returns 0 exactly when `0 < theta < PI`; for
every other `theta` (in particular `theta = 0` and `theta = PI`) it returns 1
and the output vector `V` is the one passed in. -/
theorem axis_of_rotation_status (sinF sqrtF : α → α) (PI : α) (V U : Nat → α) (theta : α) :
    ((axis_of_rotation sinF sqrtF PI V U theta).1 = 0 ↔ (0 < theta ∧ theta < PI)) ∧
    (¬ (0 < theta ∧ theta < PI) →
      (axis_of_rotation sinF sqrtF PI V U theta).1 = 1 ∧
      (axis_of_rotation sinF sqrtF PI V U theta).2 = V) ∧
    (axis_of_rotation sinF sqrtF PI V U 0 = (1, V)) ∧
    (axis_of_rotation sinF sqrtF PI V U PI = (1, V)) := by
  refine ⟨?_, ?_, ?_, ?_⟩
  · unfold axis_of_rotation
    by_cases h : theta > 0 ∧ theta < PI
    · simp [h]
    · rw [if_neg h]
      simp
      intro h0
      have := fun hp => h ⟨h0, hp⟩
      exact not_lt.mp this
  · intro h
    unfold axis_of_rotation
    have h2 : ¬ (theta > 0 ∧ theta < PI) := h
    rw [if_neg h2]
    exact ⟨rfl, rfl⟩
  · unfold axis_of_rotation
    simp
  · unfold axis_of_rotation
    simp

theorem matrix_transpose_cells (M U : Nat → α) :
    matrix_transpose M U 0 = U 0 ∧ matrix_transpose M U 1 = U 3 ∧
    matrix_transpose M U 2 = U 6 ∧ matrix_transpose M U 3 = U 1 ∧
    matrix_transpose M U 4 = U 4 ∧ matrix_transpose M U 5 = U 7 ∧
    matrix_transpose M U 6 = U 2 ∧ matrix_transpose M U 7 = U 5 ∧
    matrix_transpose M U 8 = U 8 := by
  simp [matrix_transpose, Function.update_apply]

theorem matrix_multiply_cells (M Row Col : Nat → α) :
    matrix_multiply M Row Col 0 = Row 0 * Col 0 + Row 1 * Col 3 + Row 2 * Col 6 ∧
    matrix_multiply M Row Col 1 = Row 0 * Col 1 + Row 1 * Col 4 + Row 2 * Col 7 ∧
    matrix_multiply M Row Col 2 = Row 0 * Col 2 + Row 1 * Col 5 + Row 2 * Col 8 ∧
    matrix_multiply M Row Col 3 = Row 3 * Col 0 + Row 4 * Col 3 + Row 5 * Col 6 ∧
    matrix_multiply M Row Col 4 = Row 3 * Col 1 + Row 4 * Col 4 + Row 5 * Col 7 ∧
    matrix_multiply M Row Col 5 = Row 3 * Col 2 + Row 4 * Col 5 + Row 5 * Col 8 ∧
    matrix_multiply M Row Col 6 = Row 6 * Col 0 + Row 7 * Col 3 + Row 8 * Col 6 ∧
    matrix_multiply M Row Col 7 = Row 6 * Col 1 + Row 7 * Col 4 + Row 8 * Col 7 ∧
    matrix_multiply M Row Col 8 = Row 6 * Col 2 + Row 7 * Col 5 + Row 8 * Col 8 := by
  simp [matrix_multiply, Function.update_apply]

/-- Claim C7: `matrix_times_vector(M, R, V)` computes every component of the
result from the values `V` held before the call, for any placement of the
buffer `V` relative to the output `M` (equal, partly overlapping or disjoint);
the matrix `R` lies outside the three cells of `M`. -/
theorem matrix_times_vector_alias (mem : Nat → α) (M R V : Nat)
    (hR : R + 9 ≤ M ∨ M + 3 ≤ R) :
    (matrix_times_vector mem M R V) (M + 0)
        = mem (R + 0) * mem (V + 0) + mem (R + 1) * mem (V + 1) + mem (R + 2) * mem (V + 2) ∧
    (matrix_times_vector mem M R V) (M + 1)
        = mem (R + 3) * mem (V + 0) + mem (R + 4) * mem (V + 1) + mem (R + 5) * mem (V + 2) ∧
    (matrix_times_vector mem M R V) (M + 2)
        = mem (R + 6) * mem (V + 0) + mem (R + 7) * mem (V + 1) + mem (R + 8) * mem (V + 2) := by
  have e : ∀ (f : Nat → α) (a b : Nat) (x : α), a ≠ b → Function.update f b x a = f a :=
    fun f a b x h => Function.update_noteq h x f
  unfold matrix_times_vector
  refine ⟨?_, ?_, ?_⟩
  · rw [e _ _ _ _ (by omega), e _ _ _ _ (by omega), Function.update_same]
  · rw [e _ _ _ _ (by omega), Function.update_same,
      e _ (R+3) _ _ (by omega), e _ (R+4) _ _ (by omega), e _ (R+5) _ _ (by omega)]
  · rw [Function.update_same]
    rw [e _ (R+6) _ _ (by omega), e _ (R+7) _ _ (by omega), e _ (R+8) _ _ (by omega),
      e _ (R+6) _ _ (by omega), e _ (R+7) _ _ (by omega), e _ (R+8) _ _ (by omega)]

theorem matrix_times_vector_alias_witness :
    ((3 : Nat) + 9 ≤ 0 ∨ 0 + 3 ≤ 3) ∧
    (matrix_times_vector (fun k => (k : ℚ)) 0 3 0) (0 + 0)
        = ((3 + 0 : Nat) : ℚ) * ((0 + 0 : Nat) : ℚ) + ((3 + 1 : Nat) : ℚ) * ((0 + 1 : Nat) : ℚ)
          + ((3 + 2 : Nat) : ℚ) * ((0 + 2 : Nat) : ℚ) :=
  ⟨Or.inr (Nat.le_refl 3),
    (matrix_times_vector_alias (fun k => (k : ℚ)) 0 3 0 (Or.inr (Nat.le_refl 3))).1⟩

/-- Claim C8: `matrix_multiply` writes the row-major 3x3 product
`M[3i+j] = sum_k Row[3i+k] * Col[3k+j]` (the output buffer `M` distinct from
`Row` and `Col`); with `matrix_transpose` it obeys
`transpose(Row * Col) = transpose(Col) * transpose(Row)` on the nine cells, and
`matrix_transpose` applied twice gives back the nine cells of the original. -/
theorem matrix_multiply_transpose (M N Row Col : Nat → α) :
    (∀ i j : Fin 3, matrix_multiply M Row Col (3 * i.val + j.val)
        = ∑ k : Fin 3, Row (3 * i.val + k.val) * Col (3 * k.val + j.val)) ∧
    (∀ k : Fin 9, matrix_transpose N (matrix_multiply M Row Col) k.val
        = matrix_multiply M (matrix_transpose N Col) (matrix_transpose N Row) k.val) ∧
    (∀ k : Fin 9, matrix_transpose N (matrix_transpose M Row) k.val = Row k.val) := by
  obtain ⟨m0, m1, m2, m3, m4, m5, m6, m7, m8⟩ := matrix_multiply_cells M Row Col
  obtain ⟨p0, p1, p2, p3, p4, p5, p6, p7, p8⟩ :=
    matrix_multiply_cells M (matrix_transpose N Col) (matrix_transpose N Row)
  obtain ⟨r0, r1, r2, r3, r4, r5, r6, r7, r8⟩ := matrix_transpose_cells N Row
  obtain ⟨c0, c1, c2, c3, c4, c5, c6, c7, c8⟩ := matrix_transpose_cells N Col
  obtain ⟨t0, t1, t2, t3, t4, t5, t6, t7, t8⟩ :=
    matrix_transpose_cells N (matrix_multiply M Row Col)
  obtain ⟨u0, u1, u2, u3, u4, u5, u6, u7, u8⟩ := matrix_transpose_cells M Row
  obtain ⟨w0, w1, w2, w3, w4, w5, w6, w7, w8⟩ :=
    matrix_transpose_cells N (matrix_transpose M Row)
  refine ⟨?_, ?_, ?_⟩
  · intro i j
    obtain ⟨i, hi⟩ := i
    obtain ⟨j, hj⟩ := j
    interval_cases i <;> interval_cases j <;>
      simp only [Fin.sum_univ_three, Fin.val_zero, Fin.val_one, Fin.val_two, Nat.mul_zero,
        Nat.mul_one, Nat.zero_add, Nat.add_zero, Nat.reduceAdd, Nat.reduceMul,
        m0, m1, m2, m3, m4, m5, m6, m7, m8]
  · intro k
    obtain ⟨k, hk⟩ := k
    interval_cases k <;>
      simp only [t0, t1, t2, t3, t4, t5, t6, t7, t8, p0, p1, p2, p3, p4, p5, p6, p7, p8,
        m0, m1, m2, m3, m4, m5, m6, m7, m8, r0, r1, r2, r3, r4, r5, r6, r7, r8,
        c0, c1, c2, c3, c4, c5, c6, c7, c8] <;> ring
  · intro k
    obtain ⟨k, hk⟩ := k
    interval_cases k <;>
      simp only [w0, w1, w2, w3, w4, w5, w6, w7, w8, u0, u1, u2, u3, u4, u5, u6, u7, u8]

theorem calcRotationMatrix_cells (cosF sinF : α → α) (T V : Nat → α) (theta : α) :
    calcRotationMatrix cosF sinF T V theta 0 = V 0 * V 0 + (1 - V 0 * V 0) * cosF theta ∧
    calcRotationMatrix cosF sinF T V theta 1
      = V 0 * V 1 * (1 - cosF theta) - V 2 * sinF theta ∧
    calcRotationMatrix cosF sinF T V theta 2
      = V 0 * V 2 * (1 - cosF theta) + V 1 * sinF theta ∧
    calcRotationMatrix cosF sinF T V theta 3
      = V 0 * V 1 * (1 - cosF theta) + V 2 * sinF theta ∧
    calcRotationMatrix cosF sinF T V theta 4 = V 1 * V 1 + (1 - V 1 * V 1) * cosF theta ∧
    calcRotationMatrix cosF sinF T V theta 5
      = V 1 * V 2 * (1 - cosF theta) - V 0 * sinF theta ∧
    calcRotationMatrix cosF sinF T V theta 6
      = V 0 * V 2 * (1 - cosF theta) - V 1 * sinF theta ∧
    calcRotationMatrix cosF sinF T V theta 7
      = V 1 * V 2 * (1 - cosF theta) + V 0 * sinF theta ∧
    calcRotationMatrix cosF sinF T V theta 8 = V 2 * V 2 + (1 - V 2 * V 2) * cosF theta := by
  simp [calcRotationMatrix, Function.update_apply]

theorem identity3_cells :
    (identity3 0 : α) = 1 ∧ (identity3 1 : α) = 0 ∧ (identity3 2 : α) = 0 ∧
    (identity3 3 : α) = 0 ∧ (identity3 4 : α) = 1 ∧ (identity3 5 : α) = 0 ∧
    (identity3 6 : α) = 0 ∧ (identity3 7 : α) = 0 ∧ (identity3 8 : α) = 1 := by
  simp [identity3]

/-- Claim C9: `matrix_to_angle(U)` is `acos((U[0]+U[4]+U[8]-1)/2)`, and for a
unit axis `V` and `theta` in `[0, PI]` it returns `theta` on the matrix built by
`calcRotationMatrix(T, V, theta)` (real arithmetic). -/
theorem matrix_to_angle_recovers (T V : Nat → ℝ) (theta : ℝ)
    (hV : V 0 * V 0 + V 1 * V 1 + V 2 * V 2 = 1) (h0 : 0 ≤ theta) (hpi : theta ≤ Real.pi) :
    (∀ U : Nat → ℝ, matrix_to_angle Real.arccos U = Real.arccos ((U 0 + U 4 + U 8 - 1) / 2)) ∧
    matrix_to_angle Real.arccos (calcRotationMatrix Real.cos Real.sin T V theta) = theta := by
  refine ⟨fun U => rfl, ?_⟩
  obtain ⟨e0, -, -, -, e4, -, -, -, e8⟩ := calcRotationMatrix_cells Real.cos Real.sin T V theta
  have htr : (calcRotationMatrix Real.cos Real.sin T V theta 0
      + calcRotationMatrix Real.cos Real.sin T V theta 4
      + calcRotationMatrix Real.cos Real.sin T V theta 8 - 1) / 2 = Real.cos theta := by
    rw [e0, e4, e8]
    linear_combination (1 / 2 - Real.cos theta / 2) * hV
  show Real.arccos _ = theta
  rw [htr]
  exact Real.arccos_cos h0 hpi

theorem matrix_to_angle_recovers_witness :
    (∀ U : Nat → ℝ, matrix_to_angle Real.arccos U = Real.arccos ((U 0 + U 4 + U 8 - 1) / 2)) ∧
    matrix_to_angle Real.arccos
      (calcRotationMatrix Real.cos Real.sin (fun _ => 0) (fun k => if k = 2 then 1 else 0)
        (Real.pi / 2)) = Real.pi / 2 :=
  matrix_to_angle_recovers (fun _ => 0) (fun k => if k = 2 then 1 else 0) (Real.pi / 2)
    (by norm_num) (by positivity) (by linarith [Real.pi_pos])

/-- Claim C10: for a unit axis `V` and any `theta` the matrix `T` written by
`calcRotationMatrix(T, V, theta)` satisfies `T * transpose(T) = identity`,
`det(T) = 1` and `T V = V` (real arithmetic). -/
theorem calcRotationMatrix_proper (T M N V : Nat → ℝ) (theta : ℝ)
    (hV : V 0 * V 0 + V 1 * V 1 + V 2 * V 2 = 1) :
    (∀ k : Fin 9,
      matrix_multiply M (calcRotationMatrix Real.cos Real.sin T V theta)
        (matrix_transpose N (calcRotationMatrix Real.cos Real.sin T V theta)) k.val
        = identity3 k.val) ∧
    det3 (calcRotationMatrix Real.cos Real.sin T V theta) = 1 ∧
    (∀ i : Fin 3,
      calcRotationMatrix Real.cos Real.sin T V theta (3 * i.val) * V 0
        + calcRotationMatrix Real.cos Real.sin T V theta (3 * i.val + 1) * V 1
        + calcRotationMatrix Real.cos Real.sin T V theta (3 * i.val + 2) * V 2 = V i.val) := by
  obtain ⟨e0, e1, e2, e3, e4, e5, e6, e7, e8⟩ :=
    calcRotationMatrix_cells Real.cos Real.sin T V theta
  obtain ⟨m0, m1, m2, m3, m4, m5, m6, m7, m8⟩ :=
    matrix_multiply_cells M (calcRotationMatrix Real.cos Real.sin T V theta)
      (matrix_transpose N (calcRotationMatrix Real.cos Real.sin T V theta))
  obtain ⟨t0, t1, t2, t3, t4, t5, t6, t7, t8⟩ :=
    matrix_transpose_cells N (calcRotationMatrix Real.cos Real.sin T V theta)
  have hcs : Real.sin theta * Real.sin theta + Real.cos theta * Real.cos theta = 1 := by
    linear_combination Real.sin_sq_add_cos_sq theta
  obtain ⟨i0, i1, i2, i3, i4, i5, i6, i7, i8⟩ := @identity3_cells ℝ _
  have h3 : ∀ i : Fin 3,
      calcRotationMatrix Real.cos Real.sin T V theta (3 * i.val) * V 0
        + calcRotationMatrix Real.cos Real.sin T V theta (3 * i.val + 1) * V 1
        + calcRotationMatrix Real.cos Real.sin T V theta (3 * i.val + 2) * V 2 = V i.val := by
    intro i
    obtain ⟨i, hi⟩ := i
    interval_cases i <;>
      simp only [Nat.mul_zero, Nat.mul_one, Nat.zero_add, Nat.reduceAdd, Nat.reduceMul,
        e0, e1, e2, e3, e4, e5, e6, e7, e8]
    · linear_combination (-Real.cos theta * V 0 + V 0) * hV
    · linear_combination (-Real.cos theta * V 1 + V 1) * hV
    · linear_combination (-Real.cos theta * V 2 + V 2) * hV
  generalize Real.cos theta = c at *
  generalize Real.sin theta = s at *
  generalize V 0 = x at *
  generalize V 1 = y at *
  generalize V 2 = z at *
  refine ⟨?_, ?_, h3⟩
  · intro k
    obtain ⟨k, hk⟩ := k
    interval_cases k <;>
      simp only [m0, m1, m2, m3, m4, m5, m6, m7, m8, t0, t1, t2, t3, t4, t5, t6, t7, t8,
        e0, e1, e2, e3, e4, e5, e6, e7, e8, i0, i1, i2, i3, i4, i5, i6, i7, i8]
    · linear_combination (-2 * c * x^2 + c^2 * x^2 + s^2 + x^2) * hV + (1 - x^2) * hcs
    · linear_combination (-2 * c * x * y + c^2 * x * y + x * y) * hV + (-x * y) * hcs
    · linear_combination (-2 * c * x * z + c^2 * x * z + x * z) * hV + (-x * z) * hcs
    · linear_combination (-2 * c * x * y + c^2 * x * y + x * y) * hV + (-x * y) * hcs
    · linear_combination (-2 * c * y^2 + c^2 * y^2 + s^2 + y^2) * hV + (1 - y^2) * hcs
    · linear_combination (-2 * c * y * z + c^2 * y * z + y * z) * hV + (-y * z) * hcs
    · linear_combination (-2 * c * x * z + c^2 * x * z + x * z) * hV + (-x * z) * hcs
    · linear_combination (-2 * c * y * z + c^2 * y * z + y * z) * hV + (-y * z) * hcs
    · linear_combination (1 - 2 * c * z^2 - c^2 + c^2 * z^2 + z^2) * hV + (x^2 + y^2) * hcs
  · unfold det3
    rw [e0, e1, e2, e3, e4, e5, e6, e7, e8]
    linear_combination (1 - c + c * s^2 - 2 * c * s^2 * x^2 - 2 * c * s^2 * y^2 - c * s^2 * z^2 + c * x^2 + c * y^2 + c^2 * x^2 + c^2 * y^2 - c^3 * x^2 - c^3 * y^2 + 2 * s^2 * x^2 + 2 * s^2 * y^2 + s^2 * z^2 - x^2 - y^2) * hV + (c - 2 * c * x^2 + 2 * c * x^2 * y^2 + c * x^2 * z^2 + c * x^4 - 2 * c * y^2 + c * y^2 * z^2 + c * y^4 - c * z^2 + 2 * x^2 - 2 * x^2 * y^2 - x^2 * z^2 - x^4 + 2 * y^2 - y^2 * z^2 - y^4 + z^2) * hcs

theorem calcRotationMatrix_proper_witness :
    ((fun k => if k = 2 then (1 : ℝ) else 0) 0 * (fun k => if k = 2 then (1 : ℝ) else 0) 0
      + (fun k => if k = 2 then (1 : ℝ) else 0) 1 * (fun k => if k = 2 then (1 : ℝ) else 0) 1
      + (fun k => if k = 2 then (1 : ℝ) else 0) 2 * (fun k => if k = 2 then (1 : ℝ) else 0) 2
      = 1) ∧
    det3 (calcRotationMatrix Real.cos Real.sin (fun _ => 0)
      (fun k => if k = 2 then (1 : ℝ) else 0) (Real.pi / 3)) = 1 :=
  ⟨by norm_num,
    (calcRotationMatrix_proper (fun _ => 0) (fun _ => 0) (fun _ => 0)
      (fun k => if k = 2 then (1 : ℝ) else 0) (Real.pi / 3) (by norm_num)).2.1⟩

theorem quarterTurnZ_cells :
    (quarterTurnZ 0 : α) = 0 ∧ (quarterTurnZ 1 : α) = -1 ∧ (quarterTurnZ 2 : α) = 0 ∧
    (quarterTurnZ 3 : α) = 1 ∧ (quarterTurnZ 4 : α) = 0 ∧ (quarterTurnZ 5 : α) = 0 ∧
    (quarterTurnZ 6 : α) = 0 ∧ (quarterTurnZ 7 : α) = 0 ∧ (quarterTurnZ 8 : α) = 1 := by
  simp [quarterTurnZ]

theorem quarterTurnZ_angle :
    matrix_to_angle Real.arccos (quarterTurnZ : Nat → ℝ) = Real.pi / 2 := by
  obtain ⟨q0, q1, q2, q3, q4, q5, q6, q7, q8⟩ := @quarterTurnZ_cells ℝ _
  show Real.arccos _ = _
  rw [q0, q4, q8]
  norm_num

theorem quarterTurnZ_axis (V : Nat → ℝ) :
    (axis_of_rotation Real.sin Real.sqrt Real.pi V quarterTurnZ (Real.pi / 2)).1 = 0 ∧
    (axis_of_rotation Real.sin Real.sqrt Real.pi V quarterTurnZ (Real.pi / 2)).2 0 = 0 ∧
    (axis_of_rotation Real.sin Real.sqrt Real.pi V quarterTurnZ (Real.pi / 2)).2 1 = 0 ∧
    (axis_of_rotation Real.sin Real.sqrt Real.pi V quarterTurnZ (Real.pi / 2)).2 2 = -1 := by
  obtain ⟨q0, q1, q2, q3, q4, q5, q6, q7, q8⟩ := @quarterTurnZ_cells ℝ _
  have hc : Real.pi / 2 > 0 ∧ Real.pi / 2 < Real.pi :=
    ⟨by positivity, by linarith [Real.pi_pos]⟩
  unfold axis_of_rotation
  rw [if_pos hc]
  simp only [normalize, Function.update_apply, q1, q2, q3, q5, q6, q7, Real.sin_pi_div_two]
  norm_num

/-- Claim C1 at the quarter turn about z, `R = [0 -1 0; 1 0 0; 0 0 1]`: `R` is a
proper rotation, its angle `matrix_to_angle(R)` lies strictly between 0 and
`PI`, `axis_of_rotation` succeeds, and the matrix `calcRotationMatrix` rebuilds
from the extracted axis and angle has `T[1] = 1` where `R[1] = -1`: the round
trip does not reproduce `R`. -/
theorem axis_angle_round_trip_transposed (M N T V : Nat → ℝ) :
    (∀ k : Fin 9, matrix_multiply M quarterTurnZ (matrix_transpose N quarterTurnZ) k.val
        = (identity3 k.val : ℝ)) ∧
    det3 (quarterTurnZ : Nat → ℝ) = 1 ∧
    0 < matrix_to_angle Real.arccos (quarterTurnZ : Nat → ℝ) ∧
    matrix_to_angle Real.arccos (quarterTurnZ : Nat → ℝ) < Real.pi ∧
    (axis_of_rotation Real.sin Real.sqrt Real.pi V quarterTurnZ
        (matrix_to_angle Real.arccos quarterTurnZ)).1 = 0 ∧
    calcRotationMatrix Real.cos Real.sin T
        (axis_of_rotation Real.sin Real.sqrt Real.pi V quarterTurnZ
          (matrix_to_angle Real.arccos quarterTurnZ)).2
        (matrix_to_angle Real.arccos quarterTurnZ) 1 = 1 ∧
    (quarterTurnZ 1 : ℝ) = -1 := by
  obtain ⟨q0, q1, q2, q3, q4, q5, q6, q7, q8⟩ := @quarterTurnZ_cells ℝ _
  obtain ⟨i0, i1, i2, i3, i4, i5, i6, i7, i8⟩ := @identity3_cells ℝ _
  obtain ⟨m0, m1, m2, m3, m4, m5, m6, m7, m8⟩ :=
    matrix_multiply_cells M (quarterTurnZ : Nat → ℝ) (matrix_transpose N quarterTurnZ)
  obtain ⟨t0, t1, t2, t3, t4, t5, t6, t7, t8⟩ :=
    matrix_transpose_cells N (quarterTurnZ : Nat → ℝ)
  obtain ⟨a0, a1, a2, a3⟩ := quarterTurnZ_axis V
  rw [quarterTurnZ_angle]
  refine ⟨?_, ?_, by positivity, by linarith [Real.pi_pos], a0, ?_, q1⟩
  · intro k
    obtain ⟨k, hk⟩ := k
    interval_cases k <;>
      simp only [m0, m1, m2, m3, m4, m5, m6, m7, m8, t0, t1, t2, t3, t4, t5, t6, t7, t8,
        q0, q1, q2, q3, q4, q5, q6, q7, q8, i0, i1, i2, i3, i4, i5, i6, i7, i8] <;> norm_num
  · unfold det3
    rw [q0, q1, q2, q3, q4, q5, q6, q7, q8]
    norm_num
  · obtain ⟨-, e1, -⟩ := calcRotationMatrix_cells Real.cos Real.sin T
      (axis_of_rotation Real.sin Real.sqrt Real.pi V quarterTurnZ (Real.pi / 2)).2 (Real.pi / 2)
    rw [e1, a1, a2, a3, Real.sin_pi_div_two]
    norm_num

/-- The pointer array `diagEsort` sets up before sorting: `Evec[i] = &Emat[i*3]`. -/
theorem evecInit_cells (Evec : Nat → Nat) :
    (List.range 3).foldl (fun Evec i => Function.update Evec i (i * 3)) Evec 0 = 0 ∧
    (List.range 3).foldl (fun Evec i => Function.update Evec i (i * 3)) Evec 1 = 3 ∧
    (List.range 3).foldl (fun Evec i => Function.update Evec i (i * 3)) Evec 2 = 6 := by
  simp [List.range, List.range.loop, Function.update_apply]

/-- The two passes of the selection sort on the values `x y z` with pointers
`p0 p1 p2`: the outcome in each of the orderings of `x y z`. -/
theorem sortPass_table (d : Nat → α) (E : Nat → Nat) :
    ∃ i0 i1 i2 : Fin 3,
      i0 ≠ i1 ∧ i0 ≠ i2 ∧ i1 ≠ i2 ∧
      ((List.range 2).foldl sortPass (d, E)).1 0 = d i0 ∧
      ((List.range 2).foldl sortPass (d, E)).1 1 = d i1 ∧
      ((List.range 2).foldl sortPass (d, E)).1 2 = d i2 ∧
      ((List.range 2).foldl sortPass (d, E)).2 0 = E i0 ∧
      ((List.range 2).foldl sortPass (d, E)).2 1 = E i1 ∧
      ((List.range 2).foldl sortPass (d, E)).2 2 = E i2 ∧
      d i0 ≥ d i1 ∧ d i1 ≥ d i2 ∧
      ((d 0 = d 1 ∧ d 1 < d 2 ∧ i0.val = 2 ∧ i1.val = 1 ∧ i2.val = 0) ∨
        ¬ (d 0 = d 1 ∧ d 1 < d 2) ∧
          (d i0 = d i1 → i0.val < i1.val) ∧ (d i1 = d i2 → i1.val < i2.val) ∧
          (d i0 = d i2 → i0.val < i2.val)) := by
  have r2 : List.range 2 = [0, 1] := rfl
  rw [r2]
  simp only [List.foldl, sortPass, List.range', Nat.reduceAdd, Nat.reduceSub]
  rcases lt_trichotomy (d 0) (d 1) with h1 | h1 | h1 <;>
  rcases lt_or_le (d 0) (d 2) with h2 | h2 <;>
  rcases lt_or_le (d 1) (d 2) with h3 | h3
  · refine ⟨2, 1, 0, by decide, by decide, by decide, ?_⟩
    simp [Function.update_apply, h1, h1.le, h1.not_lt, h1.ne, h1.ne', h2, h2.le, h2.not_lt, h2.ne, h2.ne', h3, h3.le, h3.not_lt, h3.ne, h3.ne']
  · refine ⟨1, 2, 0, by decide, by decide, by decide, ?_⟩
    simp [Function.update_apply, h1, h1.le, h1.not_lt, h1.ne, h1.ne', h2, h2.le, h2.not_lt, h2.ne, h2.ne', h3, h3.not_lt]
  · exfalso
    linarith
  · refine ⟨1, 0, 2, by decide, by decide, by decide, ?_⟩
    simp [Function.update_apply, h1, h1.le, h1.not_lt, h1.ne, h1.ne', h2, h2.not_lt, h3, h3.not_lt]
  · refine ⟨2, 1, 0, by decide, by decide, by decide, ?_⟩
    simp [Function.update_apply, h1, h2, h2.le, h2.not_lt, h2.ne, h2.ne', h3, h3.le, h3.not_lt, h3.ne, h3.ne']
  · exfalso
    linarith
  · exfalso
    linarith
  · refine ⟨0, 1, 2, by decide, by decide, by decide, ?_⟩
    simp [Function.update_apply, h1, h2, h2.not_lt, h3, h3.not_lt]
  · refine ⟨2, 0, 1, by decide, by decide, by decide, ?_⟩
    simp [Function.update_apply, h1, h1.le, h1.not_lt, h1.ne, h1.ne', h2, h2.le, h2.not_lt, h2.ne, h2.ne', h3, h3.le, h3.not_lt, h3.ne, h3.ne']
  · exfalso
    linarith
  · refine ⟨0, 2, 1, by decide, by decide, by decide, ?_⟩
    simp [Function.update_apply, h1, h1.le, h1.not_lt, h1.ne, h1.ne', h2, h2.not_lt, h3, h3.le, h3.not_lt, h3.ne, h3.ne']
  · refine ⟨0, 1, 2, by decide, by decide, by decide, ?_⟩
    simp [Function.update_apply, h1, h1.le, h1.not_lt, h1.ne, h1.ne', h2, h2.not_lt, h3, h3.not_lt]

theorem lit_zero : (0.0 : α) = 0 := by norm_num

theorem offDiagSum_eq (a : Nat → α) : offDiagSum a = |a 1| + |a 2| + |a 5| := by
  simp [offDiagSum, List.range, List.range.loop, List.range']

theorem offDiagSum_nonneg (a : Nat → α) : 0 ≤ offDiagSum a := by
  rw [offDiagSum_eq]
  positivity

theorem offDiagSum_eq_zero (a : Nat → α) :
    offDiagSum a = 0 ↔ a 1 = 0 ∧ a 2 = 0 ∧ a 5 = 0 := by
  rw [offDiagSum_eq]
  constructor
  · intro h
    have h1 := abs_nonneg (a 1)
    have h2 := abs_nonneg (a 2)
    have h5 := abs_nonneg (a 5)
    refine ⟨abs_eq_zero.mp ?_, abs_eq_zero.mp ?_, abs_eq_zero.mp ?_⟩ <;> linarith
  · rintro ⟨h1, h2, h5⟩
    simp [h1, h2, h5]

theorem jacobiInit_a (a d v : Nat → α) : (jacobiInit a d v).a = a := rfl

theorem jacobiInit_nrot (a d v : Nat → α) : (jacobiInit a d v).nrot = 0 := rfl

theorem jacobiInit_d (a d v : Nat → α) :
    (jacobiInit a d v).d 0 = a 0 ∧ (jacobiInit a d v).d 1 = a 4 ∧
    (jacobiInit a d v).d 2 = a 8 := by
  simp [jacobiInit, List.range, List.range.loop, Function.update_apply]

theorem jacobiInit_b (a d v : Nat → α) :
    (jacobiInit a d v).b 0 = a 0 ∧ (jacobiInit a d v).b 1 = a 4 ∧
    (jacobiInit a d v).b 2 = a 8 := by
  simp [jacobiInit, List.range, List.range.loop, Function.update_apply]

theorem jacobiInit_z (a d v : Nat → α) :
    (jacobiInit a d v).z 0 = 0 ∧ (jacobiInit a d v).z 1 = 0 ∧
    (jacobiInit a d v).z 2 = 0 := by
  simp [jacobiInit, List.range, List.range.loop, Function.update_apply]

theorem jacobiInit_v (a d v : Nat → α) :
    (jacobiInit a d v).v 0 = 1 ∧ (jacobiInit a d v).v 1 = 0 ∧ (jacobiInit a d v).v 2 = 0 ∧
    (jacobiInit a d v).v 3 = 0 ∧ (jacobiInit a d v).v 4 = 1 ∧ (jacobiInit a d v).v 5 = 0 ∧
    (jacobiInit a d v).v 6 = 0 ∧ (jacobiInit a d v).v 7 = 0 ∧ (jacobiInit a d v).v 8 = 1 := by
  simp [jacobiInit, List.range, List.range.loop, Function.update_apply]

theorem jacobiLoop_ret (sqrtF : α → α) (n i : Nat) (st : JacobiState α) :
    (jacobiLoop sqrtF n i st).1 = 0 ∨ (jacobiLoop sqrtF n i st).1 = 1 := by
  induction n generalizing i st with
  | zero => exact Or.inl rfl
  | succ n ih =>
    unfold jacobiLoop
    by_cases h : offDiagSum st.a = 0.0
    · rw [if_pos h]
      exact Or.inr rfl
    · rw [if_neg h]
      exact ih _ _

theorem jacobiLoop_fail_iff (sqrtF : α → α) (n i : Nat) (st : JacobiState α) :
    (jacobiLoop sqrtF n i st).1 = 0 ↔
      ∀ k, k < n → offDiagSum (sweepsFrom sqrtF i st k).a ≠ 0 := by
  induction n generalizing i st with
  | zero =>
    constructor
    · intro _ k hk
      exact absurd hk (Nat.not_lt_zero k)
    · intro _
      rfl
  | succ n ih =>
    unfold jacobiLoop
    by_cases h : offDiagSum st.a = 0.0
    · rw [if_pos h]
      constructor
      · intro h1
        exact absurd h1 Int.one_ne_zero
      · intro hall
        exact absurd (h.trans lit_zero) (hall 0 (Nat.succ_pos n))
    · rw [if_neg h, ih]
      constructor
      · intro hall k hk
        cases k with
        | zero => exact fun h0 => h (h0.trans lit_zero.symm)
        | succ k => exact hall k (Nat.lt_of_succ_lt_succ hk)
      · intro hall k hk
        exact hall (k + 1) (Nat.succ_lt_succ hk)

theorem diagEsort_ret (sqrtF : α → α) (mat Emat : Nat → α) (Evec : Nat → Nat)
    (Eigenvalue : Nat → α) :
    (diagEsort sqrtF mat Emat Evec Eigenvalue).ret
      = (jacobi3 sqrtF mat Eigenvalue (fun _ => 0)).1 := by
  unfold diagEsort
  by_cases h : (jacobi3 sqrtF mat Eigenvalue (fun _ => 0)).1 = 0
  · simp only [h, if_true]
  · simp only [h, if_false]
    rcases jacobiLoop_ret sqrtF 50 0 (jacobiInit mat Eigenvalue (fun _ => 0)) with h0 | h1
    · exact absurd h0 h
    · exact h1.symm

/-- Claim C5: `jacobi3` returns 0 exactly when each of the 50 sweeps starts with a
non-zero sum of absolute upper off-diagonal entries; `diagEsort` returns 0 if
and only if `jacobi3` returned 0; and a `diagEsort` that returns 0 has left
`Emat` and `Evec` as they were passed in. -/
theorem jacobi3_nonconvergence_surfaced (sqrtF : α → α) (mat Emat : Nat → α)
    (Evec : Nat → Nat) (Eigenvalue : Nat → α) (a d v : Nat → α) :
    ((jacobi3 sqrtF a d v).1 = 0 ↔
      ∀ i, i < 50 → offDiagSum (sweepState sqrtF a d v i).a ≠ 0) ∧
    ((diagEsort sqrtF mat Emat Evec Eigenvalue).ret = 0 ↔
      (jacobi3 sqrtF mat Eigenvalue (fun _ => 0)).1 = 0) ∧
    ((diagEsort sqrtF mat Emat Evec Eigenvalue).ret = 0 →
      (diagEsort sqrtF mat Emat Evec Eigenvalue).Emat = Emat ∧
      (diagEsort sqrtF mat Emat Evec Eigenvalue).Evec = Evec) := by
  refine ⟨jacobiLoop_fail_iff sqrtF 50 0 (jacobiInit a d v), ?_, ?_⟩
  · rw [diagEsort_ret]
  · intro h
    rw [diagEsort_ret] at h
    unfold diagEsort
    simp only [h, if_true, and_self]

theorem ematFill_cells (Emat eigenvector : Nat → α) :
    ∀ i j : Fin 3,
      (List.range 3).foldl
        (fun Emat i =>
          (List.range 3).foldl
            (fun Emat j => Function.update Emat (3 * i + j) (eigenvector (j * 3 + i))) Emat)
        Emat (3 * i.val + j.val) = eigenvector (3 * j.val + i.val) := by
  intro i j
  obtain ⟨i, hi⟩ := i
  obtain ⟨j, hj⟩ := j
  interval_cases i <;> interval_cases j <;>
    simp [List.range, List.range.loop, Function.update_apply]

theorem diagEsort_success (sqrtF : α → α) (mat Emat : Nat → α) (Evec : Nat → Nat)
    (Eigenvalue : Nat → α)
    (h : (diagEsort sqrtF mat Emat Evec Eigenvalue).ret = 1) :
    (jacobi3 sqrtF mat Eigenvalue (fun _ => 0)).1 = 1 ∧
    (∀ i j : Fin 3, (diagEsort sqrtF mat Emat Evec Eigenvalue).Emat (3 * i.val + j.val)
        = (jacobi3 sqrtF mat Eigenvalue (fun _ => 0)).2.v (3 * j.val + i.val)) ∧
    (diagEsort sqrtF mat Emat Evec Eigenvalue).Eigenvalue
      = ((List.range 2).foldl sortPass
          ((jacobi3 sqrtF mat Eigenvalue (fun _ => 0)).2.d,
            (List.range 3).foldl (fun Evec i => Function.update Evec i (i * 3)) Evec)).1 ∧
    (diagEsort sqrtF mat Emat Evec Eigenvalue).Evec
      = ((List.range 2).foldl sortPass
          ((jacobi3 sqrtF mat Eigenvalue (fun _ => 0)).2.d,
            (List.range 3).foldl (fun Evec i => Function.update Evec i (i * 3)) Evec)).2 := by
  have hj : (jacobi3 sqrtF mat Eigenvalue (fun _ => 0)).1 = 1 := by
    rw [← diagEsort_ret sqrtF mat Emat Evec Eigenvalue]
    exact h
  have hne : ¬ (jacobi3 sqrtF mat Eigenvalue (fun _ => 0)).1 = 0 := by
    rw [hj]
    exact Int.one_ne_zero
  refine ⟨hj, ?_, ?_, ?_⟩
  · intro i j
    unfold diagEsort
    simp only [hne, if_false]
    exact ematFill_cells Emat _ i j
  · unfold diagEsort
    simp only [hne, if_false]
  · unfold diagEsort
    simp only [hne, if_false]

/-- The outcome of a successful `diagEsort` in terms of the arrays `d`, `v` of
`jacobi3`: three pairwise distinct columns `c0 c1 c2` with `Evec[i] = &Emat[3 c_i]`,
`Eigenvalue[i] = d[c_i]`, `d[c0] >= d[c1] >= d[c2]`, and row `c` of `Emat` equal
to column `c` of `v`. -/
theorem diagEsort_pairing (sqrtF : α → α) (mat Emat : Nat → α) (Evec : Nat → Nat)
    (Eigenvalue : Nat → α)
    (h : (diagEsort sqrtF mat Emat Evec Eigenvalue).ret = 1) :
    ∃ c0 c1 c2 : Fin 3, c0 ≠ c1 ∧ c0 ≠ c2 ∧ c1 ≠ c2 ∧
      (diagEsort sqrtF mat Emat Evec Eigenvalue).Eigenvalue 0
        = (jacobi3 sqrtF mat Eigenvalue (fun _ => 0)).2.d c0.val ∧
      (diagEsort sqrtF mat Emat Evec Eigenvalue).Eigenvalue 1
        = (jacobi3 sqrtF mat Eigenvalue (fun _ => 0)).2.d c1.val ∧
      (diagEsort sqrtF mat Emat Evec Eigenvalue).Eigenvalue 2
        = (jacobi3 sqrtF mat Eigenvalue (fun _ => 0)).2.d c2.val ∧
      (diagEsort sqrtF mat Emat Evec Eigenvalue).Evec 0 = 3 * c0.val ∧
      (diagEsort sqrtF mat Emat Evec Eigenvalue).Evec 1 = 3 * c1.val ∧
      (diagEsort sqrtF mat Emat Evec Eigenvalue).Evec 2 = 3 * c2.val ∧
      (jacobi3 sqrtF mat Eigenvalue (fun _ => 0)).2.d c0.val
        ≥ (jacobi3 sqrtF mat Eigenvalue (fun _ => 0)).2.d c1.val ∧
      (jacobi3 sqrtF mat Eigenvalue (fun _ => 0)).2.d c1.val
        ≥ (jacobi3 sqrtF mat Eigenvalue (fun _ => 0)).2.d c2.val ∧
      ∀ c k : Fin 3, (diagEsort sqrtF mat Emat Evec Eigenvalue).Emat (3 * c.val + k.val)
        = (jacobi3 sqrtF mat Eigenvalue (fun _ => 0)).2.v (3 * k.val + c.val) := by
  obtain ⟨-, hE, hval, hvec⟩ := diagEsort_success sqrtF mat Emat Evec Eigenvalue h
  obtain ⟨i0, i1, i2, n01, n02, n12, v0, v1, v2, p0, p1, p2, s01, s12, -⟩ :=
    sortPass_table (jacobi3 sqrtF mat Eigenvalue (fun _ => 0)).2.d
      ((List.range 3).foldl (fun Evec i => Function.update Evec i (i * 3)) Evec)
  obtain ⟨c0, c1, c2⟩ := evecInit_cells Evec
  rw [← hval] at v0 v1 v2
  rw [← hvec] at p0 p1 p2
  have hp : ∀ c : Fin 3,
      (List.range 3).foldl (fun Evec i => Function.update Evec i (i * 3)) Evec c.val
        = 3 * c.val := by
    intro c
    obtain ⟨c, hc⟩ := c
    interval_cases c
    · exact c0
    · exact c1
    · exact c2
  rw [hp i0] at p0
  rw [hp i1] at p1
  rw [hp i2] at p2
  exact ⟨i0, i1, i2, n01, n02, n12, v0, v1, v2, p0, p1, p2, s01, s12, hE⟩

/-- Claim C3: whenever `diagEsort` returns 1 the output eigenvalues are in
descending order, they are a permutation of the values `jacobi3` produced, and
each `Evec[i]` points at the row of `Emat` that holds the column of the
eigenvector matrix of `jacobi3` paired with the value now in `Eigenvalue[i]`. -/
theorem diagEsort_sorted_paired (sqrtF : α → α) (mat Emat : Nat → α) (Evec : Nat → Nat)
    (Eigenvalue : Nat → α)
    (h : (diagEsort sqrtF mat Emat Evec Eigenvalue).ret = 1) :
    (diagEsort sqrtF mat Emat Evec Eigenvalue).Eigenvalue 0
      ≥ (diagEsort sqrtF mat Emat Evec Eigenvalue).Eigenvalue 1 ∧
    (diagEsort sqrtF mat Emat Evec Eigenvalue).Eigenvalue 1
      ≥ (diagEsort sqrtF mat Emat Evec Eigenvalue).Eigenvalue 2 ∧
    List.Perm
      [(diagEsort sqrtF mat Emat Evec Eigenvalue).Eigenvalue 0,
        (diagEsort sqrtF mat Emat Evec Eigenvalue).Eigenvalue 1,
        (diagEsort sqrtF mat Emat Evec Eigenvalue).Eigenvalue 2]
      [(jacobi3 sqrtF mat Eigenvalue (fun _ => 0)).2.d 0,
        (jacobi3 sqrtF mat Eigenvalue (fun _ => 0)).2.d 1,
        (jacobi3 sqrtF mat Eigenvalue (fun _ => 0)).2.d 2] ∧
    ∀ i : Fin 3, ∃ c : Fin 3,
      (diagEsort sqrtF mat Emat Evec Eigenvalue).Evec i.val = 3 * c.val ∧
      (diagEsort sqrtF mat Emat Evec Eigenvalue).Eigenvalue i.val
        = (jacobi3 sqrtF mat Eigenvalue (fun _ => 0)).2.d c.val ∧
      ∀ k : Fin 3,
        (diagEsort sqrtF mat Emat Evec Eigenvalue).Emat
            ((diagEsort sqrtF mat Emat Evec Eigenvalue).Evec i.val + k.val)
          = (jacobi3 sqrtF mat Eigenvalue (fun _ => 0)).2.v (3 * k.val + c.val) := by
  obtain ⟨i0, i1, i2, n01, n02, n12, v0, v1, v2, p0, p1, p2, s01, s12, hE⟩ :=
    diagEsort_pairing sqrtF mat Emat Evec Eigenvalue h
  refine ⟨?_, ?_, ?_, ?_⟩
  · rw [v0, v1]
    exact s01
  · rw [v1, v2]
    exact s12
  · rw [v0, v1, v2]
    revert n01 n02 n12
    generalize (jacobi3 sqrtF mat Eigenvalue (fun _ => 0)).2.d = d
    fin_cases i0 <;> fin_cases i1 <;> fin_cases i2 <;> intro n01 n02 n12 <;>
      first
        | exact absurd rfl n01
        | exact absurd rfl n02
        | exact absurd rfl n12
        | exact List.Perm.refl _
        | exact List.Perm.swap _ _ _
        | exact (List.Perm.swap _ _ _).cons _
        | exact ((List.Perm.swap _ _ _).cons _).trans (List.Perm.swap _ _ _)
        | exact (List.Perm.swap _ _ _).trans ((List.Perm.swap _ _ _).cons _)
        | exact ((List.Perm.swap _ _ _).trans ((List.Perm.swap _ _ _).cons _)).trans
            (List.Perm.swap _ _ _)
  · intro i
    obtain ⟨i, hi⟩ := i
    interval_cases i
    · exact ⟨i0, p0, v0, fun k => by rw [p0]; exact hE i0 k⟩
    · exact ⟨i1, p1, v1, fun k => by rw [p1]; exact hE i1 k⟩
    · exact ⟨i2, p2, v2, fun k => by rw [p2]; exact hE i2 k⟩

theorem jacobi3_converged (sqrtF : α → α) (a d v : Nat → α)
    (h1 : a 1 = 0) (h2 : a 2 = 0) (h5 : a 5 = 0) :
    jacobi3 sqrtF a d v = (1, jacobiInit a d v) := by
  have h : offDiagSum (jacobiInit a d v).a = 0.0 := by
    rw [jacobiInit_a, lit_zero]
    exact (offDiagSum_eq_zero a).mpr ⟨h1, h2, h5⟩
  unfold jacobi3 jacobiLoop
  rw [if_pos h]

theorem diag112_cells :
    (diag112 0 : α) = 1 ∧ (diag112 1 : α) = 0 ∧ (diag112 2 : α) = 0 ∧
    (diag112 3 : α) = 0 ∧ (diag112 4 : α) = 1 ∧ (diag112 5 : α) = 0 ∧
    (diag112 6 : α) = 0 ∧ (diag112 7 : α) = 0 ∧ (diag112 8 : α) = 2 := by
  simp [diag112]

theorem diag112_jacobi3 (sqrtF : α → α) (d v : Nat → α) :
    jacobi3 sqrtF diag112 d v = (1, jacobiInit diag112 d v) :=
  jacobi3_converged sqrtF diag112 d v diag112_cells.2.1 diag112_cells.2.2.1
    diag112_cells.2.2.2.2.2.1

theorem diag112_diagEsort_ret (sqrtF : α → α) (Emat : Nat → α) (Evec : Nat → Nat)
    (Eigenvalue : Nat → α) :
    (diagEsort sqrtF diag112 Emat Evec Eigenvalue).ret = 1 := by
  rw [diagEsort_ret, diag112_jacobi3]

theorem diagEsort_sorted_paired_witness :
    (diagEsort Real.sqrt diag112 (fun _ => 0) (fun _ => 0) (fun _ => 0)).ret = 1 ∧
    (diagEsort Real.sqrt diag112 (fun _ => 0) (fun _ => 0) (fun _ => 0)).Eigenvalue 0
      ≥ (diagEsort Real.sqrt diag112 (fun _ => 0) (fun _ => 0) (fun _ => 0)).Eigenvalue 1 :=
  ⟨diag112_diagEsort_ret Real.sqrt _ _ _,
    (diagEsort_sorted_paired Real.sqrt diag112 (fun _ => 0) (fun _ => 0) (fun _ => 0)
      (diag112_diagEsort_ret Real.sqrt _ _ _)).1⟩

/-- Claim C4, as stated, fails: on `diag(1, 1, 2)` the two equal eigenvalues,
produced by `jacobi3` at places 0 and 1, come out of `diagEsort` at places 2
and 1, the second-seen one before the first-seen one. -/
theorem diagEsort_not_stable :
    (diagEsort Real.sqrt diag112 (fun _ => 0) (fun _ => 0) (fun _ => 0)).ret = 1 ∧
    ¬ tiesKeepOrder
      (diagEsort Real.sqrt diag112 (fun _ => 0) (fun _ => 0) (fun _ => 0)).Eigenvalue
      (diagEsort Real.sqrt diag112 (fun _ => 0) (fun _ => 0) (fun _ => 0)).Evec := by
  have hr := diag112_diagEsort_ret Real.sqrt (fun _ => (0 : ℝ)) (fun _ => 0) (fun _ => 0)
  refine ⟨hr, ?_⟩
  obtain ⟨-, -, hval, hvec⟩ := diagEsort_success Real.sqrt diag112 _ _ _ hr
  obtain ⟨i0, i1, i2, -, -, -, v0, v1, v2, p0, p1, p2, -, -, hst⟩ :=
    sortPass_table (jacobi3 Real.sqrt diag112 (fun _ => 0) (fun _ => 0)).2.d
      ((List.range 3).foldl (fun Evec i => Function.update Evec i (i * 3)) (fun _ => 0))
  obtain ⟨c0, c1, c2⟩ := evecInit_cells (fun _ => 0)
  rw [← hval] at v0 v1 v2
  rw [← hvec] at p0 p1 p2
  have hd := jacobiInit_d (diag112 : Nat → ℝ) (fun _ => 0) (fun _ => 0)
  obtain ⟨q0, q1, q2, q3, q4, q5, q6, q7, q8⟩ := @diag112_cells ℝ _
  rw [diag112_jacobi3] at hst v0 v1 v2
  simp only [hd.1, hd.2.1, hd.2.2, q0, q4, q8] at hst
  rcases hst with ⟨-, -, e0, e1, e2⟩ | ⟨hn, -⟩
  · intro hs
    have := hs 1 2 (by decide) (by
      show (diagEsort Real.sqrt diag112 (fun _ => 0) (fun _ => 0) (fun _ => 0)).Eigenvalue 1
        = (diagEsort Real.sqrt diag112 (fun _ => 0) (fun _ => 0) (fun _ => 0)).Eigenvalue 2
      rw [v1, v2, e1, e2, hd.1, hd.2.1, q0, q4])
    have h12 : (diagEsort Real.sqrt diag112 (fun _ => 0) (fun _ => 0) (fun _ => 0)).Evec 1
        < (diagEsort Real.sqrt diag112 (fun _ => 0) (fun _ => 0) (fun _ => 0)).Evec 2 := this
    rw [p1, p2, e1, e2, c0, c1] at h12
    exact absurd h12 (by decide)
  · exact absurd ⟨trivial, by norm_num⟩ hn

/-- Claim C4, amended: when `diagEsort` returns 1, equal eigenvalues keep the
order in which `jacobi3` produced them in every case but one: the sort is
stable exactly when it is not the case that the first two values of `jacobi3`
are equal and the third is strictly larger. -/
theorem diagEsort_ties_order (sqrtF : α → α) (mat Emat : Nat → α) (Evec : Nat → Nat)
    (Eigenvalue : Nat → α)
    (h : (diagEsort sqrtF mat Emat Evec Eigenvalue).ret = 1) :
    tiesKeepOrder (diagEsort sqrtF mat Emat Evec Eigenvalue).Eigenvalue
        (diagEsort sqrtF mat Emat Evec Eigenvalue).Evec ↔
      ¬ ((jacobi3 sqrtF mat Eigenvalue (fun _ => 0)).2.d 0
            = (jacobi3 sqrtF mat Eigenvalue (fun _ => 0)).2.d 1 ∧
          (jacobi3 sqrtF mat Eigenvalue (fun _ => 0)).2.d 1
            < (jacobi3 sqrtF mat Eigenvalue (fun _ => 0)).2.d 2) := by
  obtain ⟨-, -, hval, hvec⟩ := diagEsort_success sqrtF mat Emat Evec Eigenvalue h
  obtain ⟨i0, i1, i2, -, -, -, v0, v1, v2, p0, p1, p2, -, -, hst⟩ :=
    sortPass_table (jacobi3 sqrtF mat Eigenvalue (fun _ => 0)).2.d
      ((List.range 3).foldl (fun Evec i => Function.update Evec i (i * 3)) Evec)
  obtain ⟨c0, c1, c2⟩ := evecInit_cells Evec
  rw [← hval] at v0 v1 v2
  rw [← hvec] at p0 p1 p2
  have hp : ∀ c : Fin 3,
      (List.range 3).foldl (fun Evec i => Function.update Evec i (i * 3)) Evec c.val
        = 3 * c.val := by
    intro c
    obtain ⟨c, hc⟩ := c
    interval_cases c
    · exact c0
    · exact c1
    · exact c2
  rw [hp i0] at p0
  rw [hp i1] at p1
  rw [hp i2] at p2
  generalize (jacobi3 sqrtF mat Eigenvalue (fun _ => 0)).2.d = d at *
  generalize (diagEsort sqrtF mat Emat Evec Eigenvalue).Eigenvalue = Eo at *
  generalize (diagEsort sqrtF mat Emat Evec Eigenvalue).Evec = Po at *
  rcases hst with ⟨e01, e12, e0, e1, e2⟩ | ⟨hn, s01, s12, s02⟩
  · constructor
    · intro hs
      have h12 : Po 1 < Po 2 := hs 1 2 (by decide) (by
        show Eo 1 = Eo 2
        rw [v1, v2, e1, e2, e01])
      rw [p1, p2, e1, e2] at h12
      exact absurd h12 (by decide)
    · intro hn
      exact absurd ⟨e01, e12⟩ hn
  · constructor
    · intro _
      exact hn
    · intro _ p q hpq heq
      obtain ⟨p, hp3⟩ := p
      obtain ⟨q, hq3⟩ := q
      have hlt : p < q := hpq
      interval_cases p <;> interval_cases q <;>
        first
          | exact absurd hlt (by decide)
          | (show Po 0 < Po 1
             have e : Eo 0 = Eo 1 := heq
             rw [v0, v1] at e
             rw [p0, p1]
             have := s01 e
             omega)
          | (show Po 0 < Po 2
             have e : Eo 0 = Eo 2 := heq
             rw [v0, v2] at e
             rw [p0, p2]
             have := s02 e
             omega)
          | (show Po 1 < Po 2
             have e : Eo 1 = Eo 2 := heq
             rw [v1, v2] at e
             rw [p1, p2]
             have := s12 e
             omega)

theorem diagEsort_ties_order_witness :
    (diagEsort Real.sqrt diag112 (fun _ => 0) (fun _ => 0) (fun _ => 0)).ret = 1 ∧
    (tiesKeepOrder
        (diagEsort Real.sqrt diag112 (fun _ => 0) (fun _ => 0) (fun _ => 0)).Eigenvalue
        (diagEsort Real.sqrt diag112 (fun _ => 0) (fun _ => 0) (fun _ => 0)).Evec ↔
      ¬ ((jacobi3 Real.sqrt diag112 (fun _ => 0) (fun _ => 0)).2.d 0
            = (jacobi3 Real.sqrt diag112 (fun _ => 0) (fun _ => 0)).2.d 1 ∧
          (jacobi3 Real.sqrt diag112 (fun _ => 0) (fun _ => 0)).2.d 1
            < (jacobi3 Real.sqrt diag112 (fun _ => 0) (fun _ => 0)).2.d 2)) :=
  ⟨diag112_diagEsort_ret Real.sqrt _ _ _,
    diagEsort_ties_order Real.sqrt diag112 (fun _ => 0) (fun _ => 0) (fun _ => 0)
      (diag112_diagEsort_ret Real.sqrt _ _ _)⟩

theorem jacobiRotate_eq (sqrtF : α → α) (i : Nat) (tresh : α) (ip iq : Nat)
    (st : JacobiState α) :
    jacobiRotate sqrtF i tresh ip iq st =
      if i > 3 ∧ |st.d ip| + 100.0 * |st.a (3 * ip + iq)| = |st.d ip| ∧
          |st.d iq| + 100.0 * |st.a (3 * ip + iq)| = |st.d iq| then
        JacobiState.mk (Function.update st.a (3 * ip + iq) 0.0) st.d st.v st.b st.z st.nrot
      else if |st.a (3 * ip + iq)| > tresh then
        jacobiApply sqrtF ip iq
          (jacobiT sqrtF (st.a (3 * ip + iq)) (st.d iq - st.d ip)
            (100.0 * |st.a (3 * ip + iq)|)) st
      else st := rfl

theorem jacobiSweep_eq (sqrtF : α → α) (i : Nat) (st : JacobiState α) :
    jacobiSweep sqrtF i st =
      (List.range 3).foldl
        (fun (st : JacobiState α) ip =>
          let b := Function.update st.b ip (st.b ip + st.z ip)
          let d := Function.update st.d ip (b ip)
          let z := Function.update st.z ip 0.0
          JacobiState.mk st.a d st.v b z st.nrot)
        (jacobiRotate sqrtF i (if i < 3 then offDiagSum st.a * 0.2 / 9.0 else 0.0) 1 2
          (jacobiRotate sqrtF i (if i < 3 then offDiagSum st.a * 0.2 / 9.0 else 0.0) 0 2
            (jacobiRotate sqrtF i (if i < 3 then offDiagSum st.a * 0.2 / 9.0 else 0.0) 0 1
              st))) := by
  have r2 : List.range 2 = [0, 1] := rfl
  unfold jacobiSweep
  simp only [r2, List.foldl, List.range', Nat.reduceAdd, Nat.reduceSub]

theorem lit_one : (1.0 : α) = 1 := by norm_num

theorem lit_half : (0.5 : α) = 1 / 2 := by norm_num

theorem lit_hundred : (100.0 : α) = 100 := by norm_num

theorem lit_fifth : (0.2 : α) = 1 / 5 := by norm_num

theorem lit_nine : (9.0 : α) = 9 := by norm_num

/-- The tangent computed by `jacobiT` solves `x t^2 + h t - x = 0`. -/
theorem jacobiT_quadratic (x h : ℝ) (hx : x ≠ 0) :
    x * jacobiT Real.sqrt x h (100.0 * |x|) * jacobiT Real.sqrt x h (100.0 * |x|)
      + h * jacobiT Real.sqrt x h (100.0 * |x|) - x = 0 := by
  have hg : ¬ (|h| + 100.0 * |x| = |h|) := by
    rw [lit_hundred]
    intro e
    have : |x| = 0 := by linarith [abs_nonneg x]
    exact hx (abs_eq_zero.mp this)
  unfold jacobiT
  rw [if_neg hg]
  simp only [lit_one, lit_half, lit_zero]
  have hh : h = 2 * (1 / 2 * h / x) * x := by
    field_simp
    ring
  generalize 1 / 2 * h / x = th at hh ⊢
  have hr : Real.sqrt (1 + th * th) * Real.sqrt (1 + th * th) = 1 + th * th :=
    Real.mul_self_sqrt (by nlinarith [mul_self_nonneg th])
  have hr1 : 1 ≤ Real.sqrt (1 + th * th) := by
    have h1 : (1 : ℝ) ≤ 1 + th * th := by nlinarith [mul_self_nonneg th]
    have h2 := Real.sqrt_le_sqrt h1
    rwa [Real.sqrt_one] at h2
  generalize Real.sqrt (1 + th * th) = r at hr hr1 ⊢
  have hpos : 0 < |th| + r := by
    have := abs_nonneg th
    linarith
  rw [hh]
  by_cases hth : th < 0
  · rw [if_pos hth]
    rw [abs_of_neg hth] at hpos ⊢
    have hne : -th + r ≠ 0 := ne_of_gt hpos
    field_simp
    linear_combination (-x * (-th + r)) * hr
  · rw [if_neg hth]
    have hth0 : 0 ≤ th := not_lt.mp hth
    rw [abs_of_nonneg hth0] at hpos ⊢
    have hne : th + r ≠ 0 := ne_of_gt hpos
    field_simp
    linear_combination (-x * (th + r)) * hr

/-- The cosine `c = 1/sqrt(1+t^2)` of `jacobiRotate` is positive and satisfies
`c^2 (1 + t^2) = 1`; hence with `s = t c` and `tau = s/(1+c)` one has
`c^2 + s^2 = 1` and `s tau = 1 - c`. -/
theorem rot_cos_sin (t : ℝ) :
    (1.0 / Real.sqrt (1 + t * t)) * (1.0 / Real.sqrt (1 + t * t))
      + (t * (1.0 / Real.sqrt (1 + t * t))) * (t * (1.0 / Real.sqrt (1 + t * t))) = 1 ∧
    (t * (1.0 / Real.sqrt (1 + t * t)))
      * (t * (1.0 / Real.sqrt (1 + t * t)) / (1.0 + 1.0 / Real.sqrt (1 + t * t)))
      = 1 - 1.0 / Real.sqrt (1 + t * t) := by
  simp only [lit_one]
  have h0 : (0 : ℝ) < 1 + t * t := by nlinarith [mul_self_nonneg t]
  have hr : Real.sqrt (1 + t * t) * Real.sqrt (1 + t * t) = 1 + t * t :=
    Real.mul_self_sqrt h0.le
  have hpos : 0 < Real.sqrt (1 + t * t) := Real.sqrt_pos.mpr h0
  generalize Real.sqrt (1 + t * t) = r at hr hpos
  have hne : r ≠ 0 := ne_of_gt hpos
  have hne2 : r + 1 ≠ 0 := by linarith
  constructor
  · field_simp
    linear_combination (-1 : ℝ) * hr
  · field_simp
    linear_combination (-r) * hr

/-- One plane rotation keeps the eigen-relation of a row: `wp wq wr` are the
entries of a row of `A V`, `vp vq vr` those of the row of `V`, and `dp dq dr x
y z` the entries of the symmetric matrix `S`, in the roles of the rotated
plane `(p, q)` and the third index `r`. -/
theorem plane_rot (wp wq wr vp vq vr dp dq dr x y z c s t : ℝ)
    (hp : wp = vp * dp + vq * x + vr * y) (hq : wq = vp * x + vq * dq + vr * z)
    (hr : wr = vp * y + vq * z + vr * dr)
    (hst : s = t * c) (hcs : c * c + s * s = 1)
    (ht : x * t * t + (dq - dp) * t - x = 0) :
    c * wp - s * wq = (c * vp - s * vq) * (dp - t * x) + vr * (c * y - s * z) ∧
    s * wp + c * wq = (s * vp + c * vq) * (dq + t * x) + vr * (s * y + c * z) ∧
    wr = (c * vp - s * vq) * (c * y - s * z) + (s * vp + c * vq) * (s * y + c * z)
      + vr * dr := by
  subst hst
  refine ⟨?_, ?_, ?_⟩
  · linear_combination c * hp - t * c * hq - vq * c * ht
  · linear_combination t * c * hp + c * hq - vp * c * ht
  · linear_combination hr - (vp * y + vq * z) * hcs

theorem jacobiApply_01_cells (sqrtF : α → α) (t : α) (st : JacobiState α) :
    (jacobiApply sqrtF 0 1 t st).a 1 = 0 ∧
    (jacobiApply sqrtF 0 1 t st).a 2 = st.a 2 - (t * (1.0 / sqrtF (1 + t * t))) * (st.a 5 + st.a 2 * (t * (1.0 / sqrtF (1 + t * t)) / (1.0 + 1.0 / sqrtF (1 + t * t)))) ∧
    (jacobiApply sqrtF 0 1 t st).a 5 = st.a 5 + (t * (1.0 / sqrtF (1 + t * t))) * (st.a 2 - st.a 5 * (t * (1.0 / sqrtF (1 + t * t)) / (1.0 + 1.0 / sqrtF (1 + t * t)))) ∧
    (jacobiApply sqrtF 0 1 t st).d 0 = st.d 0 - t * st.a 1 ∧
    (jacobiApply sqrtF 0 1 t st).d 1 = st.d 1 + t * st.a 1 ∧
    (jacobiApply sqrtF 0 1 t st).d 2 = st.d 2 ∧
    (jacobiApply sqrtF 0 1 t st).z 0 = st.z 0 - t * st.a 1 ∧
    (jacobiApply sqrtF 0 1 t st).z 1 = st.z 1 + t * st.a 1 ∧
    (jacobiApply sqrtF 0 1 t st).z 2 = st.z 2 ∧
    (jacobiApply sqrtF 0 1 t st).b = st.b ∧
    ∀ k : Fin 3,
      (jacobiApply sqrtF 0 1 t st).v (3 * k.val + 0) = st.v (3 * k.val + 0) - (t * (1.0 / sqrtF (1 + t * t))) * (st.v (3 * k.val + 1) + st.v (3 * k.val + 0) * (t * (1.0 / sqrtF (1 + t * t)) / (1.0 + 1.0 / sqrtF (1 + t * t)))) ∧
      (jacobiApply sqrtF 0 1 t st).v (3 * k.val + 1) = st.v (3 * k.val + 1) + (t * (1.0 / sqrtF (1 + t * t))) * (st.v (3 * k.val + 0) - st.v (3 * k.val + 1) * (t * (1.0 / sqrtF (1 + t * t)) / (1.0 + 1.0 / sqrtF (1 + t * t)))) ∧
      (jacobiApply sqrtF 0 1 t st).v (3 * k.val + 2) = st.v (3 * k.val + 2) := by
  refine ⟨?_, ?_, ?_, ?_, ?_, ?_, ?_, ?_, ?_, rfl, ?_⟩
  · simp [jacobiApply, ROTATE, List.range, List.range.loop, List.range', Function.update_apply,
      lit_zero]
  · simp [jacobiApply, ROTATE, List.range, List.range.loop, List.range', Function.update_apply,
      lit_zero]
  · simp [jacobiApply, ROTATE, List.range, List.range.loop, List.range', Function.update_apply,
      lit_zero]
  · simp [jacobiApply, ROTATE, List.range, List.range.loop, List.range', Function.update_apply,
      lit_zero]
  · simp [jacobiApply, ROTATE, List.range, List.range.loop, List.range', Function.update_apply,
      lit_zero]
  · simp [jacobiApply, ROTATE, List.range, List.range.loop, List.range', Function.update_apply,
      lit_zero]
  · simp [jacobiApply, ROTATE, List.range, List.range.loop, List.range', Function.update_apply,
      lit_zero]
  · simp [jacobiApply, ROTATE, List.range, List.range.loop, List.range', Function.update_apply,
      lit_zero]
  · simp [jacobiApply, ROTATE, List.range, List.range.loop, List.range', Function.update_apply,
      lit_zero]
  intro k
  obtain ⟨k, hk⟩ := k
  interval_cases k <;>
    simp [jacobiApply, ROTATE, List.range, List.range.loop, List.range', Function.update_apply]

theorem jacobiApply_02_cells (sqrtF : α → α) (t : α) (st : JacobiState α) :
    (jacobiApply sqrtF 0 2 t st).a 2 = 0 ∧
    (jacobiApply sqrtF 0 2 t st).a 1 = st.a 1 - (t * (1.0 / sqrtF (1 + t * t))) * (st.a 5 + st.a 1 * (t * (1.0 / sqrtF (1 + t * t)) / (1.0 + 1.0 / sqrtF (1 + t * t)))) ∧
    (jacobiApply sqrtF 0 2 t st).a 5 = st.a 5 + (t * (1.0 / sqrtF (1 + t * t))) * (st.a 1 - st.a 5 * (t * (1.0 / sqrtF (1 + t * t)) / (1.0 + 1.0 / sqrtF (1 + t * t)))) ∧
    (jacobiApply sqrtF 0 2 t st).d 0 = st.d 0 - t * st.a 2 ∧
    (jacobiApply sqrtF 0 2 t st).d 2 = st.d 2 + t * st.a 2 ∧
    (jacobiApply sqrtF 0 2 t st).d 1 = st.d 1 ∧
    (jacobiApply sqrtF 0 2 t st).z 0 = st.z 0 - t * st.a 2 ∧
    (jacobiApply sqrtF 0 2 t st).z 2 = st.z 2 + t * st.a 2 ∧
    (jacobiApply sqrtF 0 2 t st).z 1 = st.z 1 ∧
    (jacobiApply sqrtF 0 2 t st).b = st.b ∧
    ∀ k : Fin 3,
      (jacobiApply sqrtF 0 2 t st).v (3 * k.val + 0) = st.v (3 * k.val + 0) - (t * (1.0 / sqrtF (1 + t * t))) * (st.v (3 * k.val + 2) + st.v (3 * k.val + 0) * (t * (1.0 / sqrtF (1 + t * t)) / (1.0 + 1.0 / sqrtF (1 + t * t)))) ∧
      (jacobiApply sqrtF 0 2 t st).v (3 * k.val + 2) = st.v (3 * k.val + 2) + (t * (1.0 / sqrtF (1 + t * t))) * (st.v (3 * k.val + 0) - st.v (3 * k.val + 2) * (t * (1.0 / sqrtF (1 + t * t)) / (1.0 + 1.0 / sqrtF (1 + t * t)))) ∧
      (jacobiApply sqrtF 0 2 t st).v (3 * k.val + 1) = st.v (3 * k.val + 1) := by
  refine ⟨?_, ?_, ?_, ?_, ?_, ?_, ?_, ?_, ?_, rfl, ?_⟩
  · simp [jacobiApply, ROTATE, List.range, List.range.loop, List.range', Function.update_apply,
      lit_zero]
  · simp [jacobiApply, ROTATE, List.range, List.range.loop, List.range', Function.update_apply,
      lit_zero]
  · simp [jacobiApply, ROTATE, List.range, List.range.loop, List.range', Function.update_apply,
      lit_zero]
  · simp [jacobiApply, ROTATE, List.range, List.range.loop, List.range', Function.update_apply,
      lit_zero]
  · simp [jacobiApply, ROTATE, List.range, List.range.loop, List.range', Function.update_apply,
      lit_zero]
  · simp [jacobiApply, ROTATE, List.range, List.range.loop, List.range', Function.update_apply,
      lit_zero]
  · simp [jacobiApply, ROTATE, List.range, List.range.loop, List.range', Function.update_apply,
      lit_zero]
  · simp [jacobiApply, ROTATE, List.range, List.range.loop, List.range', Function.update_apply,
      lit_zero]
  · simp [jacobiApply, ROTATE, List.range, List.range.loop, List.range', Function.update_apply,
      lit_zero]
  intro k
  obtain ⟨k, hk⟩ := k
  interval_cases k <;>
    simp [jacobiApply, ROTATE, List.range, List.range.loop, List.range', Function.update_apply]

theorem jacobiApply_12_cells (sqrtF : α → α) (t : α) (st : JacobiState α) :
    (jacobiApply sqrtF 1 2 t st).a 5 = 0 ∧
    (jacobiApply sqrtF 1 2 t st).a 1 = st.a 1 - (t * (1.0 / sqrtF (1 + t * t))) * (st.a 2 + st.a 1 * (t * (1.0 / sqrtF (1 + t * t)) / (1.0 + 1.0 / sqrtF (1 + t * t)))) ∧
    (jacobiApply sqrtF 1 2 t st).a 2 = st.a 2 + (t * (1.0 / sqrtF (1 + t * t))) * (st.a 1 - st.a 2 * (t * (1.0 / sqrtF (1 + t * t)) / (1.0 + 1.0 / sqrtF (1 + t * t)))) ∧
    (jacobiApply sqrtF 1 2 t st).d 1 = st.d 1 - t * st.a 5 ∧
    (jacobiApply sqrtF 1 2 t st).d 2 = st.d 2 + t * st.a 5 ∧
    (jacobiApply sqrtF 1 2 t st).d 0 = st.d 0 ∧
    (jacobiApply sqrtF 1 2 t st).z 1 = st.z 1 - t * st.a 5 ∧
    (jacobiApply sqrtF 1 2 t st).z 2 = st.z 2 + t * st.a 5 ∧
    (jacobiApply sqrtF 1 2 t st).z 0 = st.z 0 ∧
    (jacobiApply sqrtF 1 2 t st).b = st.b ∧
    ∀ k : Fin 3,
      (jacobiApply sqrtF 1 2 t st).v (3 * k.val + 1) = st.v (3 * k.val + 1) - (t * (1.0 / sqrtF (1 + t * t))) * (st.v (3 * k.val + 2) + st.v (3 * k.val + 1) * (t * (1.0 / sqrtF (1 + t * t)) / (1.0 + 1.0 / sqrtF (1 + t * t)))) ∧
      (jacobiApply sqrtF 1 2 t st).v (3 * k.val + 2) = st.v (3 * k.val + 2) + (t * (1.0 / sqrtF (1 + t * t))) * (st.v (3 * k.val + 1) - st.v (3 * k.val + 2) * (t * (1.0 / sqrtF (1 + t * t)) / (1.0 + 1.0 / sqrtF (1 + t * t)))) ∧
      (jacobiApply sqrtF 1 2 t st).v (3 * k.val + 0) = st.v (3 * k.val + 0) := by
  refine ⟨?_, ?_, ?_, ?_, ?_, ?_, ?_, ?_, ?_, rfl, ?_⟩
  · simp [jacobiApply, ROTATE, List.range, List.range.loop, List.range', Function.update_apply,
      lit_zero]
  · simp [jacobiApply, ROTATE, List.range, List.range.loop, List.range', Function.update_apply,
      lit_zero]
  · simp [jacobiApply, ROTATE, List.range, List.range.loop, List.range', Function.update_apply,
      lit_zero]
  · simp [jacobiApply, ROTATE, List.range, List.range.loop, List.range', Function.update_apply,
      lit_zero]
  · simp [jacobiApply, ROTATE, List.range, List.range.loop, List.range', Function.update_apply,
      lit_zero]
  · simp [jacobiApply, ROTATE, List.range, List.range.loop, List.range', Function.update_apply,
      lit_zero]
  · simp [jacobiApply, ROTATE, List.range, List.range.loop, List.range', Function.update_apply,
      lit_zero]
  · simp [jacobiApply, ROTATE, List.range, List.range.loop, List.range', Function.update_apply,
      lit_zero]
  · simp [jacobiApply, ROTATE, List.range, List.range.loop, List.range', Function.update_apply,
      lit_zero]
  intro k
  obtain ⟨k, hk⟩ := k
  interval_cases k <;>
    simp [jacobiApply, ROTATE, List.range, List.range.loop, List.range', Function.update_apply]

theorem jacobiApply_01_clean (t : ℝ) (st : JacobiState ℝ) :
    ∃ c s : ℝ, s = t * c ∧ c * c + s * s = 1 ∧
      (jacobiApply Real.sqrt 0 1 t st).a 1 = 0 ∧
      (jacobiApply Real.sqrt 0 1 t st).a 2 = c * st.a 2 - s * st.a 5 ∧
      (jacobiApply Real.sqrt 0 1 t st).a 5 = s * st.a 2 + c * st.a 5 ∧
      (jacobiApply Real.sqrt 0 1 t st).d 0 = st.d 0 - t * st.a 1 ∧
      (jacobiApply Real.sqrt 0 1 t st).d 1 = st.d 1 + t * st.a 1 ∧
      (jacobiApply Real.sqrt 0 1 t st).d 2 = st.d 2 ∧
      (jacobiApply Real.sqrt 0 1 t st).z 0 = st.z 0 - t * st.a 1 ∧
      (jacobiApply Real.sqrt 0 1 t st).z 1 = st.z 1 + t * st.a 1 ∧
      (jacobiApply Real.sqrt 0 1 t st).z 2 = st.z 2 ∧
      (jacobiApply Real.sqrt 0 1 t st).b = st.b ∧
      (jacobiApply Real.sqrt 0 1 t st).v 0 = c * st.v 0 - s * st.v 1 ∧
      (jacobiApply Real.sqrt 0 1 t st).v 1 = s * st.v 0 + c * st.v 1 ∧
      (jacobiApply Real.sqrt 0 1 t st).v 2 = st.v 2 ∧
      (jacobiApply Real.sqrt 0 1 t st).v 3 = c * st.v 3 - s * st.v 4 ∧
      (jacobiApply Real.sqrt 0 1 t st).v 4 = s * st.v 3 + c * st.v 4 ∧
      (jacobiApply Real.sqrt 0 1 t st).v 5 = st.v 5 ∧
      (jacobiApply Real.sqrt 0 1 t st).v 6 = c * st.v 6 - s * st.v 7 ∧
      (jacobiApply Real.sqrt 0 1 t st).v 7 = s * st.v 6 + c * st.v 7 ∧
      (jacobiApply Real.sqrt 0 1 t st).v 8 = st.v 8 := by
  obtain ⟨hcs, htau⟩ := rot_cos_sin t
  obtain ⟨ax, ay, az, dp, dq, dr, zp, zq, zr, hb, hv⟩ := jacobiApply_01_cells Real.sqrt t st
  have hv0 := hv 0
  have hv1 := hv 1
  have hv2 := hv 2
  simp only [Fin.val_zero, Fin.val_one, Fin.val_two, Nat.mul_zero, Nat.mul_one, Nat.zero_add,
    Nat.add_zero, Nat.reduceMul, Nat.reduceAdd] at hv0 hv1 hv2
  refine ⟨1.0 / Real.sqrt (1 + t * t), t * (1.0 / Real.sqrt (1 + t * t)), rfl, hcs, ax, ?_, ?_,
    dp, dq, dr, zp, zq, zr, hb, ?_, ?_, hv0.2.2, ?_, ?_, hv1.2.2, ?_, ?_, hv2.2.2⟩
  · rw [ay]
    linear_combination (-(st.a 2)) * htau
  · rw [az]
    linear_combination (-(st.a 5)) * htau
  · rw [hv0.1]
    linear_combination (-(st.v 0)) * htau
  · rw [hv0.2.1]
    linear_combination (-(st.v 1)) * htau
  · rw [hv1.1]
    linear_combination (-(st.v 3)) * htau
  · rw [hv1.2.1]
    linear_combination (-(st.v 4)) * htau
  · rw [hv2.1]
    linear_combination (-(st.v 6)) * htau
  · rw [hv2.2.1]
    linear_combination (-(st.v 7)) * htau

theorem jacobiApply_01_inv (A : Nat → ℝ) (t : ℝ) (st : JacobiState ℝ)
    (hinv : JacobiInv A st)
    (ht : st.a 1 * t * t + (st.d 1 - st.d 0) * t - st.a 1 = 0) :
    JacobiInv A (jacobiApply Real.sqrt 0 1 t st) := by
  obtain ⟨hE0, hD⟩ := hinv
  obtain ⟨c, s, hst, hcs, ax, ay, az, dp, dq, dr, zp, zq, zr, hb, v0, v1, v2, v3, v4, v5, v6,
    v7, v8⟩ := jacobiApply_01_clean t st
  have hE : ∀ r : Fin 3, _ := hE0
  simp only [EigInv] at hE
  have hD0 := hD 0
  have hD1 := hD 1
  have hD2 := hD 2
  simp only [Fin.val_zero, Fin.val_one, Fin.val_two] at hD0 hD1 hD2
  have hE0r := hE 0
  have hE1r := hE 1
  have hE2r := hE 2
  simp only [Fin.val_zero, Fin.val_one, Fin.val_two, Nat.mul_zero, Nat.mul_one, Nat.zero_add,
    Nat.add_zero, Nat.reduceMul, Nat.reduceAdd] at hE0r hE1r hE2r
  constructor
  · intro r
    obtain ⟨r, hr3⟩ := r
    interval_cases r <;>
      simp only [Nat.mul_zero, Nat.mul_one, Nat.zero_add, Nat.add_zero, Nat.reduceMul,
        Nat.reduceAdd, ax, ay, az, dp, dq, dr, v0, v1, v2, v3, v4, v5, v6, v7, v8]
    · refine ⟨?_, ?_, ?_⟩
      · linear_combination (plane_rot (A 0 * st.v 0 + A 1 * st.v 3 + A 2 * st.v 6) (A 0 * st.v 1 + A 1 * st.v 4 + A 2 * st.v 7) (A 0 * st.v 2 + A 1 * st.v 5 + A 2 * st.v 8) (st.v 0) (st.v 1) (st.v 2) (st.d 0) (st.d 1) (st.d 2) (st.a 1) (st.a 2) (st.a 5) c s t (by linear_combination hE0r.1) (by linear_combination hE0r.2.1) (by linear_combination hE0r.2.2) hst hcs ht).1
      · linear_combination (plane_rot (A 0 * st.v 0 + A 1 * st.v 3 + A 2 * st.v 6) (A 0 * st.v 1 + A 1 * st.v 4 + A 2 * st.v 7) (A 0 * st.v 2 + A 1 * st.v 5 + A 2 * st.v 8) (st.v 0) (st.v 1) (st.v 2) (st.d 0) (st.d 1) (st.d 2) (st.a 1) (st.a 2) (st.a 5) c s t (by linear_combination hE0r.1) (by linear_combination hE0r.2.1) (by linear_combination hE0r.2.2) hst hcs ht).2.1
      · linear_combination (plane_rot (A 0 * st.v 0 + A 1 * st.v 3 + A 2 * st.v 6) (A 0 * st.v 1 + A 1 * st.v 4 + A 2 * st.v 7) (A 0 * st.v 2 + A 1 * st.v 5 + A 2 * st.v 8) (st.v 0) (st.v 1) (st.v 2) (st.d 0) (st.d 1) (st.d 2) (st.a 1) (st.a 2) (st.a 5) c s t (by linear_combination hE0r.1) (by linear_combination hE0r.2.1) (by linear_combination hE0r.2.2) hst hcs ht).2.2
    · refine ⟨?_, ?_, ?_⟩
      · linear_combination (plane_rot (A 3 * st.v 0 + A 4 * st.v 3 + A 5 * st.v 6) (A 3 * st.v 1 + A 4 * st.v 4 + A 5 * st.v 7) (A 3 * st.v 2 + A 4 * st.v 5 + A 5 * st.v 8) (st.v 3) (st.v 4) (st.v 5) (st.d 0) (st.d 1) (st.d 2) (st.a 1) (st.a 2) (st.a 5) c s t (by linear_combination hE1r.1) (by linear_combination hE1r.2.1) (by linear_combination hE1r.2.2) hst hcs ht).1
      · linear_combination (plane_rot (A 3 * st.v 0 + A 4 * st.v 3 + A 5 * st.v 6) (A 3 * st.v 1 + A 4 * st.v 4 + A 5 * st.v 7) (A 3 * st.v 2 + A 4 * st.v 5 + A 5 * st.v 8) (st.v 3) (st.v 4) (st.v 5) (st.d 0) (st.d 1) (st.d 2) (st.a 1) (st.a 2) (st.a 5) c s t (by linear_combination hE1r.1) (by linear_combination hE1r.2.1) (by linear_combination hE1r.2.2) hst hcs ht).2.1
      · linear_combination (plane_rot (A 3 * st.v 0 + A 4 * st.v 3 + A 5 * st.v 6) (A 3 * st.v 1 + A 4 * st.v 4 + A 5 * st.v 7) (A 3 * st.v 2 + A 4 * st.v 5 + A 5 * st.v 8) (st.v 3) (st.v 4) (st.v 5) (st.d 0) (st.d 1) (st.d 2) (st.a 1) (st.a 2) (st.a 5) c s t (by linear_combination hE1r.1) (by linear_combination hE1r.2.1) (by linear_combination hE1r.2.2) hst hcs ht).2.2
    · refine ⟨?_, ?_, ?_⟩
      · linear_combination (plane_rot (A 6 * st.v 0 + A 7 * st.v 3 + A 8 * st.v 6) (A 6 * st.v 1 + A 7 * st.v 4 + A 8 * st.v 7) (A 6 * st.v 2 + A 7 * st.v 5 + A 8 * st.v 8) (st.v 6) (st.v 7) (st.v 8) (st.d 0) (st.d 1) (st.d 2) (st.a 1) (st.a 2) (st.a 5) c s t (by linear_combination hE2r.1) (by linear_combination hE2r.2.1) (by linear_combination hE2r.2.2) hst hcs ht).1
      · linear_combination (plane_rot (A 6 * st.v 0 + A 7 * st.v 3 + A 8 * st.v 6) (A 6 * st.v 1 + A 7 * st.v 4 + A 8 * st.v 7) (A 6 * st.v 2 + A 7 * st.v 5 + A 8 * st.v 8) (st.v 6) (st.v 7) (st.v 8) (st.d 0) (st.d 1) (st.d 2) (st.a 1) (st.a 2) (st.a 5) c s t (by linear_combination hE2r.1) (by linear_combination hE2r.2.1) (by linear_combination hE2r.2.2) hst hcs ht).2.1
      · linear_combination (plane_rot (A 6 * st.v 0 + A 7 * st.v 3 + A 8 * st.v 6) (A 6 * st.v 1 + A 7 * st.v 4 + A 8 * st.v 7) (A 6 * st.v 2 + A 7 * st.v 5 + A 8 * st.v 8) (st.v 6) (st.v 7) (st.v 8) (st.d 0) (st.d 1) (st.d 2) (st.a 1) (st.a 2) (st.a 5) c s t (by linear_combination hE2r.1) (by linear_combination hE2r.2.1) (by linear_combination hE2r.2.2) hst hcs ht).2.2
  · intro k
    obtain ⟨k, hk3⟩ := k
    interval_cases k <;> simp only [dp, dq, dr, zp, zq, zr, hb]
    · linear_combination hD0
    · linear_combination hD1
    · linear_combination hD2

theorem jacobiApply_02_clean (t : ℝ) (st : JacobiState ℝ) :
    ∃ c s : ℝ, s = t * c ∧ c * c + s * s = 1 ∧
      (jacobiApply Real.sqrt 0 2 t st).a 2 = 0 ∧
      (jacobiApply Real.sqrt 0 2 t st).a 1 = c * st.a 1 - s * st.a 5 ∧
      (jacobiApply Real.sqrt 0 2 t st).a 5 = s * st.a 1 + c * st.a 5 ∧
      (jacobiApply Real.sqrt 0 2 t st).d 0 = st.d 0 - t * st.a 2 ∧
      (jacobiApply Real.sqrt 0 2 t st).d 2 = st.d 2 + t * st.a 2 ∧
      (jacobiApply Real.sqrt 0 2 t st).d 1 = st.d 1 ∧
      (jacobiApply Real.sqrt 0 2 t st).z 0 = st.z 0 - t * st.a 2 ∧
      (jacobiApply Real.sqrt 0 2 t st).z 2 = st.z 2 + t * st.a 2 ∧
      (jacobiApply Real.sqrt 0 2 t st).z 1 = st.z 1 ∧
      (jacobiApply Real.sqrt 0 2 t st).b = st.b ∧
      (jacobiApply Real.sqrt 0 2 t st).v 0 = c * st.v 0 - s * st.v 2 ∧
      (jacobiApply Real.sqrt 0 2 t st).v 2 = s * st.v 0 + c * st.v 2 ∧
      (jacobiApply Real.sqrt 0 2 t st).v 1 = st.v 1 ∧
      (jacobiApply Real.sqrt 0 2 t st).v 3 = c * st.v 3 - s * st.v 5 ∧
      (jacobiApply Real.sqrt 0 2 t st).v 5 = s * st.v 3 + c * st.v 5 ∧
      (jacobiApply Real.sqrt 0 2 t st).v 4 = st.v 4 ∧
      (jacobiApply Real.sqrt 0 2 t st).v 6 = c * st.v 6 - s * st.v 8 ∧
      (jacobiApply Real.sqrt 0 2 t st).v 8 = s * st.v 6 + c * st.v 8 ∧
      (jacobiApply Real.sqrt 0 2 t st).v 7 = st.v 7 := by
  obtain ⟨hcs, htau⟩ := rot_cos_sin t
  obtain ⟨ax, ay, az, dp, dq, dr, zp, zq, zr, hb, hv⟩ := jacobiApply_02_cells Real.sqrt t st
  have hv0 := hv 0
  have hv1 := hv 1
  have hv2 := hv 2
  simp only [Fin.val_zero, Fin.val_one, Fin.val_two, Nat.mul_zero, Nat.mul_one, Nat.zero_add,
    Nat.add_zero, Nat.reduceMul, Nat.reduceAdd] at hv0 hv1 hv2
  refine ⟨1.0 / Real.sqrt (1 + t * t), t * (1.0 / Real.sqrt (1 + t * t)), rfl, hcs, ax, ?_, ?_,
    dp, dq, dr, zp, zq, zr, hb, ?_, ?_, hv0.2.2, ?_, ?_, hv1.2.2, ?_, ?_, hv2.2.2⟩
  · rw [ay]
    linear_combination (-(st.a 1)) * htau
  · rw [az]
    linear_combination (-(st.a 5)) * htau
  · rw [hv0.1]
    linear_combination (-(st.v 0)) * htau
  · rw [hv0.2.1]
    linear_combination (-(st.v 2)) * htau
  · rw [hv1.1]
    linear_combination (-(st.v 3)) * htau
  · rw [hv1.2.1]
    linear_combination (-(st.v 5)) * htau
  · rw [hv2.1]
    linear_combination (-(st.v 6)) * htau
  · rw [hv2.2.1]
    linear_combination (-(st.v 8)) * htau

theorem jacobiApply_02_inv (A : Nat → ℝ) (t : ℝ) (st : JacobiState ℝ)
    (hinv : JacobiInv A st)
    (ht : st.a 2 * t * t + (st.d 2 - st.d 0) * t - st.a 2 = 0) :
    JacobiInv A (jacobiApply Real.sqrt 0 2 t st) := by
  obtain ⟨hE0, hD⟩ := hinv
  obtain ⟨c, s, hst, hcs, ax, ay, az, dp, dq, dr, zp, zq, zr, hb, v0, v1, v2, v3, v4, v5, v6,
    v7, v8⟩ := jacobiApply_02_clean t st
  have hE : ∀ r : Fin 3, _ := hE0
  simp only [EigInv] at hE
  have hD0 := hD 0
  have hD1 := hD 1
  have hD2 := hD 2
  simp only [Fin.val_zero, Fin.val_one, Fin.val_two] at hD0 hD1 hD2
  have hE0r := hE 0
  have hE1r := hE 1
  have hE2r := hE 2
  simp only [Fin.val_zero, Fin.val_one, Fin.val_two, Nat.mul_zero, Nat.mul_one, Nat.zero_add,
    Nat.add_zero, Nat.reduceMul, Nat.reduceAdd] at hE0r hE1r hE2r
  constructor
  · intro r
    obtain ⟨r, hr3⟩ := r
    interval_cases r <;>
      simp only [Nat.mul_zero, Nat.mul_one, Nat.zero_add, Nat.add_zero, Nat.reduceMul,
        Nat.reduceAdd, ax, ay, az, dp, dq, dr, v0, v1, v2, v3, v4, v5, v6, v7, v8]
    · refine ⟨?_, ?_, ?_⟩
      · linear_combination (plane_rot (A 0 * st.v 0 + A 1 * st.v 3 + A 2 * st.v 6) (A 0 * st.v 2 + A 1 * st.v 5 + A 2 * st.v 8) (A 0 * st.v 1 + A 1 * st.v 4 + A 2 * st.v 7) (st.v 0) (st.v 2) (st.v 1) (st.d 0) (st.d 2) (st.d 1) (st.a 2) (st.a 1) (st.a 5) c s t (by linear_combination hE0r.1) (by linear_combination hE0r.2.2) (by linear_combination hE0r.2.1) hst hcs ht).1
      · linear_combination (plane_rot (A 0 * st.v 0 + A 1 * st.v 3 + A 2 * st.v 6) (A 0 * st.v 2 + A 1 * st.v 5 + A 2 * st.v 8) (A 0 * st.v 1 + A 1 * st.v 4 + A 2 * st.v 7) (st.v 0) (st.v 2) (st.v 1) (st.d 0) (st.d 2) (st.d 1) (st.a 2) (st.a 1) (st.a 5) c s t (by linear_combination hE0r.1) (by linear_combination hE0r.2.2) (by linear_combination hE0r.2.1) hst hcs ht).2.2
      · linear_combination (plane_rot (A 0 * st.v 0 + A 1 * st.v 3 + A 2 * st.v 6) (A 0 * st.v 2 + A 1 * st.v 5 + A 2 * st.v 8) (A 0 * st.v 1 + A 1 * st.v 4 + A 2 * st.v 7) (st.v 0) (st.v 2) (st.v 1) (st.d 0) (st.d 2) (st.d 1) (st.a 2) (st.a 1) (st.a 5) c s t (by linear_combination hE0r.1) (by linear_combination hE0r.2.2) (by linear_combination hE0r.2.1) hst hcs ht).2.1
    · refine ⟨?_, ?_, ?_⟩
      · linear_combination (plane_rot (A 3 * st.v 0 + A 4 * st.v 3 + A 5 * st.v 6) (A 3 * st.v 2 + A 4 * st.v 5 + A 5 * st.v 8) (A 3 * st.v 1 + A 4 * st.v 4 + A 5 * st.v 7) (st.v 3) (st.v 5) (st.v 4) (st.d 0) (st.d 2) (st.d 1) (st.a 2) (st.a 1) (st.a 5) c s t (by linear_combination hE1r.1) (by linear_combination hE1r.2.2) (by linear_combination hE1r.2.1) hst hcs ht).1
      · linear_combination (plane_rot (A 3 * st.v 0 + A 4 * st.v 3 + A 5 * st.v 6) (A 3 * st.v 2 + A 4 * st.v 5 + A 5 * st.v 8) (A 3 * st.v 1 + A 4 * st.v 4 + A 5 * st.v 7) (st.v 3) (st.v 5) (st.v 4) (st.d 0) (st.d 2) (st.d 1) (st.a 2) (st.a 1) (st.a 5) c s t (by linear_combination hE1r.1) (by linear_combination hE1r.2.2) (by linear_combination hE1r.2.1) hst hcs ht).2.2
      · linear_combination (plane_rot (A 3 * st.v 0 + A 4 * st.v 3 + A 5 * st.v 6) (A 3 * st.v 2 + A 4 * st.v 5 + A 5 * st.v 8) (A 3 * st.v 1 + A 4 * st.v 4 + A 5 * st.v 7) (st.v 3) (st.v 5) (st.v 4) (st.d 0) (st.d 2) (st.d 1) (st.a 2) (st.a 1) (st.a 5) c s t (by linear_combination hE1r.1) (by linear_combination hE1r.2.2) (by linear_combination hE1r.2.1) hst hcs ht).2.1
    · refine ⟨?_, ?_, ?_⟩
      · linear_combination (plane_rot (A 6 * st.v 0 + A 7 * st.v 3 + A 8 * st.v 6) (A 6 * st.v 2 + A 7 * st.v 5 + A 8 * st.v 8) (A 6 * st.v 1 + A 7 * st.v 4 + A 8 * st.v 7) (st.v 6) (st.v 8) (st.v 7) (st.d 0) (st.d 2) (st.d 1) (st.a 2) (st.a 1) (st.a 5) c s t (by linear_combination hE2r.1) (by linear_combination hE2r.2.2) (by linear_combination hE2r.2.1) hst hcs ht).1
      · linear_combination (plane_rot (A 6 * st.v 0 + A 7 * st.v 3 + A 8 * st.v 6) (A 6 * st.v 2 + A 7 * st.v 5 + A 8 * st.v 8) (A 6 * st.v 1 + A 7 * st.v 4 + A 8 * st.v 7) (st.v 6) (st.v 8) (st.v 7) (st.d 0) (st.d 2) (st.d 1) (st.a 2) (st.a 1) (st.a 5) c s t (by linear_combination hE2r.1) (by linear_combination hE2r.2.2) (by linear_combination hE2r.2.1) hst hcs ht).2.2
      · linear_combination (plane_rot (A 6 * st.v 0 + A 7 * st.v 3 + A 8 * st.v 6) (A 6 * st.v 2 + A 7 * st.v 5 + A 8 * st.v 8) (A 6 * st.v 1 + A 7 * st.v 4 + A 8 * st.v 7) (st.v 6) (st.v 8) (st.v 7) (st.d 0) (st.d 2) (st.d 1) (st.a 2) (st.a 1) (st.a 5) c s t (by linear_combination hE2r.1) (by linear_combination hE2r.2.2) (by linear_combination hE2r.2.1) hst hcs ht).2.1
  · intro k
    obtain ⟨k, hk3⟩ := k
    interval_cases k <;> simp only [dp, dq, dr, zp, zq, zr, hb]
    · linear_combination hD0
    · linear_combination hD1
    · linear_combination hD2

theorem jacobiApply_12_clean (t : ℝ) (st : JacobiState ℝ) :
    ∃ c s : ℝ, s = t * c ∧ c * c + s * s = 1 ∧
      (jacobiApply Real.sqrt 1 2 t st).a 5 = 0 ∧
      (jacobiApply Real.sqrt 1 2 t st).a 1 = c * st.a 1 - s * st.a 2 ∧
      (jacobiApply Real.sqrt 1 2 t st).a 2 = s * st.a 1 + c * st.a 2 ∧
      (jacobiApply Real.sqrt 1 2 t st).d 1 = st.d 1 - t * st.a 5 ∧
      (jacobiApply Real.sqrt 1 2 t st).d 2 = st.d 2 + t * st.a 5 ∧
      (jacobiApply Real.sqrt 1 2 t st).d 0 = st.d 0 ∧
      (jacobiApply Real.sqrt 1 2 t st).z 1 = st.z 1 - t * st.a 5 ∧
      (jacobiApply Real.sqrt 1 2 t st).z 2 = st.z 2 + t * st.a 5 ∧
      (jacobiApply Real.sqrt 1 2 t st).z 0 = st.z 0 ∧
      (jacobiApply Real.sqrt 1 2 t st).b = st.b ∧
      (jacobiApply Real.sqrt 1 2 t st).v 1 = c * st.v 1 - s * st.v 2 ∧
      (jacobiApply Real.sqrt 1 2 t st).v 2 = s * st.v 1 + c * st.v 2 ∧
      (jacobiApply Real.sqrt 1 2 t st).v 0 = st.v 0 ∧
      (jacobiApply Real.sqrt 1 2 t st).v 4 = c * st.v 4 - s * st.v 5 ∧
      (jacobiApply Real.sqrt 1 2 t st).v 5 = s * st.v 4 + c * st.v 5 ∧
      (jacobiApply Real.sqrt 1 2 t st).v 3 = st.v 3 ∧
      (jacobiApply Real.sqrt 1 2 t st).v 7 = c * st.v 7 - s * st.v 8 ∧
      (jacobiApply Real.sqrt 1 2 t st).v 8 = s * st.v 7 + c * st.v 8 ∧
      (jacobiApply Real.sqrt 1 2 t st).v 6 = st.v 6 := by
  obtain ⟨hcs, htau⟩ := rot_cos_sin t
  obtain ⟨ax, ay, az, dp, dq, dr, zp, zq, zr, hb, hv⟩ := jacobiApply_12_cells Real.sqrt t st
  have hv0 := hv 0
  have hv1 := hv 1
  have hv2 := hv 2
  simp only [Fin.val_zero, Fin.val_one, Fin.val_two, Nat.mul_zero, Nat.mul_one, Nat.zero_add,
    Nat.add_zero, Nat.reduceMul, Nat.reduceAdd] at hv0 hv1 hv2
  refine ⟨1.0 / Real.sqrt (1 + t * t), t * (1.0 / Real.sqrt (1 + t * t)), rfl, hcs, ax, ?_, ?_,
    dp, dq, dr, zp, zq, zr, hb, ?_, ?_, hv0.2.2, ?_, ?_, hv1.2.2, ?_, ?_, hv2.2.2⟩
  · rw [ay]
    linear_combination (-(st.a 1)) * htau
  · rw [az]
    linear_combination (-(st.a 2)) * htau
  · rw [hv0.1]
    linear_combination (-(st.v 1)) * htau
  · rw [hv0.2.1]
    linear_combination (-(st.v 2)) * htau
  · rw [hv1.1]
    linear_combination (-(st.v 4)) * htau
  · rw [hv1.2.1]
    linear_combination (-(st.v 5)) * htau
  · rw [hv2.1]
    linear_combination (-(st.v 7)) * htau
  · rw [hv2.2.1]
    linear_combination (-(st.v 8)) * htau

theorem jacobiApply_12_inv (A : Nat → ℝ) (t : ℝ) (st : JacobiState ℝ)
    (hinv : JacobiInv A st)
    (ht : st.a 5 * t * t + (st.d 2 - st.d 1) * t - st.a 5 = 0) :
    JacobiInv A (jacobiApply Real.sqrt 1 2 t st) := by
  obtain ⟨hE0, hD⟩ := hinv
  obtain ⟨c, s, hst, hcs, ax, ay, az, dp, dq, dr, zp, zq, zr, hb, v0, v1, v2, v3, v4, v5, v6,
    v7, v8⟩ := jacobiApply_12_clean t st
  have hE : ∀ r : Fin 3, _ := hE0
  simp only [EigInv] at hE
  have hD0 := hD 0
  have hD1 := hD 1
  have hD2 := hD 2
  simp only [Fin.val_zero, Fin.val_one, Fin.val_two] at hD0 hD1 hD2
  have hE0r := hE 0
  have hE1r := hE 1
  have hE2r := hE 2
  simp only [Fin.val_zero, Fin.val_one, Fin.val_two, Nat.mul_zero, Nat.mul_one, Nat.zero_add,
    Nat.add_zero, Nat.reduceMul, Nat.reduceAdd] at hE0r hE1r hE2r
  constructor
  · intro r
    obtain ⟨r, hr3⟩ := r
    interval_cases r <;>
      simp only [Nat.mul_zero, Nat.mul_one, Nat.zero_add, Nat.add_zero, Nat.reduceMul,
        Nat.reduceAdd, ax, ay, az, dp, dq, dr, v0, v1, v2, v3, v4, v5, v6, v7, v8]
    · refine ⟨?_, ?_, ?_⟩
      · linear_combination (plane_rot (A 0 * st.v 1 + A 1 * st.v 4 + A 2 * st.v 7) (A 0 * st.v 2 + A 1 * st.v 5 + A 2 * st.v 8) (A 0 * st.v 0 + A 1 * st.v 3 + A 2 * st.v 6) (st.v 1) (st.v 2) (st.v 0) (st.d 1) (st.d 2) (st.d 0) (st.a 5) (st.a 1) (st.a 2) c s t (by linear_combination hE0r.2.1) (by linear_combination hE0r.2.2) (by linear_combination hE0r.1) hst hcs ht).2.2
      · linear_combination (plane_rot (A 0 * st.v 1 + A 1 * st.v 4 + A 2 * st.v 7) (A 0 * st.v 2 + A 1 * st.v 5 + A 2 * st.v 8) (A 0 * st.v 0 + A 1 * st.v 3 + A 2 * st.v 6) (st.v 1) (st.v 2) (st.v 0) (st.d 1) (st.d 2) (st.d 0) (st.a 5) (st.a 1) (st.a 2) c s t (by linear_combination hE0r.2.1) (by linear_combination hE0r.2.2) (by linear_combination hE0r.1) hst hcs ht).1
      · linear_combination (plane_rot (A 0 * st.v 1 + A 1 * st.v 4 + A 2 * st.v 7) (A 0 * st.v 2 + A 1 * st.v 5 + A 2 * st.v 8) (A 0 * st.v 0 + A 1 * st.v 3 + A 2 * st.v 6) (st.v 1) (st.v 2) (st.v 0) (st.d 1) (st.d 2) (st.d 0) (st.a 5) (st.a 1) (st.a 2) c s t (by linear_combination hE0r.2.1) (by linear_combination hE0r.2.2) (by linear_combination hE0r.1) hst hcs ht).2.1
    · refine ⟨?_, ?_, ?_⟩
      · linear_combination (plane_rot (A 3 * st.v 1 + A 4 * st.v 4 + A 5 * st.v 7) (A 3 * st.v 2 + A 4 * st.v 5 + A 5 * st.v 8) (A 3 * st.v 0 + A 4 * st.v 3 + A 5 * st.v 6) (st.v 4) (st.v 5) (st.v 3) (st.d 1) (st.d 2) (st.d 0) (st.a 5) (st.a 1) (st.a 2) c s t (by linear_combination hE1r.2.1) (by linear_combination hE1r.2.2) (by linear_combination hE1r.1) hst hcs ht).2.2
      · linear_combination (plane_rot (A 3 * st.v 1 + A 4 * st.v 4 + A 5 * st.v 7) (A 3 * st.v 2 + A 4 * st.v 5 + A 5 * st.v 8) (A 3 * st.v 0 + A 4 * st.v 3 + A 5 * st.v 6) (st.v 4) (st.v 5) (st.v 3) (st.d 1) (st.d 2) (st.d 0) (st.a 5) (st.a 1) (st.a 2) c s t (by linear_combination hE1r.2.1) (by linear_combination hE1r.2.2) (by linear_combination hE1r.1) hst hcs ht).1
      · linear_combination (plane_rot (A 3 * st.v 1 + A 4 * st.v 4 + A 5 * st.v 7) (A 3 * st.v 2 + A 4 * st.v 5 + A 5 * st.v 8) (A 3 * st.v 0 + A 4 * st.v 3 + A 5 * st.v 6) (st.v 4) (st.v 5) (st.v 3) (st.d 1) (st.d 2) (st.d 0) (st.a 5) (st.a 1) (st.a 2) c s t (by linear_combination hE1r.2.1) (by linear_combination hE1r.2.2) (by linear_combination hE1r.1) hst hcs ht).2.1
    · refine ⟨?_, ?_, ?_⟩
      · linear_combination (plane_rot (A 6 * st.v 1 + A 7 * st.v 4 + A 8 * st.v 7) (A 6 * st.v 2 + A 7 * st.v 5 + A 8 * st.v 8) (A 6 * st.v 0 + A 7 * st.v 3 + A 8 * st.v 6) (st.v 7) (st.v 8) (st.v 6) (st.d 1) (st.d 2) (st.d 0) (st.a 5) (st.a 1) (st.a 2) c s t (by linear_combination hE2r.2.1) (by linear_combination hE2r.2.2) (by linear_combination hE2r.1) hst hcs ht).2.2
      · linear_combination (plane_rot (A 6 * st.v 1 + A 7 * st.v 4 + A 8 * st.v 7) (A 6 * st.v 2 + A 7 * st.v 5 + A 8 * st.v 8) (A 6 * st.v 0 + A 7 * st.v 3 + A 8 * st.v 6) (st.v 7) (st.v 8) (st.v 6) (st.d 1) (st.d 2) (st.d 0) (st.a 5) (st.a 1) (st.a 2) c s t (by linear_combination hE2r.2.1) (by linear_combination hE2r.2.2) (by linear_combination hE2r.1) hst hcs ht).1
      · linear_combination (plane_rot (A 6 * st.v 1 + A 7 * st.v 4 + A 8 * st.v 7) (A 6 * st.v 2 + A 7 * st.v 5 + A 8 * st.v 8) (A 6 * st.v 0 + A 7 * st.v 3 + A 8 * st.v 6) (st.v 7) (st.v 8) (st.v 6) (st.d 1) (st.d 2) (st.d 0) (st.a 5) (st.a 1) (st.a 2) c s t (by linear_combination hE2r.2.1) (by linear_combination hE2r.2.2) (by linear_combination hE2r.1) hst hcs ht).2.1
  · intro k
    obtain ⟨k, hk3⟩ := k
    interval_cases k <;> simp only [dp, dq, dr, zp, zq, zr, hb]
    · linear_combination hD0
    · linear_combination hD1
    · linear_combination hD2

theorem jacobiInv_congr (A : Nat → ℝ) (st st2 : JacobiState ℝ)
    (h1 : st2.a 1 = st.a 1) (h2 : st2.a 2 = st.a 2) (h5 : st2.a 5 = st.a 5)
    (hd : st2.d = st.d) (hv : st2.v = st.v) (hb : st2.b = st.b) (hz : st2.z = st.z)
    (hinv : JacobiInv A st) : JacobiInv A st2 := by
  unfold JacobiInv EigInv at *
  rw [h1, h2, h5, hd, hv, hb, hz]
  exact hinv

theorem jacobiRotate_01_inv (A : Nat → ℝ) (i : Nat) (tresh : ℝ) (st : JacobiState ℝ)
    (htresh : 0 ≤ tresh) (hinv : JacobiInv A st) :
    JacobiInv A (jacobiRotate Real.sqrt i tresh 0 1 st) := by
  rw [jacobiRotate_eq]
  simp only [Nat.mul_zero, Nat.mul_one, Nat.zero_add, Nat.reduceMul, Nat.reduceAdd]
  by_cases h1 : i > 3 ∧ |st.d 0| + 100.0 * |st.a 1| = |st.d 0| ∧
      |st.d 1| + 100.0 * |st.a 1| = |st.d 1|
  · rw [if_pos h1]
    have hx : st.a 1 = 0 := by
      have e := h1.2.1
      rw [lit_hundred] at e
      have : |st.a 1| = 0 := by linarith [abs_nonneg (st.a 1)]
      exact abs_eq_zero.mp this
    refine jacobiInv_congr A st _ ?_ ?_ ?_ rfl rfl rfl rfl hinv
    · show Function.update st.a 1 0.0 1 = st.a 1
      simp [Function.update_apply, hx, lit_zero]
    · show Function.update st.a 1 0.0 2 = st.a 2
      simp [Function.update_apply, hx, lit_zero]
    · show Function.update st.a 1 0.0 5 = st.a 5
      simp [Function.update_apply, hx, lit_zero]
  · rw [if_neg h1]
    by_cases h2 : |st.a 1| > tresh
    · rw [if_pos h2]
      have hx : st.a 1 ≠ 0 := by
        intro e
        rw [e, abs_zero] at h2
        exact absurd h2 (not_lt.mpr htresh)
      exact jacobiApply_01_inv A _ st hinv (jacobiT_quadratic (st.a 1) (st.d 1 - st.d 0) hx)
    · rw [if_neg h2]
      exact hinv

theorem jacobiRotate_02_inv (A : Nat → ℝ) (i : Nat) (tresh : ℝ) (st : JacobiState ℝ)
    (htresh : 0 ≤ tresh) (hinv : JacobiInv A st) :
    JacobiInv A (jacobiRotate Real.sqrt i tresh 0 2 st) := by
  rw [jacobiRotate_eq]
  simp only [Nat.mul_zero, Nat.mul_one, Nat.zero_add, Nat.reduceMul, Nat.reduceAdd]
  by_cases h1 : i > 3 ∧ |st.d 0| + 100.0 * |st.a 2| = |st.d 0| ∧
      |st.d 2| + 100.0 * |st.a 2| = |st.d 2|
  · rw [if_pos h1]
    have hx : st.a 2 = 0 := by
      have e := h1.2.1
      rw [lit_hundred] at e
      have : |st.a 2| = 0 := by linarith [abs_nonneg (st.a 2)]
      exact abs_eq_zero.mp this
    refine jacobiInv_congr A st _ ?_ ?_ ?_ rfl rfl rfl rfl hinv
    · show Function.update st.a 2 0.0 1 = st.a 1
      simp [Function.update_apply, hx, lit_zero]
    · show Function.update st.a 2 0.0 2 = st.a 2
      simp [Function.update_apply, hx, lit_zero]
    · show Function.update st.a 2 0.0 5 = st.a 5
      simp [Function.update_apply, hx, lit_zero]
  · rw [if_neg h1]
    by_cases h2 : |st.a 2| > tresh
    · rw [if_pos h2]
      have hx : st.a 2 ≠ 0 := by
        intro e
        rw [e, abs_zero] at h2
        exact absurd h2 (not_lt.mpr htresh)
      exact jacobiApply_02_inv A _ st hinv (jacobiT_quadratic (st.a 2) (st.d 2 - st.d 0) hx)
    · rw [if_neg h2]
      exact hinv

theorem jacobiRotate_12_inv (A : Nat → ℝ) (i : Nat) (tresh : ℝ) (st : JacobiState ℝ)
    (htresh : 0 ≤ tresh) (hinv : JacobiInv A st) :
    JacobiInv A (jacobiRotate Real.sqrt i tresh 1 2 st) := by
  rw [jacobiRotate_eq]
  simp only [Nat.mul_zero, Nat.mul_one, Nat.zero_add, Nat.reduceMul, Nat.reduceAdd]
  by_cases h1 : i > 3 ∧ |st.d 1| + 100.0 * |st.a 5| = |st.d 1| ∧
      |st.d 2| + 100.0 * |st.a 5| = |st.d 2|
  · rw [if_pos h1]
    have hx : st.a 5 = 0 := by
      have e := h1.2.1
      rw [lit_hundred] at e
      have : |st.a 5| = 0 := by linarith [abs_nonneg (st.a 5)]
      exact abs_eq_zero.mp this
    refine jacobiInv_congr A st _ ?_ ?_ ?_ rfl rfl rfl rfl hinv
    · show Function.update st.a 5 0.0 1 = st.a 1
      simp [Function.update_apply, hx, lit_zero]
    · show Function.update st.a 5 0.0 2 = st.a 2
      simp [Function.update_apply, hx, lit_zero]
    · show Function.update st.a 5 0.0 5 = st.a 5
      simp [Function.update_apply, hx, lit_zero]
  · rw [if_neg h1]
    by_cases h2 : |st.a 5| > tresh
    · rw [if_pos h2]
      have hx : st.a 5 ≠ 0 := by
        intro e
        rw [e, abs_zero] at h2
        exact absurd h2 (not_lt.mpr htresh)
      exact jacobiApply_12_inv A _ st hinv (jacobiT_quadratic (st.a 5) (st.d 2 - st.d 1) hx)
    · rw [if_neg h2]
      exact hinv

theorem sweepEnd_inv (A : Nat → ℝ) (st : JacobiState ℝ) (hinv : JacobiInv A st) :
    JacobiInv A
      ((List.range 3).foldl
        (fun (st : JacobiState ℝ) ip =>
          let b := Function.update st.b ip (st.b ip + st.z ip)
          let d := Function.update st.d ip (b ip)
          let z := Function.update st.z ip 0.0
          JacobiState.mk st.a d st.v b z st.nrot)
        st) := by
  obtain ⟨hE, hD⟩ := hinv
  have hD0 := hD 0
  have hD1 := hD 1
  have hD2 := hD 2
  simp only [Fin.val_zero, Fin.val_one, Fin.val_two] at hD0 hD1 hD2
  have r3 : List.range 3 = [0, 1, 2] := rfl
  rw [r3]
  simp only [List.foldl]
  constructor
  · unfold EigInv at *
    intro r
    simp only [Function.update_apply] at *
    simp
    rw [← hD0, ← hD1, ← hD2]
    exact hE r
  · intro k
    obtain ⟨k, hk3⟩ := k
    interval_cases k <;> simp [Function.update_apply, lit_zero]

theorem jacobiSweep_inv (A : Nat → ℝ) (i : Nat) (st : JacobiState ℝ)
    (hinv : JacobiInv A st) : JacobiInv A (jacobiSweep Real.sqrt i st) := by
  rw [jacobiSweep_eq]
  have htresh : (0 : ℝ) ≤ (if i < 3 then offDiagSum st.a * 0.2 / 9.0 else 0.0) := by
    rw [lit_fifth, lit_nine, lit_zero]
    have := offDiagSum_nonneg st.a
    split_ifs
    · positivity
    · exact le_refl _
  exact sweepEnd_inv A _
    (jacobiRotate_12_inv A i _ _ htresh
      (jacobiRotate_02_inv A i _ _ htresh (jacobiRotate_01_inv A i _ _ htresh hinv)))

theorem jacobiLoop_inv (A : Nat → ℝ) (n i : Nat) (st : JacobiState ℝ)
    (hinv : JacobiInv A st) (hret : (jacobiLoop Real.sqrt n i st).1 = 1) :
    JacobiInv A (jacobiLoop Real.sqrt n i st).2 ∧
    offDiagSum (jacobiLoop Real.sqrt n i st).2.a = 0 := by
  induction n generalizing i st with
  | zero =>
    have h0 : (jacobiLoop Real.sqrt 0 i st).1 = 0 := rfl
    rw [h0] at hret
    exact absurd hret (by decide)
  | succ n ih =>
    unfold jacobiLoop at hret ⊢
    by_cases h : offDiagSum st.a = 0.0
    · rw [if_pos h]
      exact ⟨hinv, h.trans lit_zero⟩
    · rw [if_neg h] at hret ⊢
      exact ih (i + 1) _ (jacobiSweep_inv A i st hinv) hret

theorem jacobiInit_inv (A d v : Nat → ℝ)
    (h13 : A 1 = A 3) (h26 : A 2 = A 6) (h57 : A 5 = A 7) :
    JacobiInv A (jacobiInit A d v) := by
  obtain ⟨d0, d1, d2⟩ := jacobiInit_d A d v
  obtain ⟨b0, b1, b2⟩ := jacobiInit_b A d v
  obtain ⟨z0, z1, z2⟩ := jacobiInit_z A d v
  obtain ⟨v0, v1, v2, v3, v4, v5, v6, v7, v8⟩ := jacobiInit_v A d v
  constructor
  · unfold EigInv
    intro r
    obtain ⟨r, hr3⟩ := r
    rw [jacobiInit_a]
    interval_cases r <;>
      simp only [Nat.mul_zero, Nat.mul_one, Nat.zero_add, Nat.add_zero, Nat.reduceMul,
        Nat.reduceAdd, d0, d1, d2, v0, v1, v2, v3, v4, v5, v6, v7, v8] <;>
      refine ⟨?_, ?_, ?_⟩ <;> first
        | ring1
        | linear_combination h13
        | linear_combination (-1 : ℝ) * h13
        | linear_combination h26
        | linear_combination (-1 : ℝ) * h26
        | linear_combination h57
        | linear_combination (-1 : ℝ) * h57
  · intro k
    obtain ⟨k, hk3⟩ := k
    interval_cases k <;> simp only [d0, d1, d2, b0, b1, b2, z0, z1, z2, add_zero]

/-- Claim C6: for every symmetric 3x3 matrix `A` on which `diagEsort` succeeds,
each returned pair satisfies `A * Evec[i] = Eigenvalue[i] * Evec[i]` exactly in
real arithmetic, `A` being the matrix as passed in. -/
theorem diagEsort_eigenpairs (A Emat : Nat → ℝ) (Evec : Nat → Nat) (Eigenvalue : Nat → ℝ)
    (h13 : A 1 = A 3) (h26 : A 2 = A 6) (h57 : A 5 = A 7)
    (hret : (diagEsort Real.sqrt A Emat Evec Eigenvalue).ret = 1) :
    ∀ i row : Fin 3,
      A (3 * row.val)
          * (diagEsort Real.sqrt A Emat Evec Eigenvalue).Emat
              ((diagEsort Real.sqrt A Emat Evec Eigenvalue).Evec i.val)
        + A (3 * row.val + 1)
          * (diagEsort Real.sqrt A Emat Evec Eigenvalue).Emat
              ((diagEsort Real.sqrt A Emat Evec Eigenvalue).Evec i.val + 1)
        + A (3 * row.val + 2)
          * (diagEsort Real.sqrt A Emat Evec Eigenvalue).Emat
              ((diagEsort Real.sqrt A Emat Evec Eigenvalue).Evec i.val + 2)
      = (diagEsort Real.sqrt A Emat Evec Eigenvalue).Eigenvalue i.val
          * (diagEsort Real.sqrt A Emat Evec Eigenvalue).Emat
              ((diagEsort Real.sqrt A Emat Evec Eigenvalue).Evec i.val + row.val) := by
  obtain ⟨i0, i1, i2, -, -, -, v0, v1, v2, p0, p1, p2, -, -, hE⟩ :=
    diagEsort_pairing Real.sqrt A Emat Evec Eigenvalue hret
  have hj : (jacobi3 Real.sqrt A Eigenvalue (fun _ => 0)).1 = 1 := by
    rw [← diagEsort_ret Real.sqrt A Emat Evec Eigenvalue]
    exact hret
  obtain ⟨⟨hI, -⟩, hsm⟩ := jacobiLoop_inv A 50 0 (jacobiInit A Eigenvalue (fun _ => 0))
    (jacobiInit_inv A Eigenvalue (fun _ => 0) h13 h26 h57) hj
  obtain ⟨a1, a2, a5⟩ := (offDiagSum_eq_zero _).mp hsm
  have key : ∀ c row : Fin 3,
      A (3 * row.val) * (diagEsort Real.sqrt A Emat Evec Eigenvalue).Emat (3 * c.val)
        + A (3 * row.val + 1)
          * (diagEsort Real.sqrt A Emat Evec Eigenvalue).Emat (3 * c.val + 1)
        + A (3 * row.val + 2)
          * (diagEsort Real.sqrt A Emat Evec Eigenvalue).Emat (3 * c.val + 2)
      = (jacobi3 Real.sqrt A Eigenvalue (fun _ => 0)).2.d c.val
          * (diagEsort Real.sqrt A Emat Evec Eigenvalue).Emat (3 * c.val + row.val) := by
    intro c row
    have e0 := hE c 0
    have e1 := hE c 1
    have e2 := hE c 2
    simp only [Fin.val_zero, Fin.val_one, Fin.val_two, Nat.mul_zero, Nat.mul_one,
      Nat.add_zero, Nat.zero_add] at e0 e1 e2
    rw [e0, e1, e2, hE c row]
    change EigInv A (jacobi3 Real.sqrt A Eigenvalue (fun _ => 0)).2.a
      (jacobi3 Real.sqrt A Eigenvalue (fun _ => 0)).2.d
      (jacobi3 Real.sqrt A Eigenvalue (fun _ => 0)).2.v at hI
    have hrow := hI row
    have a1j : (jacobi3 Real.sqrt A Eigenvalue (fun _ => 0)).2.a 1 = 0 := a1
    have a2j : (jacobi3 Real.sqrt A Eigenvalue (fun _ => 0)).2.a 2 = 0 := a2
    have a5j : (jacobi3 Real.sqrt A Eigenvalue (fun _ => 0)).2.a 5 = 0 := a5
    rw [a1j, a2j, a5j] at hrow
    obtain ⟨q0, q1, q2⟩ := hrow
    obtain ⟨c, hc⟩ := c
    interval_cases c <;>
      simp only [Nat.mul_zero, Nat.mul_one, Nat.zero_add, Nat.add_zero, Nat.reduceMul,
        Nat.reduceAdd]
    · linear_combination q0
    · linear_combination q1
    · linear_combination q2
  intro i row
  obtain ⟨i, hi⟩ := i
  interval_cases i
  · show _ = (diagEsort Real.sqrt A Emat Evec Eigenvalue).Eigenvalue 0 * _
    rw [v0]
    show A (3 * row.val) * (diagEsort Real.sqrt A Emat Evec Eigenvalue).Emat
        ((diagEsort Real.sqrt A Emat Evec Eigenvalue).Evec 0) + _ + _ = _
    rw [p0]
    exact key i0 row
  · show _ = (diagEsort Real.sqrt A Emat Evec Eigenvalue).Eigenvalue 1 * _
    rw [v1]
    show A (3 * row.val) * (diagEsort Real.sqrt A Emat Evec Eigenvalue).Emat
        ((diagEsort Real.sqrt A Emat Evec Eigenvalue).Evec 1) + _ + _ = _
    rw [p1]
    exact key i1 row
  · show _ = (diagEsort Real.sqrt A Emat Evec Eigenvalue).Eigenvalue 2 * _
    rw [v2]
    show A (3 * row.val) * (diagEsort Real.sqrt A Emat Evec Eigenvalue).Emat
        ((diagEsort Real.sqrt A Emat Evec Eigenvalue).Evec 2) + _ + _ = _
    rw [p2]
    exact key i2 row

theorem jacobiLoop_succ_zero (sqrtF : α → α) (n i : Nat) (st : JacobiState α)
    (h : offDiagSum st.a = 0) : jacobiLoop sqrtF (n + 1) i st = (1, st) := by
  unfold jacobiLoop
  rw [if_pos (h.trans lit_zero.symm)]

theorem jacobiLoop_succ_ne (sqrtF : α → α) (n i : Nat) (st : JacobiState α)
    (h : offDiagSum st.a ≠ 0) :
    jacobiLoop sqrtF (n + 1) i st = jacobiLoop sqrtF n (i + 1) (jacobiSweep sqrtF i st) := by
  have h2 : ¬ offDiagSum st.a = 0.0 := fun e => h (e.trans lit_zero)
  rw [jacobiLoop, if_neg h2]

theorem jacobiRotate_skip (sqrtF : α → α) (i : Nat) (tresh : α) (ip iq : Nat)
    (st : JacobiState α) (hi : i ≤ 3) (hs : |st.a (3 * ip + iq)| ≤ tresh) :
    jacobiRotate sqrtF i tresh ip iq st = st := by
  rw [jacobiRotate_eq]
  have h1 : ¬ (i > 3 ∧ |st.d ip| + 100.0 * |st.a (3 * ip + iq)| = |st.d ip| ∧
      |st.d iq| + 100.0 * |st.a (3 * ip + iq)| = |st.d iq|) := fun h => absurd h.1 (by omega)
  rw [if_neg h1, if_neg (not_lt.mpr hs)]

theorem jacobiRotate_fire (sqrtF : α → α) (i : Nat) (tresh : α) (ip iq : Nat)
    (st : JacobiState α) (hi : i ≤ 3) (hs : |st.a (3 * ip + iq)| > tresh) :
    jacobiRotate sqrtF i tresh ip iq st =
      jacobiApply sqrtF ip iq
        (jacobiT sqrtF (st.a (3 * ip + iq)) (st.d iq - st.d ip)
          (100.0 * |st.a (3 * ip + iq)|)) st := by
  rw [jacobiRotate_eq]
  have h1 : ¬ (i > 3 ∧ |st.d ip| + 100.0 * |st.a (3 * ip + iq)| = |st.d ip| ∧
      |st.d iq| + 100.0 * |st.a (3 * ip + iq)| = |st.d iq|) := fun h => absurd h.1 (by omega)
  rw [if_neg h1, if_pos hs]

theorem sweepEnd_a (st : JacobiState α) :
    ((List.range 3).foldl
        (fun (st : JacobiState α) ip =>
          let b := Function.update st.b ip (st.b ip + st.z ip)
          let d := Function.update st.d ip (b ip)
          let z := Function.update st.z ip 0.0
          JacobiState.mk st.a d st.v b z st.nrot)
        st).a = st.a := rfl

/-- A matrix whose only non-zero upper off-diagonal entry is `a[1]` is
diagonalised by the first rotation of the first sweep: `jacobi3` returns 1. -/
theorem jacobi3_one_rotation (sqrtF : α → α) (a d v : Nat → α)
    (h1 : a 1 ≠ 0) (h2 : a 2 = 0) (h5 : a 5 = 0) :
    (jacobi3 sqrtF a d v).1 = 1 := by
  have hpos : 0 < |a 1| := abs_pos.mpr h1
  have hsm : offDiagSum (jacobiInit a d v).a = |a 1| := by
    rw [jacobiInit_a, offDiagSum_eq, h2, h5]
    simp
  have hne : offDiagSum (jacobiInit a d v).a ≠ 0 := by
    rw [hsm]
    exact ne_of_gt hpos
  have htr : (if 0 < 3 then offDiagSum (jacobiInit a d v).a * 0.2 / 9.0 else (0.0 : α))
      = |a 1| * (1 / 5) / 9 := by
    rw [if_pos (by decide), hsm, lit_fifth, lit_nine]
  have ht0 : (0 : α) ≤ |a 1| * (1 / 5) / 9 := by positivity
  have hfire : |(jacobiInit a d v).a (3 * 0 + 1)| > |a 1| * (1 / 5) / 9 := by
    rw [jacobiInit_a]
    show |a 1| * (1 / 5) / 9 < |a 1|
    linarith
  unfold jacobi3
  rw [show (50 : Nat) = 48 + 1 + 1 from rfl, jacobiLoop_succ_ne sqrtF _ _ _ hne,
    jacobiLoop_succ_zero]
  rw [jacobiSweep_eq, sweepEnd_a, htr, jacobiRotate_fire sqrtF 0 _ 0 1 _ (by decide) hfire]
  generalize jacobiT sqrtF ((jacobiInit a d v).a (3 * 0 + 1))
    ((jacobiInit a d v).d 1 - (jacobiInit a d v).d 0)
    (100.0 * |(jacobiInit a d v).a (3 * 0 + 1)|) = t
  obtain ⟨ax, ay, az, -⟩ := jacobiApply_01_cells sqrtF t (jacobiInit a d v)
  have e2 : (jacobiInit a d v).a 2 = 0 := h2
  have e5 : (jacobiInit a d v).a 5 = 0 := h5
  rw [e2, e5] at ay az
  have ay0 := ay.trans (by ring : _ = (0 : α))
  have az0 := az.trans (by ring : _ = (0 : α))
  rw [jacobiRotate_skip sqrtF 0 _ 0 2 _ (by decide) (by
    show |_| ≤ _
    rw [ay0, abs_zero]
    exact ht0)]
  rw [jacobiRotate_skip sqrtF 0 _ 1 2 _ (by decide) (by
    show |_| ≤ _
    rw [az0, abs_zero]
    exact ht0)]
  exact (offDiagSum_eq_zero _).mpr ⟨ax, ay0, az0⟩

theorem coupled01_cells :
    (coupled01 0 : α) = 0 ∧ (coupled01 1 : α) = 12 ∧ (coupled01 2 : α) = 0 ∧
    (coupled01 3 : α) = 12 ∧ (coupled01 4 : α) = 7 ∧ (coupled01 5 : α) = 0 ∧
    (coupled01 6 : α) = 0 ∧ (coupled01 7 : α) = 0 ∧ (coupled01 8 : α) = 5 := by
  simp [coupled01]

theorem coupled01_diagEsort_ret (sqrtF : α → α) (Emat : Nat → α) (Evec : Nat → Nat)
    (Eigenvalue : Nat → α) :
    (diagEsort sqrtF coupled01 Emat Evec Eigenvalue).ret = 1 := by
  obtain ⟨q0, q1, q2, q3, q4, q5, q6, q7, q8⟩ := @coupled01_cells α _
  rw [diagEsort_ret]
  exact jacobi3_one_rotation sqrtF coupled01 _ _ (by rw [q1]; norm_num) q2 q5

theorem diagEsort_eigenpairs_witness :
    (coupled01 1 : ℝ) = coupled01 3 ∧ (coupled01 2 : ℝ) = coupled01 6 ∧
    (coupled01 5 : ℝ) = coupled01 7 ∧
    (diagEsort Real.sqrt coupled01 (fun _ => 0) (fun _ => 0) (fun _ => 0)).ret = 1 ∧
    ∀ i row : Fin 3,
      coupled01 (3 * row.val)
          * (diagEsort Real.sqrt coupled01 (fun _ => 0) (fun _ => 0) (fun _ => 0)).Emat
              ((diagEsort Real.sqrt coupled01 (fun _ => 0) (fun _ => 0) (fun _ => 0)).Evec
                i.val)
        + coupled01 (3 * row.val + 1)
          * (diagEsort Real.sqrt coupled01 (fun _ => 0) (fun _ => 0) (fun _ => 0)).Emat
              ((diagEsort Real.sqrt coupled01 (fun _ => 0) (fun _ => 0) (fun _ => 0)).Evec
                i.val + 1)
        + coupled01 (3 * row.val + 2)
          * (diagEsort Real.sqrt coupled01 (fun _ => 0) (fun _ => 0) (fun _ => 0)).Emat
              ((diagEsort Real.sqrt coupled01 (fun _ => 0) (fun _ => 0) (fun _ => 0)).Evec
                i.val + 2)
      = (diagEsort Real.sqrt coupled01 (fun _ => 0) (fun _ => 0) (fun _ => 0)).Eigenvalue
            i.val
          * (diagEsort Real.sqrt coupled01 (fun _ => 0) (fun _ => 0) (fun _ => 0)).Emat
              ((diagEsort Real.sqrt coupled01 (fun _ => 0) (fun _ => 0) (fun _ => 0)).Evec
                i.val + row.val) :=
  have hc := @coupled01_cells ℝ _
  ⟨hc.2.1.trans hc.2.2.2.1.symm, hc.2.2.1.trans hc.2.2.2.2.2.2.1.symm,
    hc.2.2.2.2.2.1.trans hc.2.2.2.2.2.2.2.1.symm,
    coupled01_diagEsort_ret Real.sqrt _ _ _,
    diagEsort_eigenpairs coupled01 (fun _ => 0) (fun _ => 0) (fun _ => 0)
      (hc.2.1.trans hc.2.2.2.1.symm) (hc.2.2.1.trans hc.2.2.2.2.2.2.1.symm)
      (hc.2.2.2.2.2.1.trans hc.2.2.2.2.2.2.2.1.symm)
      (coupled01_diagEsort_ret Real.sqrt _ _ _)⟩

theorem calcRotationMatrix_congr (cosF sinF : α → α) (T V W : Nat → α) (theta : α)
    (h0 : V 0 = W 0) (h1 : V 1 = W 1) (h2 : V 2 = W 2) :
    calcRotationMatrix cosF sinF T V theta = calcRotationMatrix cosF sinF T W theta := by
  unfold calcRotationMatrix
  rw [h0, h1, h2]

theorem sumsq_eq_zero (x y z : ℝ) : x * x + y * y + z * z = 0 ↔ x = 0 ∧ y = 0 ∧ z = 0 := by
  constructor
  · intro h
    have hx := mul_self_nonneg x
    have hy := mul_self_nonneg y
    have hz := mul_self_nonneg z
    refine ⟨mul_self_eq_zero.mp ?_, mul_self_eq_zero.mp ?_, mul_self_eq_zero.mp ?_⟩ <;> linarith
  · rintro ⟨rfl, rfl, rfl⟩
    ring

theorem sqrt_sumsq_eq_zero (x y z : ℝ) :
    Real.sqrt (x * x + y * y + z * z) = 0 ↔ x = 0 ∧ y = 0 ∧ z = 0 := by
  have h : 0 ≤ x * x + y * y + z * z := by
    have hx := mul_self_nonneg x
    have hy := mul_self_nonneg y
    have hz := mul_self_nonneg z
    linarith
  rw [Real.sqrt_eq_zero h]
  exact sumsq_eq_zero x y z

/-- Claim C11, as stated, fails: for the zero rotation vector the routine has
no guard and divides by `Psi = 0`. -/
theorem calcRotationMatrixPsi_zero_divides :
    calcRotationMatrixPsi Real.sqrt Real.cos Real.sin (fun _ => 0) 0 0 0 = none := by
  unfold calcRotationMatrixPsi checkedDiv
  simp

/-- Claim C11, amended: `calcRotationMatrix(T, psiX, psiY, psiZ)` divides by
`Psi = sqrt(psiX^2+psiY^2+psiZ^2)` without a guard; a division by zero occurs
exactly for the zero rotation vector, and for every non-zero vector the result
equals `calcRotationMatrix(T, V, Psi)` with `V = (psiX, psiY, psiZ)/Psi`. -/
theorem calcRotationMatrixPsi_spec (T : Nat → ℝ) (psiX psiY psiZ : ℝ) :
    (calcRotationMatrixPsi Real.sqrt Real.cos Real.sin T psiX psiY psiZ = none ↔
      (psiX = 0 ∧ psiY = 0 ∧ psiZ = 0)) ∧
    (¬ (psiX = 0 ∧ psiY = 0 ∧ psiZ = 0) →
      ∀ V : Nat → ℝ,
        V 0 = psiX / Real.sqrt (psiX * psiX + psiY * psiY + psiZ * psiZ) →
        V 1 = psiY / Real.sqrt (psiX * psiX + psiY * psiY + psiZ * psiZ) →
        V 2 = psiZ / Real.sqrt (psiX * psiX + psiY * psiY + psiZ * psiZ) →
        calcRotationMatrixPsi Real.sqrt Real.cos Real.sin T psiX psiY psiZ
          = some (calcRotationMatrix Real.cos Real.sin T V
              (Real.sqrt (psiX * psiX + psiY * psiY + psiZ * psiZ)))) := by
  by_cases hz : psiX = 0 ∧ psiY = 0 ∧ psiZ = 0
  · have hs := (sqrt_sumsq_eq_zero psiX psiY psiZ).mpr hz
    refine ⟨⟨fun _ => hz, fun _ => ?_⟩, fun h => absurd hz h⟩
    unfold calcRotationMatrixPsi checkedDiv
    simp [hs]
  · have hs : ¬ Real.sqrt (psiX * psiX + psiY * psiY + psiZ * psiZ) = 0 :=
      fun h => hz ((sqrt_sumsq_eq_zero psiX psiY psiZ).mp h)
    have key : ∀ V : Nat → ℝ,
        V 0 = psiX / Real.sqrt (psiX * psiX + psiY * psiY + psiZ * psiZ) →
        V 1 = psiY / Real.sqrt (psiX * psiX + psiY * psiY + psiZ * psiZ) →
        V 2 = psiZ / Real.sqrt (psiX * psiX + psiY * psiY + psiZ * psiZ) →
        calcRotationMatrixPsi Real.sqrt Real.cos Real.sin T psiX psiY psiZ
          = some (calcRotationMatrix Real.cos Real.sin T V
              (Real.sqrt (psiX * psiX + psiY * psiY + psiZ * psiZ))) := by
      intro V h0 h1 h2
      unfold calcRotationMatrixPsi checkedDiv
      simp only [if_neg hs, Option.some_bind]
      congr 1
      apply calcRotationMatrix_congr
      · simp [Function.update_apply, h0]
      · simp [Function.update_apply, h1]
      · simp [Function.update_apply, h2]
    refine ⟨⟨fun h => ?_, fun h => absurd h hz⟩, fun _ => key⟩
    rw [key (fun k => if k = 0 then psiX / Real.sqrt (psiX * psiX + psiY * psiY + psiZ * psiZ)
      else if k = 1 then psiY / Real.sqrt (psiX * psiX + psiY * psiY + psiZ * psiZ)
      else psiZ / Real.sqrt (psiX * psiX + psiY * psiY + psiZ * psiZ)) (by simp) (by simp)
      (by simp)] at h
    exact absurd h (by simp)

/-- Claim C12: for a 3-vector `a` of non-zero length `normalize(a)` leaves a
vector of unit length that is a positive multiple of the input, every component
being the input component divided by the length (real arithmetic). -/
theorem normalize_unit (a : Nat → ℝ) (h : a 0 * a 0 + a 1 * a 1 + a 2 * a 2 ≠ 0) :
    normalize Real.sqrt a 0 * normalize Real.sqrt a 0
      + normalize Real.sqrt a 1 * normalize Real.sqrt a 1
      + normalize Real.sqrt a 2 * normalize Real.sqrt a 2 = 1 ∧
    0 < 1 / Real.sqrt (a 0 * a 0 + a 1 * a 1 + a 2 * a 2) ∧
    (∀ i : Fin 3, normalize Real.sqrt a i.val
      = a i.val * (1 / Real.sqrt (a 0 * a 0 + a 1 * a 1 + a 2 * a 2))) ∧
    (∀ i : Fin 3, normalize Real.sqrt a i.val
      = a i.val / Real.sqrt (a 0 * a 0 + a 1 * a 1 + a 2 * a 2)) := by
  have hpos : 0 < a 0 * a 0 + a 1 * a 1 + a 2 * a 2 := by
    have h0 := mul_self_nonneg (a 0)
    have h1 := mul_self_nonneg (a 1)
    have h2 := mul_self_nonneg (a 2)
    exact lt_of_le_of_ne (by linarith) (Ne.symm h)
  have hr : Real.sqrt (a 0 * a 0 + a 1 * a 1 + a 2 * a 2)
      * Real.sqrt (a 0 * a 0 + a 1 * a 1 + a 2 * a 2)
      = a 0 * a 0 + a 1 * a 1 + a 2 * a 2 := Real.mul_self_sqrt hpos.le
  have hsp : 0 < Real.sqrt (a 0 * a 0 + a 1 * a 1 + a 2 * a 2) := Real.sqrt_pos.mpr hpos
  have c0 : normalize Real.sqrt a 0
      = a 0 * (1 / Real.sqrt (a 0 * a 0 + a 1 * a 1 + a 2 * a 2)) := by
    simp [normalize, Function.update_apply]
  have c1 : normalize Real.sqrt a 1
      = a 1 * (1 / Real.sqrt (a 0 * a 0 + a 1 * a 1 + a 2 * a 2)) := by
    simp [normalize, Function.update_apply]
  have c2 : normalize Real.sqrt a 2
      = a 2 * (1 / Real.sqrt (a 0 * a 0 + a 1 * a 1 + a 2 * a 2)) := by
    simp [normalize, Function.update_apply]
  have hall : ∀ i : Fin 3, normalize Real.sqrt a i.val
      = a i.val * (1 / Real.sqrt (a 0 * a 0 + a 1 * a 1 + a 2 * a 2)) := by
    intro i
    obtain ⟨i, hi⟩ := i
    interval_cases i
    · exact c0
    · exact c1
    · exact c2
  refine ⟨?_, by positivity, hall, fun i => by rw [hall i]; ring⟩
  rw [c0, c1, c2]
  generalize Real.sqrt (a 0 * a 0 + a 1 * a 1 + a 2 * a 2) = r at hr hsp
  have hne : r ≠ 0 := ne_of_gt hsp
  field_simp
  linear_combination (-1 : ℝ) * hr

theorem normalize_unit_witness :
    ((fun k => if k = 0 then (3 : ℝ) else if k = 1 then 4 else 0) 0
        * (fun k => if k = 0 then (3 : ℝ) else if k = 1 then 4 else 0) 0
      + (fun k => if k = 0 then (3 : ℝ) else if k = 1 then 4 else 0) 1
        * (fun k => if k = 0 then (3 : ℝ) else if k = 1 then 4 else 0) 1
      + (fun k => if k = 0 then (3 : ℝ) else if k = 1 then 4 else 0) 2
        * (fun k => if k = 0 then (3 : ℝ) else if k = 1 then 4 else 0) 2 ≠ 0) ∧
    normalize Real.sqrt (fun k => if k = 0 then (3 : ℝ) else if k = 1 then 4 else 0) 0
        * normalize Real.sqrt (fun k => if k = 0 then (3 : ℝ) else if k = 1 then 4 else 0) 0
      + normalize Real.sqrt (fun k => if k = 0 then (3 : ℝ) else if k = 1 then 4 else 0) 1
        * normalize Real.sqrt (fun k => if k = 0 then (3 : ℝ) else if k = 1 then 4 else 0) 1
      + normalize Real.sqrt (fun k => if k = 0 then (3 : ℝ) else if k = 1 then 4 else 0) 2
        * normalize Real.sqrt (fun k => if k = 0 then (3 : ℝ) else if k = 1 then 4 else 0) 2
      = 1 :=
  ⟨by norm_num,
    (normalize_unit (fun k => if k = 0 then (3 : ℝ) else if k = 1 then 4 else 0)
      (by norm_num)).1⟩

theorem addAtom_fold (Selected : Nat → Nat) (FX X : Nat → α) (N : Nat) :
    ((List.range N).foldl (Average.addAtom Selected FX) (X, 0)).2 = 3 * N ∧
    (∀ i, 3 * N ≤ i →
      ((List.range N).foldl (Average.addAtom Selected FX) (X, 0)).1 i = X i) ∧
    (∀ n c, n < N → c < 3 →
      ((List.range N).foldl (Average.addAtom Selected FX) (X, 0)).1 (3 * n + c)
        = X (3 * n + c) + FX (3 * Selected n + c)) := by
  induction N with
  | zero =>
    refine ⟨rfl, fun i _ => rfl, fun n c hn _ => absurd hn (Nat.not_lt_zero n)⟩
  | succ N ih =>
    obtain ⟨h2, hout, hin⟩ := ih
    rw [List.range_succ, List.foldl_append]
    generalize (List.range N).foldl (Average.addAtom Selected FX) (X, 0) = s at h2 hout hin
    obtain ⟨Y, i3⟩ := s
    simp only at h2 hout hin
    subst h2
    simp only [List.foldl, Average.addAtom]
    refine ⟨by omega, ?_, ?_⟩
    · intro i hi
      rw [Function.update_noteq (by omega), Function.update_noteq (by omega),
        Function.update_noteq (by omega)]
      exact hout i (by omega)
    · intro n c hn hc
      by_cases hnN : n < N
      · rw [Function.update_noteq (by omega), Function.update_noteq (by omega),
          Function.update_noteq (by omega)]
        exact hin n c hnN hc
      · have hnN2 : n = N := by omega
        subst hnN2
        have e : ∀ (f : Nat → α) (a b : Nat) (x : α), a = b → Function.update f b x a = x := by
          intro f a b x hab
          subst hab
          exact Function.update_same _ _ _
        have ha : ∀ a b : Nat, a = b → FX a = FX b := fun a b hab => by rw [hab]
        interval_cases c
        · rw [Function.update_noteq (by omega), Function.update_noteq (by omega),
            e _ _ _ _ (by omega), hout _ (by omega),
            ha (Selected n * 3) (3 * Selected n + 0) (by omega)]
          rfl
        · rw [Function.update_noteq (by omega), e _ _ _ _ (by omega),
            Function.update_noteq (by omega), hout _ (by omega),
            ha (Selected n * 3 + 1) (3 * Selected n + 1) (by omega)]
        · rw [e _ _ _ _ (by omega),
            Function.update_noteq (by omega), Function.update_noteq (by omega),
            hout _ (by omega),
            ha (Selected n * 3 + 2) (3 * Selected n + 2) (by omega)]

/-- The effect of an accumulating call of `Average::action` (a call with
`currentFrame == targetFrame`) on an object whose accumulator frame is `fr`. -/
theorem action_hit (st : Average α) (fr F : Frame α) (hfr : st.AvgFrame = some fr) :
    (st.action st.targetFrame F).1 = 0 ∧
    (st.action st.targetFrame F).2.Nframes = st.Nframes + 1 ∧
    (st.action st.targetFrame F).2.Natom = st.Natom ∧
    (st.action st.targetFrame F).2.Mask1 = st.Mask1 ∧
    ∃ fr2 : Frame α, (st.action st.targetFrame F).2.AvgFrame = some fr2 ∧
      fr2.natom = fr.natom ∧
      (∀ n c : Nat, (n : Int) < st.Natom → c < 3 →
        fr2.X (3 * n + c) = fr.X (3 * n + c) + F.X (3 * st.Mask1.Selected n + c)) ∧
      (∀ i : Nat, 3 * st.Natom ≤ (i : Int) → fr2.X i = fr.X i) := by
  have hn : ¬ st.targetFrame ≠ st.targetFrame := fun h => h rfl
  obtain ⟨-, hout, hin⟩ := addAtom_fold st.Mask1.Selected F.X fr.X st.Natom.toNat
  unfold Average.action
  rw [if_neg hn]
  refine ⟨rfl, rfl, rfl, rfl,
    Frame.mk fr.natom
      ((List.range st.Natom.toNat).foldl (Average.addAtom st.Mask1.Selected F.X) (fr.X, 0)).1,
    ?_, rfl, ?_, ?_⟩
  · show Option.map _ st.AvgFrame = _
    rw [hfr]
    rfl
  · intro n c hlt hc
    exact hin n c (by omega) hc
  · intro i hi
    exact hout i (by omega)

theorem action_miss (st : Average α) (F : Frame α) (currentFrame : Int)
    (hne : currentFrame ≠ st.targetFrame) : st.action currentFrame F = (0, st) := by
  unfold Average.action
  rw [if_pos hne]

/-- Claim C15: a call of `Average::action` with `currentFrame == targetFrame`
adds, for every `n < Natom` and axis `c`, the coordinate
`F->X[3*Mask1.Selected[n]+c]` to `AvgFrame->X[3n+c]`, leaves the other cells of
`AvgFrame->X` as they were and increments `Nframes` by 1; a call with
`currentFrame != targetFrame` changes nothing. -/
theorem action_accumulates (st : Average α) (fr F : Frame α) (currentFrame : Int)
    (hfr : st.AvgFrame = some fr) :
    (currentFrame ≠ st.targetFrame → st.action currentFrame F = (0, st)) ∧
    (currentFrame = st.targetFrame →
      (st.action currentFrame F).1 = 0 ∧
      (st.action currentFrame F).2.Nframes = st.Nframes + 1 ∧
      (st.action currentFrame F).2.Natom = st.Natom ∧
      (st.action currentFrame F).2.Mask1 = st.Mask1 ∧
      ∃ fr2 : Frame α, (st.action currentFrame F).2.AvgFrame = some fr2 ∧
        fr2.natom = fr.natom ∧
        (∀ n c : Nat, (n : Int) < st.Natom → c < 3 →
          fr2.X (3 * n + c) = fr.X (3 * n + c) + F.X (3 * st.Mask1.Selected n + c)) ∧
        (∀ i : Nat, 3 * st.Natom ≤ (i : Int) → fr2.X i = fr.X i)) := by
  constructor
  · exact action_miss st F currentFrame
  · intro heq
    rw [heq]
    exact action_hit st fr F hfr

theorem action_accumulates_witness :
    (Average.mk (some (Frame.mk 1 (fun _ => (0 : ℚ)))) 1 0 0 (-1) 1 0 none false
        (AtomMask.mk (fun _ => 0) 1)).AvgFrame = some (Frame.mk 1 (fun _ => (0 : ℚ))) ∧
    ((Average.mk (some (Frame.mk 1 (fun _ => (0 : ℚ)))) 1 0 0 (-1) 1 0 none false
        (AtomMask.mk (fun _ => 0) 1)).action 0 (Frame.mk 1 (fun _ => (5 : ℚ)))).2.Nframes
      = 0 + 1 :=
  ⟨rfl,
    ((action_accumulates
      (Average.mk (some (Frame.mk 1 (fun _ => (0 : ℚ)))) 1 0 0 (-1) 1 0 none false
        (AtomMask.mk (fun _ => 0) 1))
      (Frame.mk 1 (fun _ => (0 : ℚ))) (Frame.mk 1 (fun _ => (5 : ℚ))) 0 rfl).2 rfl).2.1⟩

/-- Claim C14: `Average::print` returns before the call of `Divide` and before
any output when `Nframes < 1`, leaving the object as it was; whenever `Divide`
is called its divisor is `Nframes`, which is then at least 1. -/
theorem print_guards_division (st : Average α) (setupWriteFails : Bool) :
    (st.Nframes < 1 →
      (st.print setupWriteFails).divisor = none ∧
      (st.print setupWriteFails).written = none ∧
      (st.print setupWriteFails).state = st) ∧
    (∀ d : α, (st.print setupWriteFails).divisor = some d →
      d = (st.Nframes : α) ∧ 1 ≤ st.Nframes ∧ d ≠ 0) := by
  unfold Average.print
  by_cases h : st.Nframes < 1
  · rw [if_pos h]
    refine ⟨fun _ => ⟨rfl, rfl, rfl⟩, fun d hd => ?_⟩
    exact absurd hd (by simp)
  · rw [if_neg h]
    refine ⟨fun h1 => absurd h1 h, fun d hd => ?_⟩
    have h1 : 1 ≤ st.Nframes := not_lt.mp h
    have hd2 : (st.Nframes : α) = d := by
      cases setupWriteFails
      · simpa using hd
      · simpa using hd
    refine ⟨hd2.symm, h1, ?_⟩
    rw [← hd2]
    have : (0 : α) < (st.Nframes : α) := by
      exact_mod_cast (show (0 : Int) < st.Nframes by omega)
    exact ne_of_gt this

/-- Claim C16: when the mask selects no atoms `Average::setup` returns 1 and
leaves `AvgFrame`, `Natom`, `AvgParm`, `parmStripped` and `Nframes` as they
were. -/
theorem setup_rejects_empty_mask (st : Average α) (setupMaskRet : Int) (mask : AtomMask)
    (P : Parm) (strip : Parm → AtomMask → Parm) (h : mask.None = true) :
    (st.setup setupMaskRet mask P strip).1 = 1 ∧
    (st.setup setupMaskRet mask P strip).2.AvgFrame = st.AvgFrame ∧
    (st.setup setupMaskRet mask P strip).2.Natom = st.Natom ∧
    (st.setup setupMaskRet mask P strip).2.AvgParm = st.AvgParm ∧
    (st.setup setupMaskRet mask P strip).2.parmStripped = st.parmStripped ∧
    (st.setup setupMaskRet mask P strip).2.Nframes = st.Nframes := by
  unfold Average.setup
  by_cases hr : setupMaskRet ≠ 0
  · simp only [if_pos hr, and_self]
  · simp only [if_neg hr, h, if_true, and_self]

theorem setup_rejects_empty_mask_witness :
    (AtomMask.mk (fun _ => 0) 0).None = true ∧
    ((Average.mk none 0 0 0 0 1 0 none false (AtomMask.mk (fun _ => 0) 0) : Average ℚ).setup 0
        (AtomMask.mk (fun _ => 0) 0) (Parm.mk 5 0) (fun p _ => p)).1 = 1 :=
  ⟨rfl,
    (setup_rejects_empty_mask
      (Average.mk none 0 0 0 0 1 0 none false (AtomMask.mk (fun _ => 0) 0) : Average ℚ) 0
      (AtomMask.mk (fun _ => 0) 0) (Parm.mk 5 0) (fun p _ => p) rfl).1⟩

theorem setup_ok_shape (st : Average α) (setupMaskRet : Int) (mask : AtomMask)
    (P : Parm) (strip : Parm → AtomMask → Parm)
    (h : (st.setup setupMaskRet mask P strip).1 = 0) :
    (st.setup setupMaskRet mask P strip).2.Mask1 = mask ∧
    ∃ fr2 : Frame α, (st.setup setupMaskRet mask P strip).2.AvgFrame = some fr2 ∧
      (st.setup setupMaskRet mask P strip).2.Natom = min mask.Nselected fr2.natom := by
  unfold Average.setup at h ⊢
  by_cases hr : setupMaskRet ≠ 0
  · rw [if_pos hr] at h
    exact absurd h Int.one_ne_zero
  · by_cases hnone : mask.None = true
    · simp only [if_neg hr, hnone, if_true] at h
      exact absurd h (by decide)
    · simp only [if_neg hr, hnone] at h ⊢
      cases hfr : st.AvgFrame with
      | none =>
        simp only [hfr] at h ⊢
        by_cases hlt : mask.Nselected < P.natom
        · simp only [hlt, if_true]
          exact ⟨rfl, _, rfl, (min_self _).symm⟩
        · simp only [hlt, if_false]
          exact ⟨rfl, _, rfl, (min_self _).symm⟩
      | some fr =>
        simp only [hfr] at h ⊢
        refine ⟨rfl, fr, rfl, ?_⟩
        show (if mask.Nselected > fr.natom then fr.natom
          else if mask.Nselected < fr.natom then mask.Nselected else fr.natom) = _
        split_ifs with h1 h2
        · exact (min_eq_right (le_of_lt h1)).symm
        · exact (min_eq_left (le_of_lt h2)).symm
        · exact (min_eq_right (not_lt.mp h2)).symm

/-- Claim C17: after every `Average::setup` that returns 0,
`Natom = min(Mask1.Nselected, AvgFrame->natom)`; hence every index `3n+c`
that `Average::action` writes in `AvgFrame->X` is below `3*AvgFrame->natom`
(the cells from `3*AvgFrame->natom` on are not changed by `action`) and every
`n` that indexes `Mask1.Selected` is below `Mask1.Nselected`. -/
theorem setup_bounds_natom (st : Average α) (setupMaskRet : Int) (mask : AtomMask)
    (P : Parm) (strip : Parm → AtomMask → Parm)
    (h : (st.setup setupMaskRet mask P strip).1 = 0) :
    (st.setup setupMaskRet mask P strip).2.Mask1 = mask ∧
    ∃ fr2 : Frame α, (st.setup setupMaskRet mask P strip).2.AvgFrame = some fr2 ∧
      (st.setup setupMaskRet mask P strip).2.Natom = min mask.Nselected fr2.natom ∧
      (∀ n c : Nat, (n : Int) < (st.setup setupMaskRet mask P strip).2.Natom → c < 3 →
        ((3 * n + c : Nat) : Int) < 3 * fr2.natom ∧ (n : Int) < mask.Nselected) ∧
      ∀ (currentFrame : Int) (F : Frame α), ∃ fr3 : Frame α,
        ((st.setup setupMaskRet mask P strip).2.action currentFrame F).2.AvgFrame = some fr3 ∧
        ∀ i : Nat, 3 * fr2.natom ≤ (i : Int) → fr3.X i = fr2.X i := by
  obtain ⟨hm, fr2, hfr, hN⟩ := setup_ok_shape st setupMaskRet mask P strip h
  refine ⟨hm, fr2, hfr, hN, ?_, ?_⟩
  · intro n c hn hc
    rw [hN] at hn
    have h1 := lt_of_lt_of_le hn (min_le_left _ _)
    have h2 := lt_of_lt_of_le hn (min_le_right _ _)
    refine ⟨?_, h1⟩
    push_cast
    omega
  · intro currentFrame F
    by_cases hc : currentFrame = (st.setup setupMaskRet mask P strip).2.targetFrame
    · obtain ⟨-, -, -, -, fr3, h3, -, -, hout⟩ :=
        action_hit (st.setup setupMaskRet mask P strip).2 fr2 F hfr
      rw [hc]
      refine ⟨fr3, h3, fun i hi => hout i ?_⟩
      rw [hN]
      have := min_le_right mask.Nselected fr2.natom
      omega
    · rw [action_miss _ F currentFrame hc]
      exact ⟨fr2, hfr, fun _ _ => rfl⟩

theorem setup_bounds_natom_witness :
    ((Average.mk none 0 0 0 0 1 0 none false (AtomMask.mk (fun _ => 0) 0) : Average ℚ).setup 0
        (AtomMask.mk (fun n => n) 2) (Parm.mk 5 0) (fun p _ => p)).1 = 0 ∧
    ((Average.mk none 0 0 0 0 1 0 none false (AtomMask.mk (fun _ => 0) 0) : Average ℚ).setup 0
        (AtomMask.mk (fun n => n) 2) (Parm.mk 5 0) (fun p _ => p)).2.Mask1
      = AtomMask.mk (fun n => n) 2 :=
  ⟨rfl,
    (setup_bounds_natom
      (Average.mk none 0 0 0 0 1 0 none false (AtomMask.mk (fun _ => 0) 0) : Average ℚ) 0
      (AtomMask.mk (fun n => n) 2) (Parm.mk 5 0) (fun p _ => p) rfl).1⟩

theorem accumulate_spec (Fs : List (Frame α)) :
    ∀ (st : Average α) (fr : Frame α), st.AvgFrame = some fr →
      (st.accumulate Fs).Nframes = st.Nframes + Fs.length ∧
      (st.accumulate Fs).Natom = st.Natom ∧
      (st.accumulate Fs).Mask1 = st.Mask1 ∧
      ∃ fr2 : Frame α, (st.accumulate Fs).AvgFrame = some fr2 ∧
        fr2.natom = fr.natom ∧
        ∀ n c : Nat, (n : Int) < st.Natom → c < 3 →
          fr2.X (3 * n + c)
            = fr.X (3 * n + c) + (Fs.map fun F => F.X (3 * st.Mask1.Selected n + c)).sum := by
  induction Fs with
  | nil =>
    intro st fr hfr
    refine ⟨by simp [Average.accumulate], rfl, rfl, fr, hfr, rfl, fun n c _ _ => by simp⟩
  | cons F Fs ih =>
    intro st fr hfr
    obtain ⟨-, hNf, hNa, hM, fr1, hfr1, hnat1, hin1, -⟩ := action_hit st fr F hfr
    obtain ⟨iNf, iNa, iM, fr2, hfr2, hnat2, hin2⟩ := ih (st.action st.targetFrame F).2 fr1 hfr1
    have hacc : st.accumulate (F :: Fs) = (st.action st.targetFrame F).2.accumulate Fs := rfl
    rw [hacc]
    refine ⟨?_, iNa.trans hNa, iM.trans hM, fr2, hfr2, hnat2.trans hnat1, ?_⟩
    · rw [iNf, hNf]
      simp only [List.length_cons]
      push_cast
      ring
    · intro n c hn hc
      rw [hin2 n c (by rw [hNa]; exact hn) hc, hin1 n c hn hc, hM]
      simp only [List.map_cons, List.sum_cons]
      ring

/-- Claim C13: starting from an accumulator that is zero on the averaged
atoms with `Nframes = 0`, after `Average::action` has accumulated the `k >= 1`
frames `Fs` and `Average::print` has divided by `Nframes`, every averaged
coordinate is the sum over the frames of the selected coordinate divided by
`k`. -/
theorem average_is_mean (st : Average α) (fr : Frame α) (Fs : List (Frame α))
    (setupWriteFails : Bool)
    (hfr : st.AvgFrame = some fr)
    (hzero : ∀ n c : Nat, (n : Int) < st.Natom → c < 3 → fr.X (3 * n + c) = 0)
    (hN : st.Nframes = 0) (hle : st.Natom ≤ fr.natom) (hk : 1 ≤ Fs.length) :
    ((st.accumulate Fs).print setupWriteFails).divisor = some (Fs.length : α) ∧
    ∃ fr3 : Frame α,
      ((st.accumulate Fs).print setupWriteFails).state.AvgFrame = some fr3 ∧
      ∀ n c : Nat, (n : Int) < st.Natom → c < 3 →
        fr3.X (3 * n + c)
          = (Fs.map fun F => F.X (3 * st.Mask1.Selected n + c)).sum / (Fs.length : α) := by
  obtain ⟨hNf, -, -, fr2, hfr2, hnat2, hin2⟩ := accumulate_spec Fs st fr hfr
  have hNf2 : (st.accumulate Fs).Nframes = (Fs.length : Int) := by
    rw [hNf, hN]
    simp
  have hge : ¬ (st.accumulate Fs).Nframes < 1 := by
    rw [hNf2]
    omega
  have hcast : (((st.accumulate Fs).Nframes : Int) : α) = (Fs.length : α) := by
    rw [hNf2]
    simp
  unfold Average.print
  rw [if_neg hge]
  have hdiv : ∀ b : Bool,
      (if b = true then
        PrintResult.mk
          (Average.mk
            ((st.accumulate Fs).AvgFrame.map fun fr =>
              fr.Divide (((st.accumulate Fs).Nframes : Int) : α))
            (st.accumulate Fs).Natom (st.accumulate Fs).Nframes (st.accumulate Fs).start
            (st.accumulate Fs).stop (st.accumulate Fs).offset (st.accumulate Fs).targetFrame
            (st.accumulate Fs).AvgParm (st.accumulate Fs).parmStripped (st.accumulate Fs).Mask1)
          (some (((st.accumulate Fs).Nframes : Int) : α)) none
      else
        PrintResult.mk
          (Average.mk
            ((st.accumulate Fs).AvgFrame.map fun fr =>
              fr.Divide (((st.accumulate Fs).Nframes : Int) : α))
            (st.accumulate Fs).Natom (st.accumulate Fs).Nframes (st.accumulate Fs).start
            (st.accumulate Fs).stop (st.accumulate Fs).offset (st.accumulate Fs).targetFrame
            (st.accumulate Fs).AvgParm (st.accumulate Fs).parmStripped (st.accumulate Fs).Mask1)
          (some (((st.accumulate Fs).Nframes : Int) : α))
          (((st.accumulate Fs).AvgFrame.map fun fr =>
              fr.Divide (((st.accumulate Fs).Nframes : Int) : α)).map fun fr => fr.X)).divisor
        = some (Fs.length : α) := by
    intro b
    cases b <;> simp [hcast]
  refine ⟨hdiv setupWriteFails, fr2.Divide (Fs.length : α), ?_, ?_⟩
  · cases setupWriteFails <;> simp [hfr2, hcast]
  · intro n c hn hc
    have hlt : ((3 * n + c : Nat) : Int) < 3 * fr2.natom := by
      rw [hnat2]
      push_cast
      omega
    show (if ((3 * n + c : Nat) : Int) < 3 * fr2.natom then fr2.X (3 * n + c) / (Fs.length : α)
      else fr2.X (3 * n + c)) = _
    rw [if_pos hlt, hin2 n c hn hc, hzero n c hn hc, zero_add]

theorem average_is_mean_witness :
    ∃ fr3 : Frame ℚ,
      (((Average.mk (some (Frame.mk 1 (fun _ => (0 : ℚ)))) 1 0 0 (-1) 1 0 none false
          (AtomMask.mk (fun _ => 0) 1)).accumulate
        [Frame.mk 1 (fun _ => 1), Frame.mk 1 (fun _ => 2), Frame.mk 1 (fun _ => 3)]).print
          false).state.AvgFrame = some fr3 ∧
      fr3.X 0 = 2 := by
  obtain ⟨-, fr3, h3, hX⟩ := average_is_mean
    (Average.mk (some (Frame.mk 1 (fun _ => (0 : ℚ)))) 1 0 0 (-1) 1 0 none false
      (AtomMask.mk (fun _ => 0) 1))
    (Frame.mk 1 (fun _ => (0 : ℚ)))
    [Frame.mk 1 (fun _ => 1), Frame.mk 1 (fun _ => 2), Frame.mk 1 (fun _ => 3)]
    false rfl (fun _ _ _ _ => rfl) rfl (le_refl _) (by decide)
  refine ⟨fr3, h3, ?_⟩
  have h := hX 0 0 (by decide) (by decide)
  rw [h]
  norm_num

theorem space_ne_NUL : (' ' : Char) ≠ NUL := by decide

theorem PadWithSpaces_cells (name : Nat → Char) :
    PadWithSpaces name 4 = NUL ∧
    (∀ i : Nat, i < 4 → PadWithSpaces name i ≠ NUL) ∧
    (∀ i : Nat, i < 4 → (∀ j : Nat, j ≤ i → name j ≠ NUL) → PadWithSpaces name i = name i) ∧
    (∀ i : Nat, i < 4 → name i = NUL → PadWithSpaces name i = ' ') ∧
    (∀ i : Nat, 5 ≤ i → PadWithSpaces name i = name i) := by
  have hs := space_ne_NUL
  refine ⟨?_, ?_, ?_, ?_, ?_⟩
  · simp [PadWithSpaces]
  · intro i hi
    unfold PadWithSpaces
    by_cases h0 : name 0 = NUL <;> by_cases h1 : name 1 = NUL <;>
      by_cases h2 : name 2 = NUL <;> by_cases h3 : name 3 = NUL <;>
      interval_cases i <;> simp [Function.update_apply, h0, h1, h2, h3, hs]
  · intro i hi hall
    have a0 := hall 0 (Nat.zero_le _)
    unfold PadWithSpaces
    interval_cases i
    · simp [Function.update_apply, a0]
      split_ifs <;> rfl
    · have a1 := hall 1 (le_refl _)
      simp [Function.update_apply, a0, a1]
      split_ifs <;> rfl
    · have a1 := hall 1 (by decide)
      have a2 := hall 2 (le_refl _)
      simp [Function.update_apply, a0, a1, a2]
      split_ifs <;> rfl
    · have a1 := hall 1 (by decide)
      have a2 := hall 2 (by decide)
      have a3 := hall 3 (le_refl _)
      simp [Function.update_apply, a0, a1, a2, a3]
  · intro i hi hN
    unfold PadWithSpaces
    by_cases h0 : name 0 = NUL <;> by_cases h1 : name 1 = NUL <;>
      by_cases h2 : name 2 = NUL <;> by_cases h3 : name 3 = NUL <;>
      interval_cases i <;> simp_all [Function.update_apply]
  · intro i hi
    unfold PadWithSpaces
    have e4 : i ≠ 4 := by omega
    have e3 : i ≠ 3 := by omega
    have e2 : i ≠ 2 := by omega
    have e1 : i ≠ 1 := by omega
    have e0 : i ≠ 0 := by omega
    split_ifs <;> simp [Function.update_apply, e0, e1, e2, e3, e4]

/-- Claim C18: after `PadWithSpaces(name)` the cell `name[4]` is NUL and none
of `name[0..3]` is; every character before the first NUL among the first four
is unchanged, and every NUL among the first four has become a space. -/
theorem PadWithSpaces_spec (name : Nat → Char) :
    PadWithSpaces name 4 = NUL ∧
    (∀ i : Fin 4, PadWithSpaces name i.val ≠ NUL) ∧
    (∀ i : Fin 4, (∀ j : Nat, j ≤ i.val → name j ≠ NUL) →
      PadWithSpaces name i.val = name i.val) ∧
    (∀ i : Fin 4, name i.val = NUL → PadWithSpaces name i.val = ' ') ∧
    (∀ i : Nat, 5 ≤ i → PadWithSpaces name i = name i) := by
  obtain ⟨h4, hne, hkeep, hpad, hrest⟩ := PadWithSpaces_cells name
  exact ⟨h4, fun i => hne i.val i.isLt, fun i => hkeep i.val i.isLt,
    fun i => hpad i.val i.isLt, hrest⟩

theorem TrimName_fixed (name : Nat → Char) (h : name 0 ≠ ' ') : TrimName name = name := by
  unfold TrimName
  rw [if_pos h]

theorem TrimName_blank (name : Nat → Char) (h0 : name 0 = ' ') (h1 : name 1 = ' ')
    (h2 : name 2 = ' ') (h3 : name 3 = ' ') : TrimName name = name := by
  unfold TrimName
  simp [h0, h1, h2, h3]

theorem TrimName_idem (name : Nat → Char) : TrimName (TrimName name) = TrimName name := by
  by_cases h0 : name 0 = ' '
  · by_cases h1 : name 1 = ' '
    · by_cases h2 : name 2 = ' '
      · by_cases h3 : name 3 = ' '
        · rw [TrimName_blank name h0 h1 h2 h3, TrimName_blank name h0 h1 h2 h3]
        · apply TrimName_fixed
          simp [TrimName, h0, h1, h2, h3, Function.update_apply]
      · apply TrimName_fixed
        simp [TrimName, h0, h1, h2, Function.update_apply]
    · apply TrimName_fixed
      simp [TrimName, h0, h1, Function.update_apply]
  · rw [TrimName_fixed name h0, TrimName_fixed name h0]

/-- Claim C19: for a name with `k` leading spaces among its first four
characters, `TrimName` leaves the original characters `k..3` in places
`0..3-k` and spaces in places `4-k..3`; the first character of the result is a
space only if all four were, a name with no leading space is unchanged, and
`TrimName` is idempotent. -/
theorem TrimName_spec (name : Nat → Char) (k : Nat) (hk : k ≤ 4)
    (hsp : ∀ i : Nat, i < k → name i = ' ') (hns : k < 4 → name k ≠ ' ') :
    (∀ i : Nat, i + k < 4 → TrimName name i = name (i + k)) ∧
    (∀ i : Nat, 4 ≤ i + k → i < 4 → TrimName name i = ' ') ∧
    (∀ i : Nat, 4 ≤ i → TrimName name i = name i) ∧
    (TrimName name 0 = ' ' → ∀ i : Nat, i < 4 → name i = ' ') ∧
    (k = 0 → TrimName name = name) ∧
    TrimName (TrimName name) = TrimName name := by
  have hrest : ∀ i : Nat, 4 ≤ i → TrimName name i = name i := by
    intro i hi
    have e3 : i ≠ 3 := by omega
    have e2 : i ≠ 2 := by omega
    have e1 : i ≠ 1 := by omega
    have e0 : i ≠ 0 := by omega
    unfold TrimName
    split_ifs <;> simp [Function.update_apply, e0, e1, e2, e3]
  refine ⟨?_, ?_, hrest, ?_, ?_, TrimName_idem name⟩
  · intro i hi
    interval_cases k
    · rw [TrimName_fixed name (hns (by decide))]
      rfl
    · have s0 := hsp 0 (by decide)
      have n1 := hns (by decide)
      have hb : i < 4 := by omega
      interval_cases i <;> first | (exfalso; omega) | simp [TrimName, s0, n1, Function.update_apply]
    · have s0 := hsp 0 (by decide)
      have s1 := hsp 1 (by decide)
      have n2 := hns (by decide)
      have hb : i < 4 := by omega
      interval_cases i <;> first | (exfalso; omega) | simp [TrimName, s0, s1, n2, Function.update_apply]
    · have s0 := hsp 0 (by decide)
      have s1 := hsp 1 (by decide)
      have s2 := hsp 2 (by decide)
      have n3 := hns (by decide)
      have hb : i < 4 := by omega
      interval_cases i <;> first | (exfalso; omega) | simp [TrimName, s0, s1, s2, n3, Function.update_apply]
    · omega
  · intro i hi hi4
    interval_cases k
    · omega
    · have s0 := hsp 0 (by decide)
      have n1 := hns (by decide)
      interval_cases i <;> first | (exfalso; omega) | simp [TrimName, s0, n1, Function.update_apply]
    · have s0 := hsp 0 (by decide)
      have s1 := hsp 1 (by decide)
      have n2 := hns (by decide)
      interval_cases i <;> first | (exfalso; omega) | simp [TrimName, s0, s1, n2, Function.update_apply]
    · have s0 := hsp 0 (by decide)
      have s1 := hsp 1 (by decide)
      have s2 := hsp 2 (by decide)
      have n3 := hns (by decide)
      interval_cases i <;> first | (exfalso; omega) | simp [TrimName, s0, s1, s2, n3, Function.update_apply]
    · have s0 := hsp 0 (by decide)
      have s1 := hsp 1 (by decide)
      have s2 := hsp 2 (by decide)
      have s3 := hsp 3 (by decide)
      rw [TrimName_blank name s0 s1 s2 s3]
      interval_cases i
      · exact s0
      · exact s1
      · exact s2
      · exact s3
  · intro ht i hi
    interval_cases k
    · rw [TrimName_fixed name (hns (by decide))] at ht
      exact absurd ht (hns (by decide))
    · have s0 := hsp 0 (by decide)
      have n1 := hns (by decide)
      simp [TrimName, s0, n1, Function.update_apply] at ht
    · have s0 := hsp 0 (by decide)
      have s1 := hsp 1 (by decide)
      have n2 := hns (by decide)
      simp [TrimName, s0, s1, n2, Function.update_apply] at ht
    · have s0 := hsp 0 (by decide)
      have s1 := hsp 1 (by decide)
      have s2 := hsp 2 (by decide)
      have n3 := hns (by decide)
      simp [TrimName, s0, s1, s2, n3, Function.update_apply] at ht
    · exact hsp i hi
  · intro hk0
    subst hk0
    exact TrimName_fixed name (hns (by decide))

theorem TrimName_spec_witness :
    (2 ≤ 4) ∧ (∀ i : Nat, i < 2 → nameOf "  CA" i = ' ') ∧
    ((2 < 4) → nameOf "  CA" 2 ≠ ' ') ∧
    TrimName (nameOf "  CA") 0 = nameOf "  CA" (0 + 2) :=
  have hsp : ∀ i : Nat, i < 2 → nameOf "  CA" i = ' ' := by
    intro i hi
    interval_cases i <;> decide
  ⟨by decide, hsp, fun _ => by decide,
    (TrimName_spec (nameOf "  CA") 2 (by decide) hsp (fun _ => by decide)).1 0 (by decide)⟩

theorem rotName_zero (name : Nat → Char) (m : Nat) : rotName name m 0 = name := by
  funext i
  unfold rotName
  by_cases h : i < m
  · rw [if_pos h, Nat.add_zero, Nat.mod_eq_of_lt h]
  · rw [if_neg h]

theorem wrapShift_rot (name : Nat → Char) (m j : Nat) (hm2 : 2 ≤ m) (hm4 : m ≤ 4) :
    wrapShift (rotName name m j) m = rotName name m (j + 1) := by
  have hc : ∀ a b : Nat, a = b → name a = name b := fun a b hab => by rw [hab]
  funext i
  interval_cases m <;> rcases i with _ | _ | _ | _ | i <;>
    simp [wrapShift, rotName, List.range', Function.update_apply] <;>
    (apply hc; omega)

theorem wrapLoop_rot (name : Nat → Char) (m d : Nat) (hdm : d < m)
    (hm2 : 2 ≤ m) (hm4 : m ≤ 4)
    (hdig : ∀ i : Nat, i < d → (name i).isDigit = true) (hnd : (name d).isDigit = false) :
    ∀ (r j fuel : Nat), j + r = d → r < fuel →
      wrapLoop fuel (rotName name m j) m = some (rotName name m d) := by
  intro r
  induction r with
  | zero =>
    intro j fuel hj hf
    obtain ⟨f, rfl⟩ : ∃ f, fuel = f + 1 := ⟨fuel - 1, by omega⟩
    have hjd : j = d := by omega
    subst hjd
    have h0 : (rotName name m j 0).isDigit = false := by
      unfold rotName
      rw [if_pos (by omega), Nat.zero_add, Nat.mod_eq_of_lt hdm]
      exact hnd
    unfold wrapLoop
    simp [h0]
  | succ r ih =>
    intro j fuel hj hf
    obtain ⟨f, rfl⟩ : ∃ f, fuel = f + 1 := ⟨fuel - 1, by omega⟩
    have hjd : j < d := by omega
    have h0 : (rotName name m j 0).isDigit = true := by
      unfold rotName
      rw [if_pos (by omega), Nat.zero_add, Nat.mod_eq_of_lt (by omega)]
      exact hdig j hjd
    unfold wrapLoop
    rw [if_pos h0, wrapShift_rot name m j hm2 hm4]
    exact ih (j + 1) f (by omega) (by omega)

theorem wrapScan_result (name : Nat → Char) (m d : Nat) (hm4 : m ≤ 4) (hd1 : 1 ≤ d)
    (hdm : d < m)
    (hns : ∀ i : Nat, i < m → name i ≠ ' ')
    (hsp : ∀ i : Nat, m ≤ i → i < 4 → name i = ' ')
    (hdig : ∀ i : Nat, i < d → (name i).isDigit = true) (hnd : (name d).isDigit = false) :
    ((List.range 4).foldl (wrapScanStep name) (WrapScan.mk false 0 (-1))).returned = false ∧
    ((List.range 4).foldl (wrapScanStep name) (WrapScan.mk false 0 (-1))).numalpha ≠ 0 ∧
    (if ((List.range 4).foldl (wrapScanStep name) (WrapScan.mk false 0 (-1))).blank = -1
      then 4
      else ((List.range 4).foldl (wrapScanStep name) (WrapScan.mk false 0 (-1))).blank)
      = (m : Int) := by
  have r4 : List.range 4 = [0, 1, 2, 3] := rfl
  have h0 : (name 0).isDigit = true := hdig 0 (by omega)
  have hsd : (' ' : Char).isDigit = false := by decide
  rw [r4]
  have hm2 : 2 ≤ m := by omega
  interval_cases m <;> interval_cases d
  · have n0 := hns 0 (by decide)
    have n1 := hns 1 (by decide)
    have s2 := hsp 2 (by decide) (by decide)
    have s3 := hsp 3 (by decide) (by decide)
    simp only [List.foldl, wrapScanStep]
    simp [h0, hsd, hnd, n0, n1, s2, s3]
  · have n0 := hns 0 (by decide)
    have n1 := hns 1 (by decide)
    have n2 := hns 2 (by decide)
    have s3 := hsp 3 (by decide) (by decide)
    simp only [List.foldl, wrapScanStep]
    simp [h0, hsd, hnd, n0, n1, n2, s3]
    split_ifs <;> simp
  · have n0 := hns 0 (by decide)
    have n1 := hns 1 (by decide)
    have n2 := hns 2 (by decide)
    have s3 := hsp 3 (by decide) (by decide)
    have d1 := hdig 1 (by decide)
    simp only [List.foldl, wrapScanStep]
    simp [h0, hsd, hnd, n0, n1, n2, s3, d1]
  · have n0 := hns 0 (by decide)
    have n1 := hns 1 (by decide)
    have n2 := hns 2 (by decide)
    have n3 := hns 3 (by decide)
    simp only [List.foldl, wrapScanStep]
    simp [h0, hsd, hnd, n0, n1, n2, n3]
    split_ifs <;> simp
  · have n0 := hns 0 (by decide)
    have n1 := hns 1 (by decide)
    have n2 := hns 2 (by decide)
    have n3 := hns 3 (by decide)
    have d1 := hdig 1 (by decide)
    simp only [List.foldl, wrapScanStep]
    simp [h0, hsd, hnd, n0, n1, n2, n3, d1]
    split_ifs <;> simp
  · have n0 := hns 0 (by decide)
    have n1 := hns 1 (by decide)
    have n2 := hns 2 (by decide)
    have n3 := hns 3 (by decide)
    have d1 := hdig 1 (by decide)
    have d2 := hdig 2 (by decide)
    simp only [List.foldl, wrapScanStep]
    simp [h0, hsd, hnd, n0, n1, n2, n3, d1, d2]

theorem WrapName_nondigit (fuel : Nat) (name : Nat → Char) (h : (name 0).isDigit = false) :
    WrapName fuel name = some name := by
  have r4 : List.range 4 = [0, 1, 2, 3] := rfl
  unfold WrapName
  rw [r4]
  simp [List.foldl, wrapScanStep, h]

/-- Claim C20: for a space-padded name of `m` non-space characters that starts
with `d >= 1` digits followed by a non-digit, `WrapName` returns (the loop ends
within `d + 1` evaluations of its condition) the name whose first `m`
characters are the original ones rotated left by `d`, so that the first
character is that non-digit and the `d` digits come last in their original
order, with the other characters unchanged; a name whose first character is
not a digit is returned unchanged. -/
theorem WrapName_rotates (name : Nat → Char) (m d fuel : Nat) (hm4 : m ≤ 4) (hd1 : 1 ≤ d)
    (hdm : d < m)
    (hns : ∀ i : Nat, i < m → name i ≠ ' ')
    (hsp : ∀ i : Nat, m ≤ i → i < 4 → name i = ' ')
    (hdig : ∀ i : Nat, i < d → (name i).isDigit = true) (hnd : (name d).isDigit = false)
    (hfuel : d < fuel) :
    (∃ r : Nat → Char, WrapName fuel name = some r ∧
      r 0 = name d ∧
      (∀ i : Nat, i < m → r i = name ((i + d) % m)) ∧
      (∀ i : Nat, i + d < m → r i = name (i + d)) ∧
      (∀ i : Nat, i < d → r (m - d + i) = name i) ∧
      (∀ i : Nat, m ≤ i → r i = name i)) ∧
    (∀ (f2 : Nat) (n2 : Nat → Char), (n2 0).isDigit = false → WrapName f2 n2 = some n2) := by
  refine ⟨?_, WrapName_nondigit⟩
  have hm2 : 2 ≤ m := by omega
  obtain ⟨hret, hnum, hblank⟩ := wrapScan_result name m d hm4 hd1 hdm hns hsp hdig hnd
  have hloop := wrapLoop_rot name m d hdm hm2 hm4 hdig hnd d 0 fuel (by omega) hfuel
  rw [rotName_zero] at hloop
  have hW : WrapName fuel name = some (rotName name m d) := by
    unfold WrapName
    simp only [hret, hblank]
    have e0 : ¬ ((m : Int) = 0) := by omega
    have e1 : ¬ ((m : Int) = 1) := by omega
    simp only [hnum, e0, e1, if_false, Bool.false_eq_true, Int.toNat_ofNat]
    exact hloop
  refine ⟨rotName name m d, hW, ?_, ?_, ?_, ?_, ?_⟩
  · unfold rotName
    rw [if_pos (by omega), Nat.zero_add, Nat.mod_eq_of_lt hdm]
  · intro i hi
    unfold rotName
    rw [if_pos hi]
  · intro i hi
    unfold rotName
    rw [if_pos (by omega), Nat.mod_eq_of_lt hi]
  · intro i hi
    unfold rotName
    have e : (m - d + i + d) % m = i := by
      have : m - d + i + d = i + m := by omega
      rw [this, Nat.add_mod_right, Nat.mod_eq_of_lt (by omega)]
    rw [if_pos (by omega), e]
  · intro i hi
    unfold rotName
    rw [if_neg (by omega)]

theorem WrapName_rotates_witness :
    ∃ r : Nat → Char, WrapName 3 (nameOf "12H ") = some r ∧ r 0 = nameOf "12H " 2 := by
  have hns : ∀ i : Nat, i < 3 → nameOf "12H " i ≠ ' ' := by
    intro i hi
    interval_cases i <;> decide
  have hsp : ∀ i : Nat, 3 ≤ i → i < 4 → nameOf "12H " i = ' ' := by
    intro i h3 h4
    interval_cases i
    decide
  have hdig : ∀ i : Nat, i < 2 → (nameOf "12H " i).isDigit = true := by
    intro i hi
    interval_cases i <;> decide
  obtain ⟨r, hr, h0, -⟩ := (WrapName_rotates (nameOf "12H ") 3 2 3 (by decide) (by decide)
    (by decide) hns hsp hdig (by decide) (by decide)).1
  exact ⟨r, hr, h0⟩

theorem perm3_of_distinct (d : Nat → α) (i0 i1 i2 : Fin 3)
    (n01 : i0 ≠ i1) (n02 : i0 ≠ i2) (n12 : i1 ≠ i2) :
    List.Perm [d i0.val, d i1.val, d i2.val] [d 0, d 1, d 2] := by
  revert n01 n02 n12
  fin_cases i0 <;> fin_cases i1 <;> fin_cases i2 <;> intro n01 n02 n12 <;>
    first
      | exact absurd rfl n01
      | exact absurd rfl n02
      | exact absurd rfl n12
      | exact List.Perm.refl _
      | exact List.Perm.swap _ _ _
      | exact (List.Perm.swap _ _ _).cons _
      | exact ((List.Perm.swap _ _ _).cons _).trans (List.Perm.swap _ _ _)
      | exact (List.Perm.swap _ _ _).trans ((List.Perm.swap _ _ _).cons _)
      | exact ((List.Perm.swap _ _ _).trans ((List.Perm.swap _ _ _).cons _)).trans
          (List.Perm.swap _ _ _)

/-- Claim C23: on a matrix whose upper off-diagonal entries `a[1]`, `a[2]`,
`a[5]` are zero, `jacobi3` returns 1 at the convergence test of the first
sweep, before any rotation: `nrot = 0`, `d` is the diagonal `(a[0], a[4],
a[8])`, `v` is the identity and `a` is untouched; `diagEsort` then returns 1
with those diagonal values sorted in descending order. -/
theorem jacobi3_early_exit (sqrtF : α → α) (a d v Emat Eigenvalue : Nat → α)
    (Evec : Nat → Nat) (h1 : a 1 = 0) (h2 : a 2 = 0) (h5 : a 5 = 0) :
    jacobi3 sqrtF a d v = (1, jacobiInit a d v) ∧
    offDiagSum (sweepState sqrtF a d v 0).a = 0 ∧
    (jacobi3 sqrtF a d v).2.nrot = 0 ∧
    (jacobi3 sqrtF a d v).2.a = a ∧
    (jacobi3 sqrtF a d v).2.d 0 = a 0 ∧
    (jacobi3 sqrtF a d v).2.d 1 = a 4 ∧
    (jacobi3 sqrtF a d v).2.d 2 = a 8 ∧
    (∀ k : Fin 9, (jacobi3 sqrtF a d v).2.v k.val = identity3 k.val) ∧
    (diagEsort sqrtF a Emat Evec Eigenvalue).ret = 1 ∧
    (diagEsort sqrtF a Emat Evec Eigenvalue).Eigenvalue 0
      ≥ (diagEsort sqrtF a Emat Evec Eigenvalue).Eigenvalue 1 ∧
    (diagEsort sqrtF a Emat Evec Eigenvalue).Eigenvalue 1
      ≥ (diagEsort sqrtF a Emat Evec Eigenvalue).Eigenvalue 2 ∧
    List.Perm
      [(diagEsort sqrtF a Emat Evec Eigenvalue).Eigenvalue 0,
        (diagEsort sqrtF a Emat Evec Eigenvalue).Eigenvalue 1,
        (diagEsort sqrtF a Emat Evec Eigenvalue).Eigenvalue 2]
      [a 0, a 4, a 8] := by
  have hj := jacobi3_converged sqrtF a d v h1 h2 h5
  have hjE := jacobi3_converged sqrtF a Eigenvalue (fun _ => 0) h1 h2 h5
  obtain ⟨d0, d1, d2⟩ := jacobiInit_d a d v
  obtain ⟨e0, e1, e2⟩ := jacobiInit_d a Eigenvalue (fun _ => 0)
  obtain ⟨v0, v1, v2, v3, v4, v5, v6, v7, v8⟩ := jacobiInit_v a d v
  obtain ⟨i0, i1, i2, i3, i4, i5, i6, i7, i8⟩ := @identity3_cells α _
  have hret : (diagEsort sqrtF a Emat Evec Eigenvalue).ret = 1 := by
    rw [diagEsort_ret, hjE]
  obtain ⟨c0, c1, c2, n01, n02, n12, w0, w1, w2, -, -, -, s01, s12, -⟩ :=
    diagEsort_pairing sqrtF a Emat Evec Eigenvalue hret
  have hperm := perm3_of_distinct (jacobi3 sqrtF a Eigenvalue (fun _ => 0)).2.d c0 c1 c2
    n01 n02 n12
  rw [← w0, ← w1, ← w2] at hperm
  rw [← w0, ← w1] at s01
  rw [← w1, ← w2] at s12
  have hd0 : (jacobi3 sqrtF a Eigenvalue (fun _ => 0)).2.d 0 = a 0 := by rw [hjE]; exact e0
  have hd1 : (jacobi3 sqrtF a Eigenvalue (fun _ => 0)).2.d 1 = a 4 := by rw [hjE]; exact e1
  have hd2 : (jacobi3 sqrtF a Eigenvalue (fun _ => 0)).2.d 2 = a 8 := by rw [hjE]; exact e2
  rw [hd0, hd1, hd2] at hperm
  refine ⟨hj, ?_, ?_, ?_, ?_, ?_, ?_, ?_, hret, s01, s12, hperm⟩
  · exact (offDiagSum_eq_zero a).mpr ⟨h1, h2, h5⟩
  · rw [hj]
    rfl
  · rw [hj]
    rfl
  · rw [hj]
    exact d0
  · rw [hj]
    exact d1
  · rw [hj]
    exact d2
  · intro k
    rw [hj]
    obtain ⟨k, hk⟩ := k
    interval_cases k <;>
      simp only [v0, v1, v2, v3, v4, v5, v6, v7, v8, i0, i1, i2, i3, i4, i5, i6, i7, i8]

theorem jacobi3_early_exit_witness :
    (diag112 1 : ℝ) = 0 ∧ (diag112 2 : ℝ) = 0 ∧ (diag112 5 : ℝ) = 0 ∧
    jacobi3 Real.sqrt diag112 (fun _ => 0) (fun _ => 0)
      = (1, jacobiInit diag112 (fun _ => 0) (fun _ => 0)) :=
  have hc := @diag112_cells ℝ _
  ⟨hc.2.1, hc.2.2.1, hc.2.2.2.2.2.1,
    (jacobi3_early_exit Real.sqrt diag112 (fun _ => 0) (fun _ => 0) (fun _ => 0) (fun _ => 0)
      (fun _ => 0) hc.2.1 hc.2.2.1 hc.2.2.2.2.2.1).1⟩

theorem prime_ne_asterisk : PRIME ≠ '*' := by decide

theorem ReplaceAsterisk_cells (NameIn : Nat → Char) (i : Nat) :
    ReplaceAsterisk NameIn i
      = if i < 4 ∧ NameIn i = '*' then PRIME else NameIn i := by
  unfold ReplaceAsterisk
  by_cases h0 : NameIn 0 = '*' <;> by_cases h1 : NameIn 1 = '*' <;>
    by_cases h2 : NameIn 2 = '*' <;> by_cases h3 : NameIn 3 = '*' <;>
    simp only [h0, h1, h2, h3, if_true, if_false, Function.update_apply, ne_eq,
      OfNat.ofNat_ne_zero, OfNat.ofNat_ne_one, not_false_eq_true, Nat.succ_ne_self,
      OfNat.zero_ne_ofNat, OfNat.one_ne_ofNat, Nat.reduceEqDiff, zero_ne_one, one_ne_zero] <;>
    (by_cases e0 : i = 0 <;> by_cases e1 : i = 1 <;> by_cases e2 : i = 2 <;>
      by_cases e3 : i = 3 <;>
      first
        | omega
        | (subst i; simp [h0, h1, h2, h3])
        | (have hi : ¬ i < 4 := by omega
           simp [e0, e1, e2, e3, hi]))

/-- Claim C21: after `ReplaceAsterisk`, each of the first four positions that
held an asterisk holds the prime character and every other position is
unchanged; so no asterisk remains among the first four characters, and
applying `ReplaceAsterisk` twice equals applying it once. -/
theorem ReplaceAsterisk_spec (NameIn : Nat → Char) :
    (∀ i, i < 4 → NameIn i = '*' → ReplaceAsterisk NameIn i = PRIME) ∧
    (∀ i, ¬ (i < 4 ∧ NameIn i = '*') → ReplaceAsterisk NameIn i = NameIn i) ∧
    (∀ i, i < 4 → ReplaceAsterisk NameIn i ≠ '*') ∧
    ReplaceAsterisk (ReplaceAsterisk NameIn) = ReplaceAsterisk NameIn := by
  have hno : ∀ i, i < 4 → ReplaceAsterisk NameIn i ≠ '*' := by
    intro i hi
    rw [ReplaceAsterisk_cells]
    by_cases h : NameIn i = '*'
    · rw [if_pos ⟨hi, h⟩]
      exact prime_ne_asterisk
    · rw [if_neg (fun hh => h hh.2)]
      exact h
  refine ⟨?_, ?_, hno, ?_⟩
  · intro i hi h
    rw [ReplaceAsterisk_cells, if_pos ⟨hi, h⟩]
  · intro i h
    rw [ReplaceAsterisk_cells, if_neg h]
  · funext i
    rw [ReplaceAsterisk_cells (ReplaceAsterisk NameIn) i]
    exact if_neg (fun hh => hno i hh.1 hh.2)

theorem MetaData_lt_iff (a b : MetaData) :
    a.lt b = true ↔
      (a.name < b.name ∨ (a.name = b.name ∧ a.aspect < b.aspect) ∨
        (a.name = b.name ∧ a.aspect = b.aspect ∧ a.idx < b.idx)) := by
  unfold MetaData.lt
  by_cases hn : a.name = b.name
  · by_cases ha : a.aspect = b.aspect
    · simp [hn, ha]
    · simp [hn, ha]
  · simp [hn]

/-- Claim C22: `MetaData::operator<` is the lexicographic order on
`(name, aspect, idx)`; it is irreflexive, asymmetric and transitive, two
`MetaData` are incomparable exactly when name, aspect and idx are all equal
(so incomparability is transitive too), and the result does not depend on
legend, ensemble number, scalar mode, scalar type, time series or file name. -/
theorem MetaData_lt_strict_weak_order :
    (∀ a b : MetaData, a.lt b = true ↔
      (a.name < b.name ∨ (a.name = b.name ∧ a.aspect < b.aspect) ∨
        (a.name = b.name ∧ a.aspect = b.aspect ∧ a.idx < b.idx))) ∧
    (∀ a : MetaData, a.lt a = false) ∧
    (∀ a b : MetaData, a.lt b = true → b.lt a = false) ∧
    (∀ a b c : MetaData, a.lt b = true → b.lt c = true → a.lt c = true) ∧
    (∀ a b : MetaData, (a.lt b = false ∧ b.lt a = false) ↔
      (a.name = b.name ∧ a.aspect = b.aspect ∧ a.idx = b.idx)) ∧
    (∀ a b c : MetaData, (a.lt b = false ∧ b.lt a = false) →
      (b.lt c = false ∧ c.lt b = false) → (a.lt c = false ∧ c.lt a = false)) ∧
    (∀ a b a2 b2 : MetaData, a.name = a2.name → a.aspect = a2.aspect → a.idx = a2.idx →
      b.name = b2.name → b.aspect = b2.aspect → b.idx = b2.idx → a.lt b = a2.lt b2) := by
  have hirr : ∀ a : MetaData, a.lt a = false := by
    intro a
    rw [← Bool.not_eq_true, MetaData_lt_iff]
    rintro (h | ⟨-, h⟩ | ⟨-, -, h⟩)
    · exact lt_irrefl _ h
    · exact lt_irrefl _ h
    · exact lt_irrefl _ h
  have hasym : ∀ a b : MetaData, a.lt b = true → b.lt a = false := by
    intro a b hab
    rw [← Bool.not_eq_true, MetaData_lt_iff]
    rw [MetaData_lt_iff] at hab
    rintro (h | ⟨hn, h⟩ | ⟨hn, ha, h⟩)
    · rcases hab with h2 | ⟨hn2, -⟩ | ⟨hn2, -, -⟩
      · exact lt_asymm h h2
      · exact absurd hn2.symm (ne_of_lt h)
      · exact absurd hn2.symm (ne_of_lt h)
    · rcases hab with h2 | ⟨-, h2⟩ | ⟨-, ha2, -⟩
      · exact absurd hn.symm (ne_of_lt h2)
      · exact lt_asymm h h2
      · exact absurd ha2.symm (ne_of_lt h)
    · rcases hab with h2 | ⟨-, h2⟩ | ⟨-, -, h2⟩
      · exact absurd hn.symm (ne_of_lt h2)
      · exact absurd ha.symm (ne_of_lt h2)
      · exact lt_asymm h h2
  have hinc : ∀ a b : MetaData, (a.lt b = false ∧ b.lt a = false) ↔
      (a.name = b.name ∧ a.aspect = b.aspect ∧ a.idx = b.idx) := by
    intro a b
    rw [← Bool.not_eq_true, ← Bool.not_eq_true, MetaData_lt_iff, MetaData_lt_iff]
    constructor
    · rintro ⟨h1, h2⟩
      have hn : a.name = b.name := by
        rcases lt_trichotomy a.name b.name with h | h | h
        · exact absurd (Or.inl h) h1
        · exact h
        · exact absurd (Or.inl h) h2
      have ha : a.aspect = b.aspect := by
        rcases lt_trichotomy a.aspect b.aspect with h | h | h
        · exact absurd (Or.inr (Or.inl ⟨hn, h⟩)) h1
        · exact h
        · exact absurd (Or.inr (Or.inl ⟨hn.symm, h⟩)) h2
      refine ⟨hn, ha, ?_⟩
      rcases lt_trichotomy a.idx b.idx with h | h | h
      · exact absurd (Or.inr (Or.inr ⟨hn, ha, h⟩)) h1
      · exact h
      · exact absurd (Or.inr (Or.inr ⟨hn.symm, ha.symm, h⟩)) h2
    · rintro ⟨hn, ha, hi⟩
      rw [hn, ha, hi]
      constructor <;>
        (rintro (h | ⟨-, h⟩ | ⟨-, -, h⟩) <;> exact lt_irrefl _ h)
  refine ⟨MetaData_lt_iff, hirr, hasym, ?_, hinc, ?_, ?_⟩
  · intro a b c hab hbc
    rw [MetaData_lt_iff] at hab hbc ⊢
    rcases hab with h | ⟨hn, h⟩ | ⟨hn, ha, h⟩
    · rcases hbc with h2 | ⟨hn2, -⟩ | ⟨hn2, -, -⟩
      · exact Or.inl (lt_trans h h2)
      · exact Or.inl (hn2 ▸ h)
      · exact Or.inl (hn2 ▸ h)
    · rcases hbc with h2 | ⟨hn2, h2⟩ | ⟨hn2, ha2, -⟩
      · exact Or.inl (hn ▸ h2)
      · exact Or.inr (Or.inl ⟨hn.trans hn2, lt_trans h h2⟩)
      · exact Or.inr (Or.inl ⟨hn.trans hn2, ha2 ▸ h⟩)
    · rcases hbc with h2 | ⟨hn2, h2⟩ | ⟨hn2, ha2, h2⟩
      · exact Or.inl (hn ▸ h2)
      · exact Or.inr (Or.inl ⟨hn.trans hn2, ha ▸ h2⟩)
      · exact Or.inr (Or.inr ⟨hn.trans hn2, ha.trans ha2, lt_trans h h2⟩)
  · intro a b c hab hbc
    obtain ⟨n1, a1, i1⟩ := (hinc a b).mp hab
    obtain ⟨n2, a2, i2⟩ := (hinc b c).mp hbc
    exact (hinc a c).mpr ⟨n1.trans n2, a1.trans a2, i1.trans i2⟩
  · intro a b a2 b2 h1 h2 h3 h4 h5 h6
    unfold MetaData.lt
    rw [h1, h2, h3, h4, h5, h6]

theorem action_counters (st : Average α) (currentFrame : Int) (F : Frame α) :
    (st.action currentFrame F).2.stop = st.stop ∧
    (st.action currentFrame F).2.offset = st.offset ∧
    (currentFrame ≠ st.targetFrame →
      (st.action currentFrame F).2.targetFrame = st.targetFrame ∧
      (st.action currentFrame F).2.Nframes = st.Nframes) ∧
    (currentFrame = st.targetFrame →
      (st.action currentFrame F).2.Nframes = st.Nframes + 1 ∧
      (st.action currentFrame F).2.targetFrame
        = if st.targetFrame + st.offset > st.stop ∧ st.stop ≠ -1 then -1
          else st.targetFrame + st.offset) := by
  unfold Average.action
  by_cases h : currentFrame ≠ st.targetFrame
  · rw [if_pos h]
    exact ⟨rfl, rfl, fun _ => ⟨rfl, rfl⟩, fun h2 => absurd h2 h⟩
  · rw [if_neg h]
    exact ⟨rfl, rfl, fun h2 => absurd h2 h, fun _ => ⟨rfl, rfl⟩⟩

theorem init_counters (st : Average α) (avgfilename : String)
    (startArg stopArg offsetArg : Int) :
    (st.init (some avgfilename) startArg stopArg offsetArg).1 = 0 ∧
    (st.init (some avgfilename) startArg stopArg offsetArg).2.start = startArg - 1 ∧
    (st.init (some avgfilename) startArg stopArg offsetArg).2.targetFrame = startArg - 1 ∧
    (st.init (some avgfilename) startArg stopArg offsetArg).2.stop
      = (if stopArg ≠ -1 then stopArg - 1 else stopArg) ∧
    (st.init (some avgfilename) startArg stopArg offsetArg).2.offset = offsetArg ∧
    (st.init (some avgfilename) startArg stopArg offsetArg).2.Nframes = 0 :=
  ⟨rfl, rfl, rfl, rfl, rfl, rfl⟩

theorem dvd_gap (o x y : Int) (hx : o ∣ x) (hy : o ∣ y) (h1 : x < y) (h2 : y < x + o) :
    False := by
  have hd : o ∣ (y - x) := Int.dvd_sub hy hx
  have hle := Int.le_of_dvd (by omega) hd
  omega

theorem run_invariant (st0 : Average α) (F : Nat → Frame α) (s e o : Int)
    (hT : st0.targetFrame = s) (hstop : st0.stop = e) (hoff : st0.offset = o)
    (hs : 0 ≤ s) (ho : 1 ≤ o) (f : Nat) :
    (st0.run F f).stop = e ∧ (st0.run F f).offset = o ∧
    ((st0.run F f).targetFrame ≠ -1 →
      (f : Int) ≤ (st0.run F f).targetFrame ∧ s ≤ (st0.run F f).targetFrame ∧
      o ∣ ((st0.run F f).targetFrame - s) ∧
      (e = -1 ∨ (st0.run F f).targetFrame ≤ e ∨ (st0.run F f).targetFrame = s) ∧
      ∀ g : Int, (f : Int) ≤ g → g < (st0.run F f).targetFrame →
        ¬ (s ≤ g ∧ o ∣ (g - s))) ∧
    ((st0.run F f).targetFrame = -1 →
      ∀ g : Int, (f : Int) ≤ g → ¬ (s ≤ g ∧ o ∣ (g - s) ∧ (e = -1 ∨ g ≤ e ∨ g = s))) := by
  induction f with
  | zero =>
    show st0.stop = e ∧ st0.offset = o ∧ _
    rw [show st0.run F 0 = st0 from rfl, hT]
    refine ⟨hstop, hoff, fun _ => ⟨by simpa using hs, le_refl _, by simp, Or.inr (Or.inr rfl),
      fun g _ hg2 hc => by omega⟩, fun h => by omega⟩
  | succ n ih =>
    obtain ⟨ihstop, ihoff, ihA, ihB⟩ := ih
    obtain ⟨a1, a2, a3, a4⟩ := action_counters (st0.run F n) (n : Int) (F n)
    rw [show st0.run F (n + 1) = ((st0.run F n).action (n : Int) (F n)).2 from rfl]
    rw [ihstop] at a1
    rw [ihoff] at a2
    refine ⟨a1, a2, ?_⟩
    by_cases hhit : (n : Int) = (st0.run F n).targetFrame
    · obtain ⟨-, hT2⟩ := a4 hhit
      rw [ihstop, ihoff] at hT2
      have hne : (st0.run F n).targetFrame ≠ -1 := by omega
      obtain ⟨b1, b2, b3, b4, b5⟩ := ihA hne
      rw [← hhit] at hT2 b2 b3
      by_cases hk : (n : Int) + o > e ∧ e ≠ -1
      · rw [if_pos hk] at hT2
        rw [hT2]
        refine ⟨fun h => absurd rfl h, fun _ g hg hc => ?_⟩
        obtain ⟨c1, c2, c3⟩ := hc
        push_cast at hg
        have hgs : g ≤ e := by omega
        exact dvd_gap o ((n : Int) - s) (g - s) b3 c2 (by omega) (by omega)
      · rw [if_neg hk] at hT2
        rw [hT2]
        refine ⟨fun _ => ⟨by push_cast; omega, by omega, ?_, by omega, fun g hg hg2 hc => ?_⟩,
          fun h => by omega⟩
        · have : (n : Int) + o - s = ((n : Int) - s) + o := by ring
          rw [this]
          exact Int.dvd_add b3 (dvd_refl o)
        · push_cast at hg
          exact dvd_gap o ((n : Int) - s) (g - s) b3 hc.2 (by omega) (by omega)
    · obtain ⟨hT2, -⟩ := a3 hhit
      rw [hT2]
      refine ⟨fun hne => ?_, fun heq g hg => ?_⟩
      · obtain ⟨b1, b2, b3, b4, b5⟩ := ihA hne
        refine ⟨by push_cast; omega, b2, b3, b4, fun g hg hg2 => b5 g (by push_cast at hg; omega) hg2⟩
      · exact ihB heq g (by push_cast at hg; omega)

theorem accumulates_iff (st0 : Average α) (F : Nat → Frame α) (s e o : Int)
    (hT : st0.targetFrame = s) (hstop : st0.stop = e) (hoff : st0.offset = o)
    (hs : 0 ≤ s) (ho : 1 ≤ o) (f : Nat) :
    st0.accumulates F f = frameSelected s e o f := by
  obtain ⟨-, -, hA, hB⟩ := run_invariant st0 F s e o hT hstop hoff hs ho f
  unfold Average.accumulates frameSelected
  by_cases hhit : (f : Int) = (st0.run F f).targetFrame
  · have hne : (st0.run F f).targetFrame ≠ -1 := by omega
    obtain ⟨b1, b2, b3, b4, b5⟩ := hA hne
    rw [← hhit] at b2 b3 b4
    rw [decide_eq_true hhit, decide_eq_true (⟨b2, b3, b4⟩ : _ ∧ _ ∧ _)]
  · rw [decide_eq_false hhit]
    symm
    apply decide_eq_false
    intro hc
    by_cases hm : (st0.run F f).targetFrame = -1
    · exact hB hm (f : Int) (le_refl _) hc
    · obtain ⟨b1, b2, b3, b4, b5⟩ := hA hm
      exact b5 (f : Int) (le_refl _) (lt_of_le_of_ne b1 hhit) ⟨hc.1, hc.2.1⟩

theorem run_Nframes (st0 : Average α) (F : Nat → Frame α) (n : Nat) :
    (st0.run F n).Nframes
      = st0.Nframes + (((List.range n).filter (fun f => st0.accumulates F f)).length : Int) := by
  induction n with
  | zero => simp [Average.run]
  | succ n ih =>
    obtain ⟨-, -, a3, a4⟩ := action_counters (st0.run F n) (n : Int) (F n)
    rw [show st0.run F (n + 1) = ((st0.run F n).action (n : Int) (F n)).2 from rfl]
    rw [List.range_succ, List.filter_append, List.length_append]
    by_cases hhit : (n : Int) = (st0.run F n).targetFrame
    · have hacc : st0.accumulates F n = true := decide_eq_true hhit
      rw [(a4 hhit).1, ih]
      simp [hacc]
      ring
    · have hacc : st0.accumulates F n = false := decide_eq_false hhit
      rw [(a3 hhit).2, ih]
      simp [hacc]

/-- Claim C24 as stated fails when the stop lies before the start: with user
arguments `start 2 stop 1` (so `s = 1`, `e = 0`, `o = 1`) the frame
`currentFrame = 1` is accumulated and `Nframes` becomes 1, although no frame
`f` has `f ≥ s` and `f ≤ e`. -/
theorem frame_selection_counterexample :
    ((Average.mk (none : Option (Frame ℚ)) 0 0 0 0 0 0 none false
        (AtomMask.mk (fun _ => 0) 0)).init (some "avg.rst7") 2 1 1).2.start = 1 ∧
    ((Average.mk (none : Option (Frame ℚ)) 0 0 0 0 0 0 none false
        (AtomMask.mk (fun _ => 0) 0)).init (some "avg.rst7") 2 1 1).2.stop = 0 ∧
    ((Average.mk (none : Option (Frame ℚ)) 0 0 0 0 0 0 none false
        (AtomMask.mk (fun _ => 0) 0)).init (some "avg.rst7") 2 1 1).2.offset = 1 ∧
    (((Average.mk (none : Option (Frame ℚ)) 0 0 0 0 0 0 none false
        (AtomMask.mk (fun _ => 0) 0)).init (some "avg.rst7") 2 1 1).2.run
      (fun _ => Frame.mk 0 (fun _ => 0)) 1).targetFrame = 1 ∧
    (((Average.mk (none : Option (Frame ℚ)) 0 0 0 0 0 0 none false
        (AtomMask.mk (fun _ => 0) 0)).init (some "avg.rst7") 2 1 1).2.run
      (fun _ => Frame.mk 0 (fun _ => 0)) 1).Nframes = 0 ∧
    (((Average.mk (none : Option (Frame ℚ)) 0 0 0 0 0 0 none false
        (AtomMask.mk (fun _ => 0) 0)).init (some "avg.rst7") 2 1 1).2.run
      (fun _ => Frame.mk 0 (fun _ => 0)) 2).Nframes = 1 ∧
    ¬ ((1 : Int) ≤ 1 ∧ (1 : Int) ∣ (1 - 1) ∧ ((0 : Int) = -1 ∨ (1 : Int) ≤ 0)) := by
  refine ⟨rfl, rfl, rfl, rfl, rfl, rfl, ?_⟩
  decide

/-- Claim C24, amended: after `Average::init` with user arguments
`start ≥ 1` and `offset ≥ 1`, so `s = start - 1`, `o = offset` and `e = stop - 1`
or `e = -1` for no stop, when `Average::action` is called once for each
`currentFrame = 0, 1, 2, ...` in increasing order, the frames accumulated are
exactly those `f` with `f ≥ s`, `f - s` divisible by `o` and (`e = -1` or
`f ≤ e` or `f = s`), and `Nframes` is the number of such frames seen. -/
theorem frame_selection (st : Average α) (F : Nat → Frame α) (avgfilename : String)
    (startArg stopArg offsetArg : Int) (hs : 1 ≤ startArg) (ho : 1 ≤ offsetArg) :
    (st.init (some avgfilename) startArg stopArg offsetArg).1 = 0 ∧
    (st.init (some avgfilename) startArg stopArg offsetArg).2.stop
      = (if stopArg = -1 then -1 else stopArg - 1) ∧
    (∀ f : Nat,
      ((f : Int) = ((st.init (some avgfilename) startArg stopArg offsetArg).2.run F f).targetFrame
        ↔ (startArg - 1 ≤ (f : Int) ∧ offsetArg ∣ ((f : Int) - (startArg - 1)) ∧
            ((st.init (some avgfilename) startArg stopArg offsetArg).2.stop = -1 ∨
              (f : Int) ≤ (st.init (some avgfilename) startArg stopArg offsetArg).2.stop ∨
              (f : Int) = startArg - 1))) ∧
      (((st.init (some avgfilename) startArg stopArg offsetArg).2.run F (f + 1)).Nframes
        = ((st.init (some avgfilename) startArg stopArg offsetArg).2.run F f).Nframes
          + (if (f : Int)
                = ((st.init (some avgfilename) startArg stopArg offsetArg).2.run F f).targetFrame
              then 1 else 0))) ∧
    (∀ n : Nat, ((st.init (some avgfilename) startArg stopArg offsetArg).2.run F n).Nframes
      = (((List.range n).filter (fun f => frameSelected (startArg - 1)
          (st.init (some avgfilename) startArg stopArg offsetArg).2.stop offsetArg f)).length
          : Int)) := by
  obtain ⟨i1, i2, i3, i4, i5, i6⟩ := init_counters st avgfilename startArg stopArg offsetArg
  have hacc := accumulates_iff (st.init (some avgfilename) startArg stopArg offsetArg).2 F
    (startArg - 1) (st.init (some avgfilename) startArg stopArg offsetArg).2.stop offsetArg
    i3 rfl i5 (by omega) ho
  refine ⟨i1, ?_, fun f => ⟨?_, ?_⟩, fun n => ?_⟩
  · rw [i4]
    by_cases h : stopArg = -1
    · simp [h]
    · simp [h]
  · have h := hacc f
    unfold Average.accumulates frameSelected at h
    rw [decide_eq_decide] at h
    exact h
  · obtain ⟨-, -, a3, a4⟩ := action_counters
      ((st.init (some avgfilename) startArg stopArg offsetArg).2.run F f) (f : Int) (F f)
    rw [show (st.init (some avgfilename) startArg stopArg offsetArg).2.run F (f + 1)
      = (((st.init (some avgfilename) startArg stopArg offsetArg).2.run F f).action
          (f : Int) (F f)).2 from rfl]
    by_cases hhit : (f : Int)
        = ((st.init (some avgfilename) startArg stopArg offsetArg).2.run F f).targetFrame
    · rw [if_pos hhit, (a4 hhit).1]
    · rw [if_neg hhit, (a3 hhit).2, add_zero]
  · have hf : (fun f => (st.init (some avgfilename) startArg stopArg offsetArg).2.accumulates F f)
        = (fun f => frameSelected (startArg - 1)
            (st.init (some avgfilename) startArg stopArg offsetArg).2.stop offsetArg f) :=
      funext hacc
    rw [run_Nframes, i6, zero_add, hf]

theorem frame_selection_witness :
    (1 : Int) ≤ 3 ∧ (1 : Int) ≤ 2 ∧
    (((Average.mk (none : Option (Frame ℚ)) 0 0 0 0 0 0 none false
        (AtomMask.mk (fun _ => 0) 0)).init (some "avg.rst7") 3 8 2).2.run
      (fun _ => Frame.mk 0 (fun _ => 0)) 12).Nframes
      = (((List.range 12).filter (fun f => frameSelected (3 - 1)
          ((Average.mk (none : Option (Frame ℚ)) 0 0 0 0 0 0 none false
            (AtomMask.mk (fun _ => 0) 0)).init (some "avg.rst7") 3 8 2).2.stop 2 f)).length
          : Int) :=
  ⟨by decide, by decide,
    (frame_selection (Average.mk (none : Option (Frame ℚ)) 0 0 0 0 0 0 none false
      (AtomMask.mk (fun _ => 0) 0)) (fun _ => Frame.mk 0 (fun _ => 0)) "avg.rst7" 3 8 2
      (by decide) (by decide)).2.2.2 12⟩

theorem setInsert_new (t0 : α) (tList : List α) (h : t0 ∉ tList) :
    setInsert t0 tList = (List.orderedInsert (fun x y => x ≤ y) t0 tList, true) := by
  unfold setInsert
  rw [if_neg h]

theorem setInsert_old (t0 : α) (tList : List α) (h : t0 ∈ tList) :
    setInsert t0 tList = (tList, false) := by
  unfold setInsert
  rw [if_pos h]

theorem setInsert_mem (t0 : α) (tList : List α) : t0 ∈ (setInsert t0 tList).1 := by
  by_cases h : t0 ∈ tList
  · rw [setInsert_old t0 tList h]
    exact h
  · rw [setInsert_new t0 tList h]
    exact (List.perm_orderedInsert _ t0 tList).symm.subset (List.mem_cons_self _ _)

theorem setInsert_subset (t0 : α) (tList : List α) (x : α) (hx : x ∈ tList) :
    x ∈ (setInsert t0 tList).1 := by
  by_cases h : t0 ∈ tList
  · rw [setInsert_old t0 tList h]
    exact hx
  · rw [setInsert_new t0 tList h]
    exact (List.perm_orderedInsert _ t0 tList).symm.subset (List.mem_cons_of_mem _ hx)

theorem readTemperatures_cons (t0 : α) (rest : List (Option α)) (tList : List α) :
    readTemperatures (some t0 :: rest) tList
      = if (!(setInsert t0 tList).2) = true then none
        else readTemperatures rest (setInsert t0 tList).1 := by
  rw [readTemperatures]

theorem readTemperatures_distinct (ts : List α) :
    ∀ tList : List α, ts.Nodup → tList.Nodup → (∀ t ∈ ts, t ∉ tList) →
      List.Sorted (fun x y => x ≤ y) tList →
      ∃ r : List α, readTemperatures (ts.map some) tList = some r ∧
        List.Perm r (ts ++ tList) ∧ List.Sorted (fun x y => x ≤ y) r := by
  induction ts with
  | nil =>
    intro tList _ _ _ hsort
    exact ⟨tList, rfl, List.Perm.refl _, hsort⟩
  | cons t ts ih =>
    intro tList hnd hnd2 hdis hsort
    have ht : t ∉ tList := hdis t (List.mem_cons_self _ _)
    obtain ⟨htts, hnd1⟩ := List.nodup_cons.mp hnd
    have hperm := List.perm_orderedInsert (fun x y : α => x ≤ y) t tList
    have hstep : readTemperatures ((t :: ts).map some) tList
        = readTemperatures (ts.map some) (List.orderedInsert (fun x y => x ≤ y) t tList) := by
      show readTemperatures (some t :: ts.map some) tList = _
      rw [readTemperatures_cons, setInsert_new t tList ht]
      rfl
    obtain ⟨r, hr, hp, hs⟩ := ih (List.orderedInsert (fun x y => x ≤ y) t tList) hnd1
      (hperm.nodup_iff.mpr (List.nodup_cons.mpr ⟨ht, hnd2⟩))
      (fun x hx hmem => by
        rcases List.mem_cons.mp (hperm.subset hmem) with h | h
        · exact htts (h ▸ hx)
        · exact hdis x (List.mem_cons_of_mem _ hx) h)
      (List.Sorted.orderedInsert t tList hsort)
    refine ⟨r, hstep.trans hr, ?_, hs⟩
    refine hp.trans ?_
    refine (List.Perm.append_left ts hperm).trans ?_
    exact List.perm_middle

theorem readTemperatures_none_mem (lines : List (Option α)) :
    ∀ tList : List α, none ∈ lines → readTemperatures lines tList = none := by
  induction lines with
  | nil => intro _ h; exact absurd h (List.not_mem_nil _)
  | cons l lines ih =>
    intro tList h
    cases l with
    | none => rfl
    | some t0 =>
      have h2 : none ∈ lines := by
        rcases List.mem_cons.mp h with h | h
        · exact absurd h (by simp)
        · exact h
      rw [readTemperatures_cons]
      by_cases hb : (!(setInsert t0 tList).2) = true
      · rw [if_pos hb]
      · rw [if_neg hb]
        exact ih _ h2

theorem readTemperatures_repeated (lines : List (Option α)) :
    ∀ tList : List α,
      (¬ (lines.filterMap id).Nodup ∨ ∃ t ∈ lines.filterMap id, t ∈ tList) →
      readTemperatures lines tList = none := by
  induction lines with
  | nil =>
    intro tList h
    rcases h with h | ⟨t, ht, -⟩
    · exact absurd List.nodup_nil h
    · exact absurd ht (List.not_mem_nil _)
  | cons l lines ih =>
    intro tList h
    cases l with
    | none => rfl
    | some t0 =>
      have hfm : (some t0 :: lines).filterMap id = t0 :: lines.filterMap id := rfl
      rw [hfm] at h
      rw [readTemperatures_cons]
      by_cases hmem : t0 ∈ tList
      · rw [setInsert_old t0 tList hmem]
        rfl
      · have hnew := setInsert_new t0 tList hmem
        have hb : ¬ ((!(setInsert t0 tList).2) = true) := by
          rw [hnew]
          simp
        rw [if_neg hb]
        apply ih
        rcases h with h | ⟨t, ht, htl⟩
        · rw [List.nodup_cons, not_and_or, not_not] at h
          rcases h with h | h
          · exact Or.inr ⟨t0, h, setInsert_mem t0 tList⟩
          · exact Or.inl h
        · rcases List.mem_cons.mp ht with h | h
          · exact absurd (h ▸ htl) hmem
          · exact Or.inr ⟨t, h, setInsert_subset t0 tList t htl⟩

theorem mapInsert_last (k : α) (v : Int) (m : List (α × Int)) (h : ∀ p ∈ m, p.1 < k) :
    mapInsert (k, v) m = m ++ [(k, v)] := by
  have hk : k ∉ m.map Prod.fst := by
    intro hm
    obtain ⟨p, hp, hpk⟩ := List.mem_map.mp hm
    exact absurd hpk (ne_of_lt (h p hp))
  unfold mapInsert
  rw [if_neg hk]
  clear hk
  induction m with
  | nil => rfl
  | cons p m ih =>
    have hp : ¬ k ≤ p.1 := not_le.mpr (h p (List.mem_cons_self _ _))
    rw [List.orderedInsert, if_neg hp, ih (fun q hq => h q (List.mem_cons_of_mem _ hq))]
    rfl

theorem numberFrom_fst (l : List α) : ∀ k : Int, (numberFrom l k).map Prod.fst = l := by
  induction l with
  | nil => intro k; rfl
  | cons t ts ih =>
    intro k
    show t :: (numberFrom ts (k + 1)).map Prod.fst = t :: ts
    rw [ih]

theorem numberFrom_snd (l : List α) :
    ∀ k : Int, (numberFrom l k).map Prod.snd = (List.range l.length).map (fun i : Nat => k + (i : Int)) := by
  induction l with
  | nil => intro k; rfl
  | cons t ts ih =>
    intro k
    show k :: (numberFrom ts (k + 1)).map Prod.snd = _
    rw [ih, List.length_cons, List.range_succ_eq_map, List.map_cons, List.map_map]
    refine congrArg₂ _ (by simp) ?_
    apply List.map_congr_left
    intro i _
    simp only [Function.comp, Nat.cast_succ]
    ring

theorem numberFrom_mem (l : List α) :
    ∀ (k : Int) (p : α × Int), p ∈ numberFrom l k → p.1 ∈ l ∧ k ≤ p.2 := by
  induction l with
  | nil => intro k p h; exact absurd h (List.not_mem_nil _)
  | cons t ts ih =>
    intro k p h
    rcases List.mem_cons.mp h with h | h
    · rw [h]
      exact ⟨List.mem_cons_self _ _, le_refl _⟩
    · obtain ⟨h1, h2⟩ := ih (k + 1) p h
      exact ⟨List.mem_cons_of_mem _ h1, by omega⟩

theorem numberFrom_pairwise (l : List α) (hl : List.Pairwise (fun x y => x < y) l) :
    ∀ k : Int, List.Pairwise (fun p q : α × Int => p.1 < q.1 ∧ p.2 < q.2) (numberFrom l k) := by
  induction l with
  | nil => intro k; exact List.Pairwise.nil
  | cons t ts ih =>
    intro k
    obtain ⟨h1, h2⟩ := List.pairwise_cons.mp hl
    refine List.pairwise_cons.mpr ⟨fun q hq => ?_, ih h2 (k + 1)⟩
    obtain ⟨q1, q2⟩ := numberFrom_mem ts (k + 1) q hq
    exact ⟨h1 q.1 q1, by show k < q.2; omega⟩

theorem fill_map (l : List α) (hl : List.Pairwise (fun x y => x < y) l) :
    ∀ (m : List (α × Int)) (k : Int), (∀ p ∈ m, ∀ t ∈ l, p.1 < t) →
      (l.foldl (fun (s : List (α × Int) × Int) temp0 => (mapInsert (temp0, s.2) s.1, s.2 + 1))
        (m, k)).1 = m ++ numberFrom l k := by
  induction l with
  | nil =>
    intro m k _
    show m = m ++ []
    rw [List.append_nil]
  | cons t ts ih =>
    intro m k hm
    obtain ⟨h1, h2⟩ := List.pairwise_cons.mp hl
    rw [List.foldl_cons]
    show (ts.foldl _ (mapInsert (t, k) m, k + 1)).1 = _
    rw [mapInsert_last t k m (fun p hp => hm p hp t (List.mem_cons_self _ _))]
    rw [ih h2 (m ++ [(t, k)]) (k + 1) (fun p hp x hx => by
      rcases List.mem_append.mp hp with h | h
      · exact hm p h x (List.mem_cons_of_mem _ hx)
      · rw [List.mem_singleton.mp h]
        exact h1 x hx)]
    rw [List.append_assoc]
    rfl

theorem SetupTemperatureMap_distinct (ts : List α) (hts : ts.Nodup) :
    ∃ tList : List α, List.Perm tList ts ∧ List.Pairwise (fun x y => x < y) tList ∧
      SetupTemperatureMap (ts.map some) = numberFrom tList 1 := by
  obtain ⟨r, hr, hp, hs⟩ := readTemperatures_distinct ts [] hts List.nodup_nil
    (fun _ _ h => absurd h (List.not_mem_nil _)) List.sorted_nil
  rw [List.append_nil] at hp
  have hnd : r.Nodup := hp.nodup_iff.mpr hts
  have hlt : List.Pairwise (fun x y => x < y) r := by
    have h2 : List.Pairwise (fun x y => x ≤ y ∧ x ≠ y) r := List.Pairwise.and hs hnd
    exact h2.imp (fun h => lt_of_le_of_ne h.1 h.2)
  refine ⟨r, hp, hlt, ?_⟩
  unfold SetupTemperatureMap
  simp only [hr]
  rw [fill_map r hlt [] 1 (fun _ h => absurd h (List.not_mem_nil _))]
  rfl

/-- Claim C25: when the exchange block lists `n` pairwise distinct
temperatures, the map returned by `SetupTemperatureMap` has exactly those
temperatures as keys, in increasing order, paired with the replica numbers
`1, 2, ..., n` in that order (so the lowest temperature maps to 1 and a lower
temperature always has the lower replica number); when a line cannot be
parsed or a temperature is repeated, the returned map is empty. -/
theorem SetupTemperatureMap_spec :
    (∀ ts : List α, ts.Nodup →
      List.Perm ((SetupTemperatureMap (ts.map some)).map Prod.fst) ts ∧
      List.Pairwise (fun x y => x < y) ((SetupTemperatureMap (ts.map some)).map Prod.fst) ∧
      (SetupTemperatureMap (ts.map some)).map Prod.snd
        = (List.range ts.length).map (fun i : Nat => 1 + (i : Int)) ∧
      List.Pairwise (fun p q : α × Int => p.1 < q.1 ∧ p.2 < q.2)
        (SetupTemperatureMap (ts.map some)) ∧
      (∀ p ∈ SetupTemperatureMap (ts.map some), ∀ q ∈ SetupTemperatureMap (ts.map some),
        (p.1 < q.1 ↔ p.2 < q.2))) ∧
    (∀ lines : List (Option α), none ∈ lines → SetupTemperatureMap lines = []) ∧
    (∀ lines : List (Option α), ¬ (lines.filterMap id).Nodup →
      SetupTemperatureMap lines = []) := by
  refine ⟨fun ts hts => ?_, fun lines h => ?_, fun lines h => ?_⟩
  · obtain ⟨r, hp, hlt, hr⟩ := SetupTemperatureMap_distinct ts hts
    have hpw := numberFrom_pairwise r hlt 1
    rw [hr, numberFrom_fst, numberFrom_snd, hp.length_eq]
    refine ⟨hp, hlt, rfl, hpw, fun p hp q hq => ?_⟩
    have hall : ∀ p ∈ numberFrom r 1, ∀ q ∈ numberFrom r 1,
        p = q ∨ (p.1 < q.1 ∧ p.2 < q.2) ∨ (q.1 < p.1 ∧ q.2 < p.2) := by
      intro p hp q hq
      by_cases hpq : p = q
      · exact Or.inl hpq
      · have := List.Pairwise.forall_of_forall_of_flip (R := fun p q : α × Int =>
          p = q ∨ (p.1 < q.1 ∧ p.2 < q.2) ∨ (q.1 < p.1 ∧ q.2 < p.2))
          (fun x _ => Or.inl rfl) (hpw.imp (fun h => Or.inr (Or.inl h)))
          (hpw.imp (fun h => Or.inr (Or.inr h)))
        exact this hp hq
    rcases hall p hp q hq with h | h | h
    · rw [h]
      exact ⟨fun h2 => absurd h2 (lt_irrefl _), fun h2 => absurd h2 (lt_irrefl _)⟩
    · exact ⟨fun _ => h.2, fun _ => h.1⟩
    · exact ⟨fun h2 => absurd h2 (lt_asymm h.1), fun h2 => absurd h2 (lt_asymm h.2)⟩
  · unfold SetupTemperatureMap
    simp only [readTemperatures_none_mem lines [] h]
  · unfold SetupTemperatureMap
    simp only [readTemperatures_repeated lines [] (Or.inl h)]

theorem readGroupIndices_all (r : List Int) (h : ∀ x ∈ r, x ≠ -1) : readGroupIndices r = r := by
  induction r with
  | nil => rfl
  | cons x xs ih =>
    rw [readGroupIndices, if_pos (h x (List.mem_cons_self _ _)),
      ih (fun y hy => h y (List.mem_cons_of_mem _ hy))]

theorem readGroupIndices_stop (r rest : List Int) (h : ∀ x ∈ r, x ≠ -1) :
    readGroupIndices (r ++ -1 :: rest) = r := by
  induction r with
  | nil => rfl
  | cons x xs ih =>
    rw [List.cons_append, readGroupIndices, if_pos (h x (List.mem_cons_self _ _)),
      ih (fun y hy => h y (List.mem_cons_of_mem _ hy))]

theorem partner_fold (indices : List Int) (n : Nat) :
    (List.range n).foldl (partnerStep indices) []
      = (List.range n).map (fun i : Nat => GroupReplica.mk
          (indices.getD (if (i : Int) - 1 < 0 then (indices.length : Int) - 1
            else (i : Int) - 1).toNat 0)
          (indices.getD i 0)
          (indices.getD (if (i : Int) + 1 = (indices.length : Int) then 0
            else (i : Int) + 1).toNat 0)) := by
  induction n with
  | zero => rfl
  | succ n ih =>
    rw [List.range_succ, List.foldl_append, List.map_append, ih]
    rfl

theorem partner_index (n i : Nat) (hi : i < n) :
    ((i : Int) - 1) % (n : Int)
      = (if (i : Int) - 1 < 0 then (n : Int) - 1 else (i : Int) - 1) ∧
    ((i : Int) + 1) % (n : Int) = (if (i : Int) + 1 = (n : Int) then 0 else (i : Int) + 1) ∧
    (((i : Int) + 1) % (n : Int)).toNat < n ∧
    (((((i : Int) + 1) % (n : Int)).toNat : Int) - 1) % (n : Int) = (i : Int) := by
  have hl : ((i : Int) - 1) % (n : Int)
      = if (i : Int) - 1 < 0 then (n : Int) - 1 else (i : Int) - 1 := by
    by_cases h0 : (i : Int) - 1 < 0
    · rw [if_pos h0]
      have hi0 : (i : Int) = 0 := by omega
      rw [hi0, show (0 : Int) - 1 = -1 from rfl]
      rw [Int.emod_eq_add_self_emod, Int.emod_eq_of_lt (by omega) (by omega)]
      ring
    · rw [if_neg h0]
      exact Int.emod_eq_of_lt (by omega) (by omega)
  have hr : ((i : Int) + 1) % (n : Int)
      = if (i : Int) + 1 = (n : Int) then 0 else (i : Int) + 1 := by
    by_cases h0 : (i : Int) + 1 = (n : Int)
    · rw [if_pos h0, h0]
      exact Int.emod_self
    · rw [if_neg h0]
      exact Int.emod_eq_of_lt (by omega) (by omega)
  refine ⟨hl, hr, ?_, ?_⟩
  · rw [hr]
    split_ifs <;> omega
  · rw [hr]
    by_cases h0 : (i : Int) + 1 = (n : Int)
    · rw [if_pos h0]
      show ((0 : Int) - 1) % (n : Int) = (i : Int)
      rw [show (0 : Int) - 1 = -1 from rfl, Int.emod_eq_add_self_emod,
        Int.emod_eq_of_lt (by omega) (by omega)]
      omega
    · rw [if_neg h0, Int.toNat_of_nonneg (by omega)]
      rw [show (i : Int) + 1 - 1 = (i : Int) by ring]
      exact Int.emod_eq_of_lt (by omega) (by omega)

theorem group_entries (indices : List Int) (i : Nat) (hi : i < indices.length) :
    ((List.range indices.length).foldl (partnerStep indices) []).get? i
      = some (GroupReplica.mk
          (indices.getD (((i : Int) - 1) % (indices.length : Int)).toNat 0)
          (indices.getD i 0)
          (indices.getD (((i : Int) + 1) % (indices.length : Int)).toNat 0)) := by
  obtain ⟨hl, hr, -, -⟩ := partner_index indices.length i hi
  rw [partner_fold, hl, hr, List.get?_eq_getElem?, List.getElem?_map, List.getElem?_range hi]
  rfl

/-- Claim C26: for a `group` line with a valid group number that lists the
replica indices `r_0 .. r_(n-1)`, `ReadRemdDimFile` builds exactly `n`
`GroupReplica` entries in list order, entry `i` having `Me = r_i`, left partner
`r_((i-1) mod n)` and right partner `r_((i+1) mod n)`; so the right partner of
entry `i` is the `Me` of entry `(i+1) mod n`, whose left partner is `r_i`. -/
theorem group_partners_ring (group_num : Int) (ints : List Int) (hg : 1 ≤ group_num) :
    ((∀ x ∈ ints, x ≠ -1) → readGroupIndices ints = ints) ∧
    ∃ group : List GroupReplica,
      ReadRemdDimFile_group (group_num :: ints) = some group ∧
      group.length = (readGroupIndices ints).length ∧
      (∀ i : Nat, i < (readGroupIndices ints).length →
        ∃ me next : GroupReplica,
          group.get? i = some me ∧
          group.get? (((i : Int) + 1) % ((readGroupIndices ints).length : Int)).toNat
            = some next ∧
          me.Me = (readGroupIndices ints).getD i 0 ∧
          me.L_partner = (readGroupIndices ints).getD
            (((i : Int) - 1) % ((readGroupIndices ints).length : Int)).toNat 0 ∧
          me.R_partner = (readGroupIndices ints).getD
            (((i : Int) + 1) % ((readGroupIndices ints).length : Int)).toNat 0 ∧
          me.R_partner = next.Me ∧
          next.L_partner = (readGroupIndices ints).getD i 0) := by
  refine ⟨readGroupIndices_all ints, ?_⟩
  have hn : ¬ group_num < 1 := by omega
  refine ⟨(List.range (readGroupIndices ints).length).foldl
    (partnerStep (readGroupIndices ints)) [], ?_, ?_, ?_⟩
  · unfold ReadRemdDimFile_group
    simp only [List.headD_cons, List.tail_cons, hn, if_false]
  · rw [partner_fold, List.length_map, List.length_range]
  · intro i hi
    obtain ⟨-, -, hlt, hback⟩ := partner_index (readGroupIndices ints).length i hi
    have e1 := group_entries (readGroupIndices ints) i hi
    have e2 := group_entries (readGroupIndices ints) _ hlt
    rw [hback] at e2
    exact ⟨_, _, e1, e2, rfl, rfl, rfl, rfl, by simp⟩

theorem group_partners_ring_witness :
    (1 : Int) ≤ 1 ∧
    ReadRemdDimFile_group [1, 5, 6, 7, 8]
      = some [GroupReplica.mk 8 5 6, GroupReplica.mk 5 6 7, GroupReplica.mk 6 7 8,
          GroupReplica.mk 7 8 5] ∧
    ((∀ x ∈ [(5 : Int), 6, 7, 8], x ≠ -1) → readGroupIndices [5, 6, 7, 8] = [5, 6, 7, 8]) :=
  ⟨by decide, by decide, (group_partners_ring 1 [5, 6, 7, 8] (by decide)).1⟩

end Cpptraj
